import Mathlib

/-!
# RTags client (`rc`): command model, command-line compilation and session executor

A shallow embedding of `src/RClient.cpp`.  Stateful code is written with explicit
state passing: the client object is the record `RClient`, the connection is the
record `Connection`, and everything the executor does to the outside world is
appended to a trace of `Action`s.  The transport and the event loop are library
code (`rct`); what they answer is given by a `Transport` script.
-/

namespace RTags

/-! ## Machine integers -/

/-- Conversion of an integer to a two's-complement `int` of 32 bits. -/
def toInt32 (z : Int) : Int :=
  let m := z % 4294967296
  if m < 2147483648 then m else m - 4294967296

/-! ## C strings -/

/-- The text a C-string function (`printf` with `%s`, the constructor `String(const
char *)`, `operator+=(const char *)`) reads from a buffer: the bytes before the first
NUL byte. -/
def cString (buf : List Char) : List Char := buf.takeWhile (fun c => c ≠ Char.ofNat 0)

/-! ## Query messages: types and flags -/

/-- Modelled from the spec: `QueryMessage.h` is not among the sources.  These are the
enumerators of `QueryMessage::Type` that `RClient.cpp` names. -/
inductive QueryType where
  | Invalid
  | FollowLocation
  | SymbolInfo
  | ReferencesLocation
  | ClassHierarchy
  | ReloadFileManager
  | DumpCompletions
  | DumpCompilationDatabase
  | ClearProjects
  | DeleteProject
  | DebugLocations
  | SendDiagnostics
  | Project
  | CheckReindex
  | Reindex
  | FindFile
  | Sources
  | IncludeFile
  | Status
  | ListSymbols
  | FindSymbols
  | JobCount
  | SetBuffers
  | HasFileManager
  | Suspend
  | IsIndexing
  | GenerateTest
  | FixIts
  | DumpFile
  | Diagnose
  | IsIndexed
  | Dependencies
  | DumpFileMaps
  | Tokens
  | PreprocessFile
  | RemoveFile
  | ReferencesName
  | CodeCompleteAt
  | PrepareCodeCompleteAt
  deriving DecidableEq, Repr

/-- Modelled from the spec: `QueryMessage.h` is not among the sources.  These are the
enumerators of `QueryMessage::Flag` that `RClient.cpp` names; the spec calls the
field a bitset, so each enumerator stands for one bit of its own. -/
inductive QueryFlag where
  | NoContext
  | FilterSystemIncludes
  | StripParentheses
  | AllReferences
  | ReverseSort
  | Elisp
  | IMenu
  | MatchRegex
  | MatchCaseInsensitive
  | FindVirtuals
  | Silent
  | AbsolutePath
  | FindFilePreferExact
  | SymbolInfoExcludeParents
  | SymbolInfoExcludeTargets
  | SymbolInfoExcludeReferences
  | DeclarationOnly
  | DefinitionOnly
  | AllTargets
  | CursorKind
  | DisplayName
  | CompilationFlagsOnly
  | CompilationFlagsSplitLine
  | DumpIncludeHeaders
  | SilentQuery
  | SynchronousCompletions
  | NoSortReferencesByInput
  | HasLocation
  | WildcardSymbolNames
  | NoColor
  | Rename
  | ContainingFunction
  | ContainingFunctionLocation
  | DumpCheckIncludes
  | CurrentProjectOnly
  | Wait
  | CodeCompleteIncludeMacros
  | XMLCompletions
  | NoSpellChecking
  | CodeCompleteIncludes
  | TokensIncludeSymbols
  deriving DecidableEq, Repr

/-- Modelled from the spec: the bit of a query flag.  The positions are those of the
enumeration above; only their being distinct single bits is relied on. -/
def QueryFlag.mask (f : QueryFlag) : Nat := 2 ^ f.toCtorIdx

/-- A `Flags<T>` value: a bitset, joined with `|||`. -/
abbrev Flags := Nat

/-- The test `flags & flag` of `Flags<QueryMessage::Flag>`. -/
def Flags.has (fs : Flags) (f : QueryFlag) : Bool := fs &&& f.mask != 0

/-- Modelled from the spec: the kind of a path filter (`QueryMessage::PathFilter`). -/
inductive PathFilterKind where
  | Self
  | Dependency
  deriving DecidableEq, Repr

/-- Modelled from the spec: a path filter, a (path, kind) pair. -/
structure PathFilter where
  pattern : String
  mode : PathFilterKind
  deriving DecidableEq, Repr

/-! ## Log levels -/

/-- A `LogLevel` of the `rct` library: an integer. -/
abbrev LogLevel := Int

/-- The level `LogLevel::None` of `rct/Log.h`. -/
def LogLevel.None : LogLevel := -1

/-- The level `LogLevel::Error` of `rct/Log.h`. -/
def LogLevel.Error : LogLevel := 0

/-- The level `LogLevel::Warning` of `rct/Log.h`. -/
def LogLevel.Warning : LogLevel := 1

/-- Modelled from the spec: `RTags::DiagnosticsLevel`, declared in `RTags.h`, the
level a `--diagnostics` subscription asks for. -/
def DiagnosticsLevel : LogLevel := -2

/-- Modelled from the spec: the format flags of `RTagsLogOutput.h`, one bit each. -/
inductive LogOutputFlag where
  | Elisp
  | XMLCompletions
  | NoSpellChecking
  deriving DecidableEq, Repr

/-- Modelled from the spec: the bit of a log-output format flag. -/
def LogOutputFlag.mask (f : LogOutputFlag) : Nat := 2 ^ f.toCtorIdx

/-! ## Wire messages -/

/-- Modelled from the spec: the Query wire message (`QueryMessage.h`), with the
fields `QueryCommand::exec` sets. -/
structure QueryMessage where
  type : QueryType
  argv : List String
  query : String
  buildIndex : Nat
  unsavedFiles : List (String × String)
  flags : Flags
  max : Int
  pathFilters : List PathFilter
  kindFilters : List String
  minOffset : Int
  maxOffset : Int
  terminalWidth : Int
  currentFile : List String
  deriving DecidableEq, Repr

/-- Modelled from the spec: the Compile wire message (`IndexMessage.h`), with the
fields `CompileCommand::exec` sets. -/
structure IndexMessage where
  argv : List String
  workingDirectory : String
  guessFlags : Bool
  arguments : String
  compilationDatabaseDir : String
  pathEnvironment : List String
  projectRoot : String
  deriving DecidableEq, Repr

/-- Modelled from the spec: the LogSubscribe wire message (`LogOutputMessage.h`). -/
structure LogOutputMessage where
  level : LogLevel
  flags : Nat
  argv : List String
  deriving DecidableEq, Repr

/-- A message handed to `Connection::send`. -/
inductive Message where
  | query (m : QueryMessage)
  | quit (exitCode : Int)
  | logOutput (m : LogOutputMessage)
  | index (m : IndexMessage)
  deriving DecidableEq, Repr

/-- An inbound message: a `ResponseMessage` with its text, or a message with another id. -/
inductive InMessage where
  | response (data : String)
  | other (messageId : Int)
  deriving DecidableEq, Repr

/-! ## Commands -/

/-- The command hierarchy `RCCommand`: `QueryCommand`, `QuitCommand`,
`RdmLogCommand` and `CompileCommand` with their data members. -/
inductive RCCommand where
  | QueryCommand (type : QueryType) (query : String) (extraQueryFlags : Flags)
  | QuitCommand (mExitCode : Int)
  | RdmLogCommand (mLevel : LogLevel)
  | CompileCommand (compilationDatabaseDir : String) (cwd : String) (args : String)
  deriving DecidableEq, Repr

/-- The sentinel `RdmLogCommand::Default`. -/
def RdmLogCommand.Default : LogLevel := -1

/-- The constant `DEFAULT_CONNECT_TIMEOUT`. -/
def DEFAULT_CONNECT_TIMEOUT : Int := 1000

/-- Modelled from the spec: `RClient::Flag_Autotest`, declared in `RClient.h`. -/
def Flag_Autotest : Nat := 1

/-- The data members of `RClient` (declared in `RClient.h`), initialised as the
constructor does; the terminal width is what the constructor computed. -/
structure RClient where
  mQueryFlags : Flags := 0
  mMax : Int := -1
  mTimeout : Int := -1
  mMinOffset : Int := -1
  mMaxOffset : Int := -1
  mConnectTimeout : Int := DEFAULT_CONNECT_TIMEOUT
  mBuildIndex : Nat := 0
  mLogLevel : LogLevel := LogLevel.Error
  mTcpPort : Int := 0
  mGuessFlags : Bool := false
  mTerminalWidth : Int := 1024
  mArgv : List String := []
  mFlags : Nat := 0
  mPathFilters : List PathFilter := []
  mKindFilters : List String := []
  mUnsavedFiles : List (String × String) := []
  mCommands : List RCCommand := []
  mSocketFile : String := ""
  mCurrentFile : List String := []
  mTcpHost : String := ""
  mProjectRoot : String := ""
  mPathEnvironment : List String := []
  deriving DecidableEq, Repr

/-- The constructor: the terminal width is the column count the terminal reports,
or 1024 when that is not positive. -/
def RClient.new (wsCol : Int) : RClient :=
  { mTerminalWidth := if wsCol ≤ 0 then 1024 else wsCol }

/-- The method `RClient::addQuery`. -/
def RClient.addQuery (rc : RClient) (type : QueryType) (query : String)
    (extraQueryFlags : Flags) : RClient :=
  { rc with mCommands := rc.mCommands ++ [RCCommand.QueryCommand type query extraQueryFlags] }

/-- The method `RClient::addQuitCommand`. -/
def RClient.addQuitCommand (rc : RClient) (exitCode : Int) : RClient :=
  { rc with mCommands := rc.mCommands ++ [RCCommand.QuitCommand exitCode] }

/-- The method `RClient::addLog`. -/
def RClient.addLog (rc : RClient) (level : LogLevel) : RClient :=
  { rc with mCommands := rc.mCommands ++ [RCCommand.RdmLogCommand level] }

/-- The method `RClient::addCompile(cwd, args)`. -/
def RClient.addCompile (rc : RClient) (cwd : String) (args : String) : RClient :=
  { rc with mCommands := rc.mCommands ++ [RCCommand.CompileCommand "" cwd args] }

/-- The method `RClient::addCompile(dir)`. -/
def RClient.addCompileDir (rc : RClient) (dir : String) : RClient :=
  { rc with mCommands := rc.mCommands ++ [RCCommand.CompileCommand dir "" ""] }

/-- The method `RClient::pathEnvironment`: the cached list, filled from
`Rct::pathEnvironment()` (here `rctPathEnv`) when it is empty. -/
def RClient.pathEnvironment (rc : RClient) (rctPathEnv : List String) : RClient × List String :=
  if rc.mPathEnvironment.isEmpty then
    ({ rc with mPathEnvironment := rctPathEnv }, rctPathEnv)
  else (rc, rc.mPathEnvironment)

/-- The message `QueryCommand::exec` builds. -/
def QueryCommand.message (rc : RClient) (type : QueryType) (query : String)
    (extraQueryFlags : Flags) : QueryMessage :=
  { type := type
    argv := rc.mArgv
    query := query
    buildIndex := rc.mBuildIndex
    unsavedFiles := rc.mUnsavedFiles
    flags := extraQueryFlags ||| rc.mQueryFlags
    max := rc.mMax
    pathFilters := rc.mPathFilters
    kindFilters := rc.mKindFilters
    minOffset := rc.mMinOffset
    maxOffset := rc.mMaxOffset
    terminalWidth := rc.mTerminalWidth
    currentFile := rc.mCurrentFile }

/-- The message `RdmLogCommand::exec` builds. -/
def RdmLogCommand.message (rc : RClient) (mLevel : LogLevel) : LogOutputMessage :=
  let flags : Nat :=
    if rc.mQueryFlags.has QueryFlag.Elisp then 0 ||| LogOutputFlag.Elisp.mask
    else if rc.mQueryFlags.has QueryFlag.XMLCompletions then 0 ||| LogOutputFlag.XMLCompletions.mask
    else if rc.mQueryFlags.has QueryFlag.NoSpellChecking then 0 ||| LogOutputFlag.NoSpellChecking.mask
    else 0
  let level := if mLevel = RdmLogCommand.Default then rc.mLogLevel else mLevel
  { level := level, flags := flags, argv := rc.mArgv }

/-- The message `CompileCommand::exec` builds, with the client after the call (the
path environment is cached on first use). -/
def CompileCommand.message (rc : RClient) (rctPathEnv : List String)
    (compilationDatabaseDir cwd args : String) : RClient × IndexMessage :=
  let (rc1, pathEnv) := rc.pathEnvironment rctPathEnv
  (rc1,
   { argv := rc.mArgv
     workingDirectory := cwd
     guessFlags := rc.mGuessFlags
     arguments := args
     compilationDatabaseDir := compilationDatabaseDir
     pathEnvironment := pathEnv
     projectRoot := if !rc.mProjectRoot.isEmpty then rc.mProjectRoot else "" })

/-- The one message a command hands to `connection->send` in its `exec`, with the
client after the call. -/
def RCCommand.message (rc : RClient) (rctPathEnv : List String) : RCCommand → RClient × Message
  | RCCommand.QueryCommand type query extra => (rc, Message.query (QueryCommand.message rc type query extra))
  | RCCommand.QuitCommand code => (rc, Message.quit code)
  | RCCommand.RdmLogCommand level => (rc, Message.logOutput (RdmLogCommand.message rc level))
  | RCCommand.CompileCommand dir cwd args =>
      let (rc1, m) := CompileCommand.message rc rctPathEnv dir cwd args
      (rc1, Message.index m)

/-! ## Transport and event loop (library `rct`)

`Connection` and `EventLoop` are library classes.  A `Transport` says what they
answer to the calls `RClient::exec` makes; the handlers `exec` wires to the
connection's signals are run by `loopExec` on the signals the script raises. -/

/-- The results of `EventLoop::exec`. -/
inductive LoopStatus where
  | Success
  | GeneralError
  | Timeout
  deriving DecidableEq, Repr

/-- A signal the connection raises while the event loop runs. -/
inductive ConnEvent where
  | newMessage (m : InMessage)
  | finished (status : Int)
  | disconnected
  | connected
  deriving DecidableEq, Repr

/-- One run of `EventLoop::exec`: the signals raised during it, in order, and the
result of the run when no handler calls `quit` (the time-out elapsed, or the loop
failed). -/
structure LoopRun where
  events : List ConnEvent
  idle : LoopStatus
  deriving DecidableEq, Repr

/-- What the executor reads of a `Connection`: `isConnected()`, `finishStatus()`
and whether `client()` is non-null. -/
structure Connection where
  isConnected : Bool
  finishStatus : Int
  client : Bool
  deriving DecidableEq, Repr

/-- The script of the transport for one run of `RClient::exec`. -/
structure Transport where
  /-- The finish status of a connection that has received no completion signal. -/
  finishStatus0 : Int
  /-- The result of `connectTcp`. -/
  connectTcp : Bool
  /-- The run of `loop->exec(mConnectTimeout)`. -/
  connectWait : LoopRun
  /-- The result of `connectUnix`. -/
  connectUnix : Bool
  /-- Whether the connection holds a client once a connect call has succeeded. -/
  client : Bool
  /-- The result of `connection->send` in the exec of command `i`. -/
  send : Nat → Bool
  /-- The run of `loop->exec(timeout())` after command `i` was sent. -/
  wait : Nat → LoopRun
  /-- The value of `Rct::pathEnvironment()`. -/
  pathEnvironment : List String

/-- What `RClient::exec` does to the outside world, in order.  A `send` carries the
message handed to `connection->send` and the result of the call. -/
inductive Action where
  | connectTcp (host : String) (port : Int) (timeout : Int)
  | connectUnix (socketFile : String) (timeout : Int)
  | loopExec (timeout : Int)
  | send (msg : Message) (ok : Bool)
  | close
  | stdout (text : String)
  | flushStdout
  | error (text : String)
  deriving DecidableEq, Repr

/-- The handler `RClient::onNewMessage`: what it writes.  The response is printed with
`%s` from `response.constData()`, so up to its first NUL byte. -/
def RClient.onNewMessage (rc : RClient) : InMessage → List Action
  | InMessage.response response =>
      if ¬ response.isEmpty ∧ rc.mLogLevel ≥ LogLevel.Error then
        [Action.stdout (String.mk (cString response.data) ++ "\n"), Action.flushStdout]
      else []
  | InMessage.other messageId => [Action.error ("Unexpected message: " ++ toString messageId)]

/-- The connection after it raised a signal: a completion signal carries the finish
status, `connected` and `disconnected` change whether it is connected. -/
def Connection.raise (c : Connection) : ConnEvent → Connection
  | ConnEvent.newMessage _ => c
  | ConnEvent.finished status => { c with finishStatus := status }
  | ConnEvent.disconnected => { c with isConnected := false }
  | ConnEvent.connected => { c with isConnected := true }

/-- The connection after it raised a list of signals. -/
def Connection.raiseAll (c : Connection) (events : List ConnEvent) : Connection :=
  events.foldl Connection.raise c

/-- Whether the handler `exec` wired to a signal calls `EventLoop::quit`: the
handlers of `finished` and `disconnected` do, the one of `connected` does once it
has been wired (on the TCP path), `onNewMessage` does not. -/
def quits (connectedWired : Bool) : ConnEvent → Bool
  | ConnEvent.newMessage _ => false
  | ConnEvent.finished _ => true
  | ConnEvent.disconnected => true
  | ConnEvent.connected => connectedWired

/-- What the handlers wired by `exec` write for a signal. -/
def handlerOutput (rc : RClient) : ConnEvent → List Action
  | ConnEvent.newMessage m => rc.onNewMessage m
  | _ => []

/-- The result of one run of `EventLoop::exec` with the handlers of `exec` wired:
`Success` when a handler called `quit`, and the run's idle result otherwise. -/
def LoopRun.status (run : LoopRun) (connectedWired : Bool) : LoopStatus :=
  if run.events.any (quits connectedWired) then LoopStatus.Success else run.idle

/-- One run of `EventLoop::exec` with the handlers of `exec` wired: its result, the
connection after it, and what the handlers wrote. -/
def loopExec (rc : RClient) (connectedWired : Bool) (run : LoopRun) (c : Connection) :
    LoopStatus × Connection × List Action :=
  (run.status connectedWired, c.raiseAll run.events, run.events.flatMap (handlerOutput rc))

/-- The variables of the command loop of `RClient::exec`. -/
structure LoopState where
  rc : RClient
  connection : Connection
  trace : List Action
  ret : Int
  hasZeroExit : Bool
  deriving DecidableEq, Repr

/-- The command loop of `RClient::exec`, from command `i` on: `cmds` are the
commands `mCommands.at(i)`, `mCommands.at(i+1)`, ... -/
def runCommands (t : Transport) (connectedWired : Bool) :
    Nat → List RCCommand → LoopState → LoopState
  | _, [], s => s
  | i, cmd :: rest, s =>
    let rc1 := (cmd.message s.rc t.pathEnvironment).1
    let msg := (cmd.message s.rc t.pathEnvironment).2
    let trace1 := s.trace ++ [Action.send msg (t.send i)]
    if !t.send i then
      { s with rc := rc1, trace := trace1, ret := 1 }
    else
      let w := loopExec rc1 connectedWired (t.wait i) s.connection
      let trace2 := trace1 ++ [Action.loopExec rc1.mTimeout] ++ w.2.2
      if w.1 ≠ LoopStatus.Success then
        { s with rc := rc1, connection := w.2.1, trace := trace2, ret := 1 }
      else
        runCommands t connectedWired (i + 1) rest
          { rc := rc1, connection := w.2.1, trace := trace2, ret := s.ret,
            hasZeroExit := if w.2.1.finishStatus = 0 then true else s.hasZeroExit }

/-- What `RClient::exec` leaves behind: its return value, the client, the connection
and the trace of its actions. -/
structure ExecResult where
  ret : Int
  rc : RClient
  connection : Connection
  trace : List Action
  deriving DecidableEq, Repr

/-- The part of `RClient::exec` after the connection is established: the command
loop, closing the client, clearing the queue and the final status. -/
def execCommands (t : Transport) (connectedWired : Bool) (rc : RClient) (c : Connection)
    (trace : List Action) : ExecResult :=
  let s := runCommands t connectedWired 0 rc.mCommands
    { rc := rc, connection := c, trace := trace, ret := 0, hasZeroExit := false }
  let trace1 := if s.connection.client then s.trace ++ [Action.close] else s.trace
  let rc1 := { s.rc with mCommands := [] }
  let ret :=
    if s.ret = 0 ∧ rc1.mFlags &&& Flag_Autotest = 0 ∧ s.hasZeroExit = false then
      s.connection.finishStatus
    else s.ret
  { ret := ret, rc := rc1, connection := s.connection, trace := trace1 }

/-- The message printed when connecting over TCP fails. -/
def cantConnectTcp (rc : RClient) : String :=
  "Can't seem to connect to server (" ++ rc.mTcpHost ++ ":" ++ toString rc.mTcpPort ++ ")\n"

/-- The message printed when connecting to the socket file fails. -/
def cantConnectUnix (rc : RClient) : String :=
  "Can't seem to connect to server (" ++ rc.mSocketFile ++ ")\n"

/-- The connection `Connection::create` returns. -/
def Transport.create (t : Transport) : Connection :=
  { isConnected := false, finishStatus := t.finishStatus0, client := false }

/-- The method `RClient::exec`. -/
def RClient.exec (rc : RClient) (t : Transport) : ExecResult :=
  let connection := t.create
  if rc.mTcpPort ≠ 0 then
    let trace := [Action.connectTcp rc.mTcpHost rc.mTcpPort rc.mConnectTimeout]
    if !t.connectTcp then
      { ret := 1, rc := rc, connection := connection,
        trace := trace ++
          (if rc.mLogLevel ≥ LogLevel.Error then [Action.stdout (cantConnectTcp rc)] else []) }
    else
      let w := loopExec rc true t.connectWait { connection with client := t.client }
      let trace := trace ++ [Action.loopExec rc.mConnectTimeout] ++ w.2.2
      if !w.2.1.isConnected then
        { ret := 1, rc := rc, connection := w.2.1,
          trace := trace ++
            (if rc.mLogLevel ≥ LogLevel.Error then
              [Action.stdout (if rc.mTcpPort ≠ 0 then cantConnectTcp rc else cantConnectUnix rc)]
             else []) }
      else execCommands t true rc w.2.1 trace
  else
    let trace := [Action.connectUnix rc.mSocketFile rc.mConnectTimeout]
    if !t.connectUnix then
      { ret := 1, rc := rc, connection := connection,
        trace := trace ++
          (if rc.mLogLevel ≥ LogLevel.Error then [Action.stdout (cantConnectUnix rc)] else []) }
    else
      execCommands t false rc { connection with isConnected := true, client := t.client } trace

/-! ## Observations on a run of the executor -/

/-- The messages handed to `connection->send` in a trace, in order. -/
def sentMessages : List Action → List Message
  | [] => []
  | Action.send m _ :: rest => m :: sentMessages rest
  | _ :: rest => sentMessages rest

/-- Whether an action is a send or a run of the event loop. -/
def Action.isDispatch : Action → Bool
  | Action.send _ _ => true
  | Action.loopExec _ => true
  | _ => false

/-- The sends and the runs of the event loop of a trace, in order. -/
def dispatchOrder (trace : List Action) : List Action := trace.filter Action.isDispatch

/-- The number of times the client of the connection is closed in a trace. -/
def closeCount (trace : List Action) : Nat := trace.count Action.close

/-- Whether the handler of `connected` is wired: it is on the TCP path. -/
def RClient.connectedWired (rc : RClient) : Bool := decide (rc.mTcpPort ≠ 0)

/-- Whether command `i` goes through: its send succeeds and the wait after it ends
with `Success`. -/
def Transport.commandOk (t : Transport) (connectedWired : Bool) (i : Nat) : Bool :=
  t.send i && decide ((t.wait i).status connectedWired = LoopStatus.Success)

/-- The connection when the connect phase of `exec` is over. -/
def RClient.connectionReady (rc : RClient) (t : Transport) : Connection :=
  if rc.mTcpPort ≠ 0 then
    Connection.raiseAll { t.create with client := t.client } t.connectWait.events
  else { t.create with isConnected := true, client := t.client }

/-- Whether the connect phase of `exec` establishes the connection: `connectUnix`
returns true, or `connectTcp` does and the connection is connected when the
connect wait is over. -/
def RClient.establishes (rc : RClient) (t : Transport) : Bool :=
  if rc.mTcpPort ≠ 0 then t.connectTcp && (rc.connectionReady t).isConnected
  else t.connectUnix

/-- The signals raised during the waits of the commands `i`, ..., `i + n - 1`. -/
def Transport.eventsFrom (t : Transport) (i n : Nat) : List ConnEvent :=
  (List.range' i n).flatMap (fun j => (t.wait j).events)

/-- The completion status of command `i`: what `connection->finishStatus()` is once
the waits of the commands up to `i` are over. -/
def RClient.completionStatus (rc : RClient) (t : Transport) (i : Nat) : Int :=
  (Connection.raiseAll (rc.connectionReady t) (t.eventsFrom 0 (i + 1))).finishStatus

/-- The messages the commands of a queue build, in queue order. -/
def commandMessages (rctPathEnv : List String) : RClient → List RCCommand → List Message
  | _, [] => []
  | rc, cmd :: rest =>
    (cmd.message rc rctPathEnv).2 :: commandMessages rctPathEnv (cmd.message rc rctPathEnv).1 rest

/-- The number of commands among `i`, ..., `i + n - 1` whose `exec` runs: the loop
stops after the first one that does not go through. -/
def Transport.attempted (t : Transport) (connectedWired : Bool) : Nat → Nat → Nat
  | _, 0 => 0
  | i, n + 1 => if t.commandOk connectedWired i then 1 + t.attempted connectedWired (i + 1) n else 1

/-- Strict alternation: message `i`, the wait for it, message `i + 1`, the wait for
it, ... -/
def dispatchPlan (t : Transport) (timeout : Int) : Nat → List Message → List Action
  | _, [] => []
  | i, m :: ms =>
    Action.send m (t.send i) :: Action.loopExec timeout :: dispatchPlan t timeout (i + 1) ms

/-- Whether the client runs in autotest mode: the test `mFlags & Flag_Autotest`. -/
def RClient.autotest (rc : RClient) : Bool := rc.mFlags &&& Flag_Autotest != 0

/-- The finish status of the connection when the command loop is over, every
command of the queue having gone through. -/
def RClient.finalStatus (rc : RClient) (t : Transport) : Int :=
  (Connection.raiseAll (rc.connectionReady t) (t.eventsFrom 0 rc.mCommands.length)).finishStatus

/-- The trace of the connect phase of `exec` when it establishes the connection. -/
def RClient.connectTrace (rc : RClient) (t : Transport) : List Action :=
  if rc.mTcpPort ≠ 0 then
    [Action.connectTcp rc.mTcpHost rc.mTcpPort rc.mConnectTimeout]
      ++ [Action.loopExec rc.mConnectTimeout]
      ++ t.connectWait.events.flatMap (handlerOutput rc)
  else [Action.connectUnix rc.mSocketFile rc.mConnectTimeout]

/-! ## Concrete transports and queues -/

/-- A transport on which connecting succeeds, every send succeeds, and the wait after
command `i` gets the completion signal with status `status i` at once. -/
def Transport.completing (status : Nat → Int) : Transport :=
  { finishStatus0 := 0
    connectTcp := true
    connectWait := { events := [ConnEvent.connected], idle := LoopStatus.Timeout }
    connectUnix := true
    client := true
    send := fun _ => true
    wait := fun i => { events := [ConnEvent.finished (status i)], idle := LoopStatus.Timeout }
    pathEnvironment := [] }

/-- A transport like `Transport.completing`, except that the wait after command `k`
gets no signal and ends with the time-out. -/
def Transport.timingOutAt (k : Nat) (status : Nat → Int) : Transport :=
  { Transport.completing status with
    wait := fun i =>
      if i = k then { events := [], idle := LoopStatus.Timeout }
      else { events := [ConnEvent.finished (status i)], idle := LoopStatus.Timeout } }

/-- A transport like `Transport.completing`, except that the connection drops during
the wait after command `k` and refuses every later send. -/
def Transport.droppingAt (k : Nat) (status : Nat → Int) : Transport :=
  { Transport.completing status with
    send := fun i => decide (i ≤ k)
    wait := fun i =>
      if i = k then { events := [ConnEvent.disconnected], idle := LoopStatus.Timeout }
      else { events := [ConnEvent.finished (status i)], idle := LoopStatus.Timeout } }

/-- A transport whose socket file cannot be connected to. -/
def Transport.refusing : Transport :=
  { Transport.completing (fun _ => 0) with connectUnix := false, connectTcp := false }

/-- A client with the queue `--status`, `--is-indexing`, talking to a socket file. -/
def statusThenIsIndexing : RClient :=
  { mSocketFile := "/home/user/.rdm"
    mCommands := [RCCommand.QueryCommand QueryType.Status "" 0,
                  RCCommand.QueryCommand QueryType.IsIndexing "" 0] }

/-- A client with the queue `--status`, `--is-indexing`, `--quit-rdm`. -/
def threeCommands : RClient :=
  { mSocketFile := "/home/user/.rdm"
    mCommands := [RCCommand.QueryCommand QueryType.Status "" 0,
                  RCCommand.QueryCommand QueryType.IsIndexing "" 0,
                  RCCommand.QuitCommand 0] }

/-- A client with the single command `--is-indexing`. -/
def isIndexingOnly : RClient :=
  { mSocketFile := "/home/user/.rdm"
    mCommands := [RCCommand.QueryCommand QueryType.IsIndexing "" 0] }

/-- The queue of the follow-location scenario: a FollowLocation query for an encoded
location, then Quit(0). -/
def followThenQuit (token : String) : List RCCommand :=
  [RCCommand.QueryCommand QueryType.FollowLocation token QueryFlag.HasLocation.mask,
   RCCommand.QuitCommand 0]

/-- A client, otherwise arbitrary, whose queue is that of the follow-location
scenario. -/
def followThenQuitClient (base : RClient) (token : String) : RClient :=
  { base with mCommands := followThenQuit token }

/-! ## The lifetime of the connection object -/

/-- Modelled from the spec: the destructor of `Connection` (library `rct`, not among
the sources), which releases the connection: it closes the client the connection
holds, unless that was closed before (`closed`). -/
def Connection.destroy (c : Connection) (closed : Bool) : List Action :=
  if c.client && !closed then [Action.close] else []

/-- A run of `RClient::exec` up to the return to its caller: the actions of `exec`,
then the destruction of the local `std::shared_ptr<Connection> connection`, the only
owner of the connection object, which goes out of scope at every `return`. -/
def RClient.execToReturn (rc : RClient) (t : Transport) : List Action :=
  (rc.exec t).trace ++
    (rc.exec t).connection.destroy (decide (0 < closeCount (rc.exec t).trace))

/-- A transport on which `connectTcp` succeeds and the connection holds a client, but
the connect wait ends with the time-out before the connection is connected. -/
def Transport.neverConnected : Transport :=
  { Transport.completing (fun _ => 0) with
    connectWait := { events := [], idle := LoopStatus.Timeout } }

/-- A client with the single command `--is-indexing`, talking to a TCP address. -/
def tcpClient : RClient :=
  { mTcpHost := "localhost"
    mTcpPort := 8080
    mCommands := [RCCommand.QueryCommand QueryType.IsIndexing "" 0] }

/-- The enumerators of `RClient::OptionType` that the option table `opts` names, for
a build with a clang newer than 3.3 and without Lua; the markers `None` and
`NumOptions` never reach the option switch. -/
inductive OptionType where
  | Verbose
  | Version
  | Silent
  | Help
  | QuitRdm
  | ConnectTimeout
  | Clear
  | Project
  | DeleteProject
  | JobCount
  | Compile
  | GuessFlags
  | LoadCompilationDatabase
  | Suspend
  | FollowLocation
  | ReferenceName
  | ReferenceLocation
  | ListSymbols
  | FindSymbols
  | SymbolInfo
  | Status
  | Diagnose
  | IsIndexed
  | IsIndexing
  | HasFileManager
  | PreprocessFile
  | Reindex
  | CheckReindex
  | FindFile
  | CurrentProject
  | DumpFile
  | CheckIncludes
  | DumpFileMaps
  | GenerateTest
  | RdmLog
  | FixIts
  | RemoveFile
  | FindProjectRoot
  | FindProjectBuildRoot
  | IncludeFile
  | Sources
  | Dependencies
  | AllDependencies
  | ReloadFileManager
  | Man
  | CodeCompleteAt
  | PrepareCodeCompleteAt
  | SendDiagnostics
  | DumpCompletions
  | DumpCompilationDatabase
  | SetBuffers
  | ListBuffers
  | ClassHierarchy
  | DebugLocations
  | Tokens
  | StripParen
  | Max
  | ReverseSort
  | Rename
  | UnsavedFile
  | LogFile
  | NoContext
  | PathFilter
  | DependencyFilter
  | RangeFilter
  | FilterSystemHeaders
  | AllReferences
  | AllTargets
  | Elisp
  | Diagnostics
  | MatchRegex
  | MatchCaseInsensitive
  | AbsolutePath
  | SocketFile
  | SocketAddress
  | Timeout
  | FindVirtuals
  | FindFilePreferExact
  | SymbolInfoExcludeParents
  | SymbolInfoExcludeTargets
  | SymbolInfoExcludeReferences
  | CursorKind
  | DisplayName
  | CurrentFile
  | DeclarationOnly
  | DefinitionOnly
  | KindFilter
  | IMenu
  | ContainingFunction
  | ContainingFunctionLocation
  | BuildIndex
  | CompilationFlagsOnly
  | CompilationFlagsSplitLine
  | DumpIncludeHeaders
  | SilentQuery
  | SynchronousCompletions
  | XMLCompletions
  | NoSortReferencesByInput
  | ProjectRoot
  | RTagsConfig
  | WildcardSymbolNames
  | NoColor
  | Wait
  | Autotest
  | CodeCompleteIncludeMacros
  | CodeCompleteIncludes
  | NoSpellCheckinging
  | TokensIncludeSymbols
  deriving DecidableEq, Repr

/-- Whether an option takes an argument (`getopt.h`). -/
inductive ArgKind where
  | no_argument
  | required_argument
  | optional_argument
  deriving DecidableEq, Repr

/-- An entry of the option table (`struct Option`, without its description). -/
structure OptionEntry where
  option : OptionType
  longOpt : String
  shortOpt : Option Char
  argument : ArgKind
  deriving DecidableEq, Repr

/-- The option table `opts`, without the section headings (the entries whose option
is `None`). -/
def opts : List OptionEntry :=
  [
  OptionEntry.mk OptionType.Verbose "verbose" (some 'v') ArgKind.no_argument,
  OptionEntry.mk OptionType.Version "version" none ArgKind.no_argument,
  OptionEntry.mk OptionType.Silent "silent" (some 'Q') ArgKind.no_argument,
  OptionEntry.mk OptionType.Help "help" (some 'h') ArgKind.no_argument,
  OptionEntry.mk OptionType.QuitRdm "quit-rdm" (some 'q') ArgKind.no_argument,
  OptionEntry.mk OptionType.ConnectTimeout "connect-timeout" none ArgKind.required_argument,
  OptionEntry.mk OptionType.Clear "clear" (some 'C') ArgKind.no_argument,
  OptionEntry.mk OptionType.Project "project" (some 'w') ArgKind.optional_argument,
  OptionEntry.mk OptionType.DeleteProject "delete-project" (some 'W') ArgKind.required_argument,
  OptionEntry.mk OptionType.JobCount "job-count" (some 'j') ArgKind.optional_argument,
  OptionEntry.mk OptionType.Compile "compile" (some 'c') ArgKind.optional_argument,
  OptionEntry.mk OptionType.GuessFlags "guess-flags" none ArgKind.no_argument,
  OptionEntry.mk OptionType.LoadCompilationDatabase "load-compilation-database" (some 'J') ArgKind.optional_argument,
  OptionEntry.mk OptionType.Suspend "suspend" (some 'X') ArgKind.optional_argument,
  OptionEntry.mk OptionType.FollowLocation "follow-location" (some 'f') ArgKind.required_argument,
  OptionEntry.mk OptionType.ReferenceName "references-name" (some 'R') ArgKind.required_argument,
  OptionEntry.mk OptionType.ReferenceLocation "references" (some 'r') ArgKind.required_argument,
  OptionEntry.mk OptionType.ListSymbols "list-symbols" (some 'S') ArgKind.optional_argument,
  OptionEntry.mk OptionType.FindSymbols "find-symbols" (some 'F') ArgKind.optional_argument,
  OptionEntry.mk OptionType.SymbolInfo "symbol-info" (some 'U') ArgKind.required_argument,
  OptionEntry.mk OptionType.Status "status" (some 's') ArgKind.optional_argument,
  OptionEntry.mk OptionType.Diagnose "diagnose" none ArgKind.required_argument,
  OptionEntry.mk OptionType.IsIndexed "is-indexed" (some 'T') ArgKind.required_argument,
  OptionEntry.mk OptionType.IsIndexing "is-indexing" none ArgKind.no_argument,
  OptionEntry.mk OptionType.HasFileManager "has-filemanager" none ArgKind.optional_argument,
  OptionEntry.mk OptionType.PreprocessFile "preprocess" (some 'E') ArgKind.required_argument,
  OptionEntry.mk OptionType.Reindex "reindex" (some 'V') ArgKind.optional_argument,
  OptionEntry.mk OptionType.CheckReindex "check-reindex" (some 'x') ArgKind.optional_argument,
  OptionEntry.mk OptionType.FindFile "path" (some 'P') ArgKind.optional_argument,
  OptionEntry.mk OptionType.CurrentProject "current-project" none ArgKind.no_argument,
  OptionEntry.mk OptionType.DumpFile "dump-file" (some 'd') ArgKind.required_argument,
  OptionEntry.mk OptionType.CheckIncludes "check-includes" none ArgKind.required_argument,
  OptionEntry.mk OptionType.DumpFileMaps "dump-file-maps" none ArgKind.required_argument,
  OptionEntry.mk OptionType.GenerateTest "generate-test" none ArgKind.required_argument,
  OptionEntry.mk OptionType.RdmLog "rdm-log" (some 'g') ArgKind.no_argument,
  OptionEntry.mk OptionType.FixIts "fixits" none ArgKind.required_argument,
  OptionEntry.mk OptionType.RemoveFile "remove" (some 'D') ArgKind.required_argument,
  OptionEntry.mk OptionType.FindProjectRoot "find-project-root" none ArgKind.required_argument,
  OptionEntry.mk OptionType.FindProjectBuildRoot "find-project-build-root" none ArgKind.required_argument,
  OptionEntry.mk OptionType.IncludeFile "include-file" none ArgKind.required_argument,
  OptionEntry.mk OptionType.Sources "sources" none ArgKind.optional_argument,
  OptionEntry.mk OptionType.Dependencies "dependencies" none ArgKind.required_argument,
  OptionEntry.mk OptionType.AllDependencies "all-dependencies" none ArgKind.no_argument,
  OptionEntry.mk OptionType.ReloadFileManager "reload-file-manager" (some 'B') ArgKind.no_argument,
  OptionEntry.mk OptionType.Man "man" none ArgKind.no_argument,
  OptionEntry.mk OptionType.CodeCompleteAt "code-complete-at" (some 'l') ArgKind.required_argument,
  OptionEntry.mk OptionType.PrepareCodeCompleteAt "prepare-code-complete-at" (some 'b') ArgKind.required_argument,
  OptionEntry.mk OptionType.SendDiagnostics "send-diagnostics" none ArgKind.required_argument,
  OptionEntry.mk OptionType.DumpCompletions "dump-completions" none ArgKind.no_argument,
  OptionEntry.mk OptionType.DumpCompilationDatabase "dump-compilation-database" none ArgKind.no_argument,
  OptionEntry.mk OptionType.SetBuffers "set-buffers" none ArgKind.optional_argument,
  OptionEntry.mk OptionType.ListBuffers "list-buffers" none ArgKind.no_argument,
  OptionEntry.mk OptionType.ClassHierarchy "class-hierarchy" none ArgKind.required_argument,
  OptionEntry.mk OptionType.DebugLocations "debug-locations" none ArgKind.optional_argument,
  OptionEntry.mk OptionType.Tokens "tokens" none ArgKind.required_argument,
  OptionEntry.mk OptionType.StripParen "strip-paren" (some 'p') ArgKind.no_argument,
  OptionEntry.mk OptionType.Max "max" (some 'M') ArgKind.required_argument,
  OptionEntry.mk OptionType.ReverseSort "reverse-sort" (some 'O') ArgKind.no_argument,
  OptionEntry.mk OptionType.Rename "rename" none ArgKind.no_argument,
  OptionEntry.mk OptionType.UnsavedFile "unsaved-file" none ArgKind.required_argument,
  OptionEntry.mk OptionType.LogFile "log-file" (some 'L') ArgKind.required_argument,
  OptionEntry.mk OptionType.NoContext "no-context" (some 'N') ArgKind.no_argument,
  OptionEntry.mk OptionType.PathFilter "path-filter" (some 'i') ArgKind.required_argument,
  OptionEntry.mk OptionType.DependencyFilter "dependency-filter" none ArgKind.required_argument,
  OptionEntry.mk OptionType.RangeFilter "range-filter" none ArgKind.required_argument,
  OptionEntry.mk OptionType.FilterSystemHeaders "filter-system-headers" (some 'H') ArgKind.no_argument,
  OptionEntry.mk OptionType.AllReferences "all-references" (some 'e') ArgKind.no_argument,
  OptionEntry.mk OptionType.AllTargets "all-targets" none ArgKind.no_argument,
  OptionEntry.mk OptionType.Elisp "elisp" (some 'Y') ArgKind.no_argument,
  OptionEntry.mk OptionType.Diagnostics "diagnostics" (some 'm') ArgKind.no_argument,
  OptionEntry.mk OptionType.MatchRegex "match-regexp" (some 'Z') ArgKind.no_argument,
  OptionEntry.mk OptionType.MatchCaseInsensitive "match-icase" (some 'I') ArgKind.no_argument,
  OptionEntry.mk OptionType.AbsolutePath "absolute-path" (some 'K') ArgKind.no_argument,
  OptionEntry.mk OptionType.SocketFile "socket-file" (some 'n') ArgKind.required_argument,
  OptionEntry.mk OptionType.SocketAddress "socket-address" none ArgKind.required_argument,
  OptionEntry.mk OptionType.Timeout "timeout" (some 'y') ArgKind.required_argument,
  OptionEntry.mk OptionType.FindVirtuals "find-virtuals" (some 'k') ArgKind.no_argument,
  OptionEntry.mk OptionType.FindFilePreferExact "find-file-prefer-exact" (some 'A') ArgKind.no_argument,
  OptionEntry.mk OptionType.SymbolInfoExcludeParents "symbol-info-exclude-parents" none ArgKind.no_argument,
  OptionEntry.mk OptionType.SymbolInfoExcludeTargets "symbol-info-exclude-targets" none ArgKind.no_argument,
  OptionEntry.mk OptionType.SymbolInfoExcludeReferences "symbol-info-exclude-references" none ArgKind.no_argument,
  OptionEntry.mk OptionType.CursorKind "cursor-kind" none ArgKind.no_argument,
  OptionEntry.mk OptionType.DisplayName "display-name" none ArgKind.no_argument,
  OptionEntry.mk OptionType.CurrentFile "current-file" none ArgKind.required_argument,
  OptionEntry.mk OptionType.DeclarationOnly "declaration-only" none ArgKind.no_argument,
  OptionEntry.mk OptionType.DefinitionOnly "definition-only" none ArgKind.no_argument,
  OptionEntry.mk OptionType.KindFilter "kind-filter" none ArgKind.required_argument,
  OptionEntry.mk OptionType.IMenu "imenu" none ArgKind.no_argument,
  OptionEntry.mk OptionType.ContainingFunction "containing-function" (some 'o') ArgKind.no_argument,
  OptionEntry.mk OptionType.ContainingFunctionLocation "containing-function-location" none ArgKind.no_argument,
  OptionEntry.mk OptionType.BuildIndex "build-index" none ArgKind.required_argument,
  OptionEntry.mk OptionType.CompilationFlagsOnly "compilation-flags-only" none ArgKind.no_argument,
  OptionEntry.mk OptionType.CompilationFlagsSplitLine "compilation-flags-split-line" none ArgKind.no_argument,
  OptionEntry.mk OptionType.DumpIncludeHeaders "dump-include-headers" none ArgKind.no_argument,
  OptionEntry.mk OptionType.SilentQuery "silent-query" none ArgKind.no_argument,
  OptionEntry.mk OptionType.SynchronousCompletions "synchronous-completions" none ArgKind.no_argument,
  OptionEntry.mk OptionType.XMLCompletions "xml-completions" none ArgKind.no_argument,
  OptionEntry.mk OptionType.NoSortReferencesByInput "no-sort-references-by-input" none ArgKind.no_argument,
  OptionEntry.mk OptionType.ProjectRoot "project-root" none ArgKind.required_argument,
  OptionEntry.mk OptionType.RTagsConfig "rtags-config" none ArgKind.required_argument,
  OptionEntry.mk OptionType.WildcardSymbolNames "wildcard-symbol-names" (some 'a') ArgKind.no_argument,
  OptionEntry.mk OptionType.NoColor "no-color" none ArgKind.no_argument,
  OptionEntry.mk OptionType.Wait "wait" none ArgKind.no_argument,
  OptionEntry.mk OptionType.Autotest "autotest" none ArgKind.no_argument,
  OptionEntry.mk OptionType.CodeCompleteIncludeMacros "code-complete-include-macros" none ArgKind.no_argument,
  OptionEntry.mk OptionType.CodeCompleteIncludes "code-complete-includes" none ArgKind.no_argument,
  OptionEntry.mk OptionType.NoSpellCheckinging "no-spell-checking" none ArgKind.no_argument,
  OptionEntry.mk OptionType.TokensIncludeSymbols "tokens-include-symbols" none ArgKind.no_argument
  ]

/-! ## Command-line compilation: library functions

The C library and `rct` functions `RClient::parse` calls, on lists of characters. -/

/-- The test `isspace` of the C locale. -/
def isSpaceC (c : Char) : Bool :=
  c = ' ' || c = '\t' || c = '\n' || c = '\x0b' || c = '\x0c' || c = '\r'

/-- The value of a run of decimal digits at the head of a text, with the text left. -/
def scanDigits : List Char → Nat → Nat × List Char
  | [], acc => (acc, [])
  | c :: cs, acc =>
    if c.isDigit then scanDigits cs (acc * 10 + (c.toNat - '0'.toNat)) else (acc, c :: cs)

/-- What `strtol` and its relatives read at the head of a text: white space, an
optional sign, decimal digits. -/
structure Scanned where
  /-- Whether a minus sign was read. -/
  negative : Bool
  /-- The value of the digits. -/
  magnitude : Nat
  /-- The text after the number (the `end` pointer); the whole text when no digit
  was read. -/
  rest : List Char
  /-- Whether a digit was read. -/
  converted : Bool
  deriving DecidableEq, Repr

/-- The scan shared by `strtol`, `strtoll`, `strtoul` and `strtoull` in base 10. -/
def scanNumber (s : List Char) : Scanned :=
  let t := s.dropWhile isSpaceC
  let neg := t.head? = some '-'
  let u := if t.head? = some '-' ∨ t.head? = some '+' then t.tail else t
  if (u.head?.map Char.isDigit) = some true then
    { negative := neg, magnitude := (scanDigits u 0).1, rest := (scanDigits u 0).2,
      converted := true }
  else { negative := false, magnitude := 0, rest := s, converted := false }

/-- The value `strtoll` (and `strtol`, with a `long` of 64 bits) returns for a scan:
clamped to the range of the type. -/
def Scanned.signedValue (n : Scanned) : Int :=
  if n.negative then
    (if n.magnitude > 9223372036854775808 then -9223372036854775808 else -(n.magnitude : Int))
  else (if n.magnitude > 9223372036854775807 then 9223372036854775807 else (n.magnitude : Int))

/-- Whether `strtoll` reports a range error for a scan. -/
def Scanned.signedRangeError (n : Scanned) : Bool :=
  if n.negative then decide (n.magnitude > 9223372036854775808)
  else decide (n.magnitude > 9223372036854775807)

/-- The value `strtoull` (and `strtoul`, with a `long` of 64 bits) returns for a scan:
clamped to the range of the type, a minus sign negating the value in that type. -/
def Scanned.unsignedValue (n : Scanned) : Nat :=
  if n.magnitude > 18446744073709551615 then 18446744073709551615
  else if n.negative then (18446744073709551616 - n.magnitude) % 18446744073709551616
  else n.magnitude

/-- The function `atoi`: `strtol` converted to `int`. -/
def atoi (s : List Char) : Int := toInt32 (scanNumber s).signedValue

/-- The method `String::toLongLong(&ok)` of `rct`: `strtoll`, with `ok` set when there
was no range error and the whole text was read. -/
def toLongLong (s : List Char) : Int × Bool :=
  ((scanNumber s).signedValue,
   !(scanNumber s).signedRangeError && (scanNumber s).rest.isEmpty)

/-- The method `String::toULongLong(&ok)` of `rct`: `strtoull`, with `ok` set when
there was no range error and the whole text was read. -/
def toULongLong (s : List Char) : Nat × Bool :=
  ((scanNumber s).unsignedValue,
   decide ((scanNumber s).magnitude ≤ 18446744073709551615) && (scanNumber s).rest.isEmpty)

/-- The index of the last occurrence of a character (`String::lastIndexOf`), if any. -/
def lastIndexOf (c : Char) (s : List Char) : Option Nat :=
  match s.reverse.indexOf? c with
  | some i => some (s.length - 1 - i)
  | none => none

/-- The chunks successive calls of `fgets` with a buffer of `cap + 1` bytes return:
each ends after a newline or when `cap` characters were read. -/
def fgetsChunks (cap : Nat) : List Char → List Char → List (List Char)
  | [], acc => if acc.isEmpty then [] else [acc]
  | c :: cs, acc =>
    if c = '\n' ∨ (acc ++ [c]).length = cap then (acc ++ [c]) :: fgetsChunks cap cs []
    else fgetsChunks cap cs (acc ++ [c])

/-- The pieces of a text between the occurrences of a separator (`String::split`). -/
def splitAt (sep : Char) : List Char → List Char → List (List Char)
  | [], acc => [acc]
  | c :: cs, acc => if c = sep then acc :: splitAt sep cs [] else splitAt sep cs (acc ++ [c])

/-- Whether the first byte of a C string is not `-` (so also for the empty string). -/
def notDash (s : String) : Bool := s.data.head? != some '-'

/-- Whether a text ends with another (`String::endsWith`). -/
def endsWith (s suffix : String) : Bool := suffix.data.isSuffixOf s.data

/-! ## Command-line compilation: environment -/

/-- The modes of `Path::resolve`. -/
inductive ResolveMode where
  | RealPath
  | MakeAbsolute
  deriving DecidableEq, Repr

/-- A value written to a `Serializer`. -/
inductive SerialItem where
  | path (p : String)
  | stringList (l : List String)
  | pathList (l : List String)
  | uint32 (n : Nat)
  deriving DecidableEq, Repr

/-- What `RClient::parse` reads of the outside world, and the functions of this
repository and of `rct` it calls whose code is not among the sources. -/
structure Env where
  /-- Whether `RTAGS_DUMP_UNUSED` is set in the environment. -/
  dumpUnused : Bool
  /-- Whether `POSIXLY_CORRECT` is set in the environment: `getopt_long` then stops at
  the first word that is no option. -/
  posixlyCorrect : Bool
  /-- Whether standard output is a terminal (`isatty`). -/
  stdoutIsTty : Bool
  /-- The value of `Path::home()`. -/
  home : String
  /-- The value of `Path::pwd()`. -/
  pwd : String
  /-- The test `Path::exists`. -/
  pathExists : String → Bool
  /-- The test `Path::isFile`. -/
  isFile : String → Bool
  /-- The test `Path::isDir`. -/
  isDir : String → Bool
  /-- The method `Path::resolve`: the resolved path when it succeeds. -/
  resolve : ResolveMode → String → Option String
  /-- The method `Path::parentDir`. -/
  parentDir : String → String
  /-- The function `Location::encode`. -/
  encodeLocation : String → String
  /-- The bytes a `Serializer` writes for a sequence of values. -/
  serialize : List SerialItem → String
  /-- The result of `initLogging` for a log level and a log file. -/
  initLogging : LogLevel → String → Bool
  /-- The conversion of an `int` to the declared type of `mTcpPort`. -/
  tcpPortOfInt : Int → Int
  /-- The value of `RTags::versionString()`. -/
  versionString : String
  /-- The value of `RTags::findProjectRoot` for a path; the flag says whether the
  build root is asked for. -/
  findProjectRoot : String → Bool → String
  /-- The entries of `RTags::rtagsConfig` for a path. -/
  rtagsConfig : String → List (String × String)

/-- The path after `p.resolve(mode)`: unchanged when resolving fails. -/
def Env.resolved (env : Env) (mode : ResolveMode) (p : String) : String :=
  (env.resolve mode p).getD p

/-- The test `Path::isAbsolute`. -/
def isAbsolute (p : String) : Bool := p.data.head? = some '/'

/-! ## Command-line compilation: state -/

/-- The three results of `RClient::parse`. -/
inductive ParseStatus where
  | Parse_Exec
  | Parse_Ok
  | Parse_Error
  deriving DecidableEq, Repr

/-- What `RClient::parse` writes. -/
inductive Output where
  | stdout (text : String)
  | stderr (text : String)
  | help (toStderr : Bool)
  | man
  | log (argv : List String)
  deriving DecidableEq, Repr

/-- The variables of `RClient::parse`: the client, the list `projectCommands` (the
commands it shares with the queue, by their index in the queue), the log file, what
is left of standard input, and what was written. -/
structure ParseState where
  rc : RClient
  projectCommands : List Nat
  logFile : String
  stdin : List Char
  output : List Output
  deriving DecidableEq, Repr

/-- The outcome of one round of the option loop: go on with the next option, `consumed`
words after the option having been taken with `argv[optind++]`; return from `parse`;
or leave `parse` by an exception nothing catches. -/
inductive Step where
  | next (st : ParseState) (consumed : Nat)
  | ret (status : ParseStatus) (st : ParseState)
  | abort (st : ParseState)
  deriving DecidableEq, Repr

/-- Insertion into a `Set`: nothing happens when the element is there. -/
def setInsert {α : Type} [DecidableEq α] (s : List α) (a : α) : List α :=
  if a ∈ s then s else s ++ [a]

/-- Assignment `map[key] = value` in a `Map`. -/
def mapSet (m : List (String × String)) (key value : String) : List (String × String) :=
  if m.any (fun kv => kv.1 = key) then m.map (fun kv => if kv.1 = key then (key, value) else kv)
  else m ++ [(key, value)]

/-! The assignments of `parse` to the members of the client and to its own variables. -/

/-- The assignment `mSocketFile = v`. -/
def ParseState.setSocketFile (st : ParseState) (v : String) : ParseState :=
  { st with rc := { st.rc with mSocketFile := v } }

/-- The assignment `mTcpHost = v`. -/
def ParseState.setTcpHost (st : ParseState) (v : String) : ParseState :=
  { st with rc := { st.rc with mTcpHost := v } }

/-- The assignment `mTcpPort = v`. -/
def ParseState.setTcpPort (st : ParseState) (v : Int) : ParseState :=
  { st with rc := { st.rc with mTcpPort := v } }

/-- The assignment `mGuessFlags = v`. -/
def ParseState.setGuessFlags (st : ParseState) (v : Bool) : ParseState :=
  { st with rc := { st.rc with mGuessFlags := v } }

/-- The assignment `mFlags = v`. -/
def ParseState.setFlags (st : ParseState) (v : Nat) : ParseState :=
  { st with rc := { st.rc with mFlags := v } }

/-- The assignment `mPathFilters = v`. -/
def ParseState.setPathFilters (st : ParseState) (v : List PathFilter) : ParseState :=
  { st with rc := { st.rc with mPathFilters := v } }

/-- The assignment `mKindFilters = v`. -/
def ParseState.setKindFilters (st : ParseState) (v : List String) : ParseState :=
  { st with rc := { st.rc with mKindFilters := v } }

/-- The assignment `mMinOffset = v`. -/
def ParseState.setMinOffset (st : ParseState) (v : Int) : ParseState :=
  { st with rc := { st.rc with mMinOffset := v } }

/-- The assignment `mMaxOffset = v`. -/
def ParseState.setMaxOffset (st : ParseState) (v : Int) : ParseState :=
  { st with rc := { st.rc with mMaxOffset := v } }

/-- The assignment `mLogLevel = v`. -/
def ParseState.setLogLevel (st : ParseState) (v : LogLevel) : ParseState :=
  { st with rc := { st.rc with mLogLevel := v } }

/-- The assignment `mBuildIndex = v`. -/
def ParseState.setBuildIndex (st : ParseState) (v : Nat) : ParseState :=
  { st with rc := { st.rc with mBuildIndex := v } }

/-- The assignment `mConnectTimeout = v`. -/
def ParseState.setConnectTimeout (st : ParseState) (v : Int) : ParseState :=
  { st with rc := { st.rc with mConnectTimeout := v } }

/-- The assignment `mMax = v`. -/
def ParseState.setMax (st : ParseState) (v : Int) : ParseState :=
  { st with rc := { st.rc with mMax := v } }

/-- The assignment `mTimeout = v`. -/
def ParseState.setTimeout (st : ParseState) (v : Int) : ParseState :=
  { st with rc := { st.rc with mTimeout := v } }

/-- The assignment `mUnsavedFiles = v`. -/
def ParseState.setUnsavedFiles (st : ParseState) (v : List (String × String)) : ParseState :=
  { st with rc := { st.rc with mUnsavedFiles := v } }

/-- The assignment `mCurrentFile = v`. -/
def ParseState.setCurrentFile (st : ParseState) (v : List String) : ParseState :=
  { st with rc := { st.rc with mCurrentFile := v } }

/-- The assignment `mProjectRoot = v`. -/
def ParseState.setProjectRoot (st : ParseState) (v : String) : ParseState :=
  { st with rc := { st.rc with mProjectRoot := v } }

/-- The assignment `mQueryFlags = v`. -/
def ParseState.setQueryFlags (st : ParseState) (v : Flags) : ParseState :=
  { st with rc := { st.rc with mQueryFlags := v } }

/-- The assignment `logFile = v`. -/
def ParseState.setLogFile (st : ParseState) (v : String) : ParseState :=
  { st with logFile := v }

/-- What is left of standard input after a read. -/
def ParseState.setStdin (st : ParseState) (v : List Char) : ParseState :=
  { st with stdin := v }

/-- What was written so far. -/
def ParseState.setOutput (st : ParseState) (v : List Output) : ParseState :=
  { st with output := v }

/-- What is written is appended to the output. -/
def ParseState.write (st : ParseState) (out : List Output) : ParseState :=
  st.setOutput (st.output ++ out)

/-- The statement `mQueryFlags |= flag`. -/
def ParseState.orQueryFlag (st : ParseState) (f : QueryFlag) : ParseState :=
  st.setQueryFlags (st.rc.mQueryFlags ||| f.mask)

/-- The statement `mPathFilters.insert({ path, kind })`. -/
def ParseState.addPathFilter (st : ParseState) (path : String) (kind : PathFilterKind) :
    ParseState :=
  st.setPathFilters (setInsert st.rc.mPathFilters ⟨path, kind⟩)

/-- A call of `addQuery`. -/
def ParseState.addQuery (st : ParseState) (type : QueryType) (query : String)
    (extraQueryFlags : Flags) : ParseState :=
  { st with rc := st.rc.addQuery type query extraQueryFlags }

/-- A call of `addQuitCommand`. -/
def ParseState.addQuitCommand (st : ParseState) (exitCode : Int) : ParseState :=
  { st with rc := st.rc.addQuitCommand exitCode }

/-- A call of `addLog`. -/
def ParseState.addLog (st : ParseState) (level : LogLevel) : ParseState :=
  { st with rc := st.rc.addLog level }

/-- A call of `addCompile(cwd, args)`. -/
def ParseState.addCompile (st : ParseState) (cwd args : String) : ParseState :=
  { st with rc := st.rc.addCompile cwd args }

/-- A call of `addCompile(dir)`. -/
def ParseState.addCompileDir (st : ParseState) (dir : String) : ParseState :=
  { st with rc := st.rc.addCompileDir dir }

/-- The statement `projectCommands.append(mCommands.back())`: the last command of the
queue, by its index. -/
def ParseState.appendProjectCommand (st : ParseState) : ParseState :=
  { st with projectCommands := st.projectCommands ++ [st.rc.mCommands.length - 1] }

/-- A message on the error stream followed by `return Parse_Error`. -/
def ParseState.fail (st : ParseState) (message : String) : Step :=
  Step.ret ParseStatus.Parse_Error (st.write [Output.stderr message])

/-- The optional argument of an option: `optarg` when it is set, else the next word
when it does not start with `-` (taken with `argv[optind++]`), else none. -/
def takeArg (optarg : Option String) (next : List String) : Option String × Nat :=
  match optarg with
  | some a => (some a, 0)
  | none =>
    match next with
    | w :: _ => if notDash w then (some w, 1) else (none, 0)
    | [] => (none, 0)

/-! ## Command-line compilation: the option switch -/

/-- The range-filter case: `strtoul` twice, the results stored in the `int` members
`mMinOffset` and `mMaxOffset`. -/
def parseRangeFilter (st : ParseState) (optarg : String) : Step :=
  let first := scanNumber optarg.data
  let st1 := st.setMinOffset (toInt32 first.unsignedValue)
  if first.rest.head? ≠ some '-' then
    st1.fail "Can't parse range, must be uint-uint. E.g. 1-123\n"
  else
    let second := scanNumber first.rest.tail
    let st2 := st1.setMaxOffset (toInt32 second.unsignedValue)
    if ¬ second.rest.isEmpty then
      st2.fail "Can't parse range, must be uint-uint. E.g. 1-123\n"
    else if st2.rc.mMaxOffset ≤ st2.rc.mMinOffset ∨ st2.rc.mMinOffset < 0 then
      st2.fail ("Invalid range (" ++ toString st2.rc.mMinOffset ++ "-"
        ++ toString st2.rc.mMaxOffset ++ "), must be uint-uint. E.g. 1-123\n")
    else Step.next st2 0

/-- The socket-address case. -/
def parseSocketAddress (env : Env) (st : ParseState) (optarg : String) : Step :=
  let st1 := st.setTcpHost optarg
  match lastIndexOf ':' optarg.data with
  | none => st1.fail ("invalid --socket-address " ++ optarg ++ "\n")
  | some colon =>
    let st2 := st1.setTcpPort (env.tcpPortOfInt (atoi (optarg.data.drop (colon + 1))))
    if st2.rc.mTcpPort = 0 then st2.fail ("invalid --socket-address " ++ optarg ++ "\n")
    else Step.next (st2.setTcpHost (String.mk (optarg.data.take colon))) 0

/-- The unsaved-file case: `path:bytes`, then `bytes` bytes from standard input. -/
def parseUnsavedFile (env : Env) (st : ParseState) (optarg : String) : Step :=
  match lastIndexOf ':' optarg.data with
  | none => st.fail ("Can't parse -u [" ++ optarg ++ "]\n")
  | some colon =>
    let bytes := atoi (optarg.data.drop (colon + 1))
    if bytes = 0 then st.fail ("Can't parse -u [" ++ optarg ++ "]\n")
    else
      let path := env.resolved ResolveMode.RealPath (String.mk (optarg.data.take colon))
      if ¬ env.isFile path then
        st.fail ("Can't open [" ++ String.mk (optarg.data.take colon) ++ "] for reading\n")
      else if bytes < 0 then Step.abort st
      else
        let contents := st.stdin.take bytes.toNat
        let st1 := st.setStdin (st.stdin.drop bytes.toNat)
        if (contents.length : Int) ≠ bytes then
          st1.fail ("Read error. Got " ++ toString contents.length ++ ", expected "
            ++ toString bytes ++ "\n")
        else
          Step.next
            (st1.setUnsavedFiles (mapSet st1.rc.mUnsavedFiles path (String.mk contents))) 0

/-- The closure `addBuffer` of the set-buffers case, on the list of paths and the
output so far. -/
def addBuffer (env : Env) (acc : List String × List Output) (p : String) :
    List String × List Output :=
  if p.isEmpty then acc
  else
    match env.resolve ResolveMode.RealPath p with
    | some path =>
      if env.isFile path then (acc.1 ++ [path], acc.2)
      else (acc.1, acc.2 ++ [Output.stderr ("\"" ++ p ++ "\" doesn't seem to be a file.\n")])
    | none => (acc.1, acc.2 ++ [Output.stderr ("\"" ++ p ++ "\" doesn't seem to be a file.\n")])

/-- A line read by `fgets`, without its final newline (`endsWith`, `chop`). -/
def chopNewline (line : List Char) : List Char :=
  if line.getLast? = some '\n' then line.dropLast else line

/-- The set-buffers case. -/
def parseSetBuffers (env : Env) (st : ParseState) (optarg : Option String)
    (next : List String) : Step :=
  let taken : Option String × Nat :=
    match optarg with
    | some a => (some a, 0)
    | none =>
      match next with
      | w :: _ => if notDash w || w = "-" then (some w, 1) else (none, 0)
      | [] => (none, 0)
  match taken.1 with
  | none => Step.next (st.addQuery QueryType.SetBuffers "" 0) taken.2
  | some arg =>
    if arg = "-" then
      let r := ((fgetsChunks 1023 st.stdin []).map
        (fun l => String.mk (chopNewline (cString l)))).foldl (addBuffer env) ([], st.output)
      Step.next
        (((st.setStdin []).setOutput r.2).addQuery QueryType.SetBuffers
          (env.serialize [SerialItem.pathList r.1]) 0) taken.2
    else
      let r := ((splitAt ';' arg.data []).map String.mk).foldl (addBuffer env) ([], st.output)
      Step.next
        ((st.setOutput r.2).addQuery QueryType.SetBuffers
          (env.serialize [SerialItem.pathList r.1]) 0) taken.2

/-- The body of the loop reading compile commands from standard input, for one chunk
`buf` read by `fgets`: the variables and the pending text.  The statement
`pending += buf` appends a C string, the chunk up to its first NUL byte. -/
def compileLine (env : Env) (acc : ParseState × String) (buf : String) : ParseState × String :=
  let pending := acc.2 ++ String.mk (cString buf.data)
  if ¬ endsWith pending "\\\n" then (acc.1.addCompile env.pwd pending, "")
  else (acc.1, String.mk (pending.data.dropLast.dropLast ++ [' ', ' ']))

/-- The compile case: the option's argument joined with every word left on the command
line; standard input is read when that is empty or `-`. -/
def parseCompile (env : Env) (st : ParseState) (optarg : Option String)
    (next : List String) : Step :=
  let args := next.foldl (fun (a : String) w => (if ¬ a.isEmpty then a ++ " " else a) ++ w)
    (optarg.getD "")
  if args = "-" ∨ args.isEmpty then
    let r := ((fgetsChunks 16383 st.stdin []).map String.mk).foldl (compileLine env)
      (st.setStdin [], "")
    Step.next (if ¬ r.2.isEmpty then r.1.addCompile env.pwd r.2 else r.1) next.length
  else Step.next (st.addCompile env.pwd args) next.length

/-- The load-compilation-database case. -/
def parseLoadCompilationDatabase (env : Env) (st : ParseState) (optarg : Option String)
    (next : List String) : Step :=
  let taken := takeArg optarg next
  let dir0 := env.resolved ResolveMode.MakeAbsolute (taken.1.getD env.pwd)
  if ¬ env.pathExists dir0 then st.fail (dir0 ++ " does not seem to exist\n")
  else
    let dir1 : Option String :=
      if ¬ env.isDir dir0 then
        (if env.isFile dir0 ∧ endsWith dir0 "/compile_commands.json" then some (env.parentDir dir0)
         else none)
      else some dir0
    match dir1 with
    | none => st.fail (dir0 ++ " is not a directory\n")
    | some d =>
      let dir := if ¬ endsWith d "/" then d ++ "/" else d
      if ¬ env.isFile (dir ++ "compile_commands.json") then
        st.fail ("no compile_commands.json file in " ++ dir ++ "\n")
      else Step.next (st.addCompileDir dir) taken.2

/-- What `sscanf` with `%[^':']` reads: the longest run without `'` and `:`. -/
def scanPathPart (s : List Char) : List Char × List Char :=
  (s.takeWhile (fun c => c ≠ '\'' ∧ c ≠ ':'), s.dropWhile (fun c => c ≠ '\'' ∧ c ≠ ':'))

/-- What `sscanf` with `%u` reads: a number as `strtoul` scans it, stored in 32 bits. -/
def scanU32 (s : List Char) : Option (Nat × List Char) :=
  if (scanNumber s).converted then
    some ((scanNumber s).unsignedValue % 4294967296, (scanNumber s).rest)
  else none

/-- The three `sscanf` calls of the tokens case: the path and the bounds `from`, `to`.
When none of them reads what it asks for, the path is the argument itself (which
`strncpy` leaves unterminated when the argument holds a `:` or a `'`). -/
def scanTokens (optarg : String) : String × Nat × Nat :=
  let path := (scanPathPart optarg.data).1
  let afterPath := (scanPathPart optarg.data).2
  if path.isEmpty ∨ afterPath.head? ≠ some ':' then (optarg, 0, 4294967295)
  else
    match scanU32 afterPath.tail with
    | some (a, r) =>
      if r.head? = some '-' then
        match scanU32 r.tail with
        | some (b, _) => (String.mk path, a, b)
        | none => (String.mk path, a, 4294967295)
      else (String.mk path, a, 4294967295)
    | none =>
      if afterPath.tail.head? = some '-' then
        match scanU32 afterPath.tail.tail with
        | some (b, _) => (String.mk path, 0, b)
        | none => (optarg, 0, 4294967295)
      else (optarg, 0, 4294967295)

/-- The query type of an option of the case that shares
`--check-reindex`, `--reindex`, `--project`, `--path`, `--list-symbols`,
`--find-symbols`, `--sources`, `--include-file`, `--job-count` and `--status`, and
whether its argument is resolved when it names an existing path. -/
def sharedQueryType : OptionType → QueryType × Bool
  | OptionType.CheckReindex => (QueryType.CheckReindex, true)
  | OptionType.Reindex => (QueryType.Reindex, true)
  | OptionType.Project => (QueryType.Project, true)
  | OptionType.FindFile => (QueryType.FindFile, false)
  | OptionType.Sources => (QueryType.Sources, true)
  | OptionType.IncludeFile => (QueryType.IncludeFile, false)
  | OptionType.Status => (QueryType.Status, true)
  | OptionType.ListSymbols => (QueryType.ListSymbols, true)
  | OptionType.FindSymbols => (QueryType.FindSymbols, true)
  | OptionType.JobCount => (QueryType.JobCount, true)
  | _ => (QueryType.Invalid, true)

/-- The case shared by `--check-reindex`, `--reindex`, `--project`, ...: one query
is queued, and a project query is also appended to `projectCommands`. -/
def parseSharedQuery (env : Env) (st : ParseState) (opt : OptionType)
    (optarg : Option String) (next : List String) : Step :=
  let type := (sharedQueryType opt).1
  let resolve := (sharedQueryType opt).2
  let taken := takeArg optarg next
  let st1 :=
    match taken.1 with
    | some arg =>
      if resolve ∧ env.pathExists arg then
        st.addQuery type (env.resolved ResolveMode.RealPath arg) 0
      else st.addQuery type arg 0
    | none => st.addQuery type "" 0
  Step.next (if type = QueryType.Project then st1.appendProjectCommand else st1) taken.2

/-- The query type and the extra flags of an option of the case shared by
`--is-indexed`, `--dump-file`, `--check-includes`, `--generate-test`, `--diagnose`
and `--fixits`. -/
def fileQueryType : OptionType → QueryType × Flags
  | OptionType.GenerateTest => (QueryType.GenerateTest, 0)
  | OptionType.FixIts => (QueryType.FixIts, 0)
  | OptionType.DumpFile => (QueryType.DumpFile, 0)
  | OptionType.CheckIncludes => (QueryType.DumpFile, 0 ||| QueryFlag.DumpCheckIncludes.mask)
  | OptionType.Diagnose => (QueryType.Diagnose, 0)
  | OptionType.IsIndexed => (QueryType.IsIndexed, 0)
  | _ => (QueryType.Invalid, 0)

/-- The case shared by `--is-indexed`, `--dump-file`, ... -/
def parseFileQuery (env : Env) (st : ParseState) (opt : OptionType) (optarg : String) : Step :=
  if ¬ env.pathExists optarg then st.fail (optarg ++ " does not exist\n")
  else
    let p1 := if ¬ isAbsolute optarg then env.pwd ++ optarg else optarg
    if env.isDir p1 ∧ opt ≠ OptionType.IsIndexed then st.fail (optarg ++ " is not a file\n")
    else
      let p2 := if env.isDir p1 ∧ ¬ endsWith p1 "/" then p1 ++ "/" else p1
      let p3 := env.resolved ResolveMode.RealPath p2
      Step.next (st.addQuery (fileQueryType opt).1 p3 (fileQueryType opt).2) 0

/-- The query type of a location option. -/
def locationQueryType : OptionType → QueryType
  | OptionType.FollowLocation => QueryType.FollowLocation
  | OptionType.SymbolInfo => QueryType.SymbolInfo
  | OptionType.ReferenceLocation => QueryType.ReferencesLocation
  | OptionType.ClassHierarchy => QueryType.ClassHierarchy
  | _ => QueryType.Invalid

/-- The body of the option switch of `RClient::parse` for one option: `optarg` is
the argument `getopt_long` delivered, `next` the words of the command line from
`argv[optind]` on. -/
def dispatch (env : Env) (opt : OptionType) (optarg : Option String) (next : List String)
    (st : ParseState) : Step :=
  let arg := optarg.getD ""
  match opt with
  | OptionType.Help =>
    Step.ret ParseStatus.Parse_Ok (st.write [Output.help false])
  | OptionType.Man =>
    Step.ret ParseStatus.Parse_Ok (st.write [Output.man])
  | OptionType.SocketFile => Step.next (st.setSocketFile arg) 0
  | OptionType.SocketAddress => parseSocketAddress env st arg
  | OptionType.GuessFlags => Step.next (st.setGuessFlags true) 0
  | OptionType.Wait => Step.next (st.orQueryFlag QueryFlag.Wait) 0
  | OptionType.NoSpellCheckinging => Step.next (st.orQueryFlag QueryFlag.NoSpellChecking) 0
  | OptionType.CodeCompleteIncludeMacros =>
    Step.next (st.orQueryFlag QueryFlag.CodeCompleteIncludeMacros) 0
  | OptionType.CodeCompleteIncludes => Step.next (st.orQueryFlag QueryFlag.CodeCompleteIncludes) 0
  | OptionType.Autotest =>
    Step.next (st.setFlags (st.rc.mFlags ||| Flag_Autotest)) 0
  | OptionType.IMenu => Step.next (st.orQueryFlag QueryFlag.IMenu) 0
  | OptionType.CompilationFlagsOnly => Step.next (st.orQueryFlag QueryFlag.CompilationFlagsOnly) 0
  | OptionType.NoColor => Step.next (st.orQueryFlag QueryFlag.NoColor) 0
  | OptionType.CompilationFlagsSplitLine =>
    Step.next (st.orQueryFlag QueryFlag.CompilationFlagsSplitLine) 0
  | OptionType.ContainingFunction => Step.next (st.orQueryFlag QueryFlag.ContainingFunction) 0
  | OptionType.ContainingFunctionLocation =>
    Step.next (st.orQueryFlag QueryFlag.ContainingFunctionLocation) 0
  | OptionType.DeclarationOnly => Step.next (st.orQueryFlag QueryFlag.DeclarationOnly) 0
  | OptionType.DefinitionOnly => Step.next (st.orQueryFlag QueryFlag.DefinitionOnly) 0
  | OptionType.FindVirtuals => Step.next (st.orQueryFlag QueryFlag.FindVirtuals) 0
  | OptionType.FindFilePreferExact => Step.next (st.orQueryFlag QueryFlag.FindFilePreferExact) 0
  | OptionType.SymbolInfoExcludeParents =>
    Step.next (st.orQueryFlag QueryFlag.SymbolInfoExcludeParents) 0
  | OptionType.SymbolInfoExcludeTargets =>
    Step.next (st.orQueryFlag QueryFlag.SymbolInfoExcludeTargets) 0
  | OptionType.SymbolInfoExcludeReferences =>
    Step.next (st.orQueryFlag QueryFlag.SymbolInfoExcludeReferences) 0
  | OptionType.CursorKind => Step.next (st.orQueryFlag QueryFlag.CursorKind) 0
  | OptionType.SynchronousCompletions =>
    Step.next (st.orQueryFlag QueryFlag.SynchronousCompletions) 0
  | OptionType.DisplayName => Step.next (st.orQueryFlag QueryFlag.DisplayName) 0
  | OptionType.AllReferences => Step.next (st.orQueryFlag QueryFlag.AllReferences) 0
  | OptionType.AllTargets => Step.next (st.orQueryFlag QueryFlag.AllTargets) 0
  | OptionType.MatchCaseInsensitive => Step.next (st.orQueryFlag QueryFlag.MatchCaseInsensitive) 0
  | OptionType.MatchRegex => Step.next (st.orQueryFlag QueryFlag.MatchRegex) 0
  | OptionType.AbsolutePath => Step.next (st.orQueryFlag QueryFlag.AbsolutePath) 0
  | OptionType.ReverseSort => Step.next (st.orQueryFlag QueryFlag.ReverseSort) 0
  | OptionType.Rename => Step.next (st.orQueryFlag QueryFlag.Rename) 0
  | OptionType.Elisp => Step.next (st.orQueryFlag QueryFlag.Elisp) 0
  | OptionType.XMLCompletions => Step.next (st.orQueryFlag QueryFlag.XMLCompletions) 0
  | OptionType.FilterSystemHeaders => Step.next (st.orQueryFlag QueryFlag.FilterSystemIncludes) 0
  | OptionType.NoContext => Step.next (st.orQueryFlag QueryFlag.NoContext) 0
  | OptionType.PathFilter =>
    Step.next (st.addPathFilter (env.resolved ResolveMode.RealPath arg) PathFilterKind.Self) 0
  | OptionType.DependencyFilter =>
    if ¬ env.isFile (env.resolved ResolveMode.RealPath arg) then
      st.fail (arg ++ " doesn't seem to be a file\n")
    else
      Step.next
        (st.addPathFilter (env.resolved ResolveMode.RealPath arg) PathFilterKind.Dependency) 0
  | OptionType.KindFilter =>
    Step.next (st.setKindFilters (setInsert st.rc.mKindFilters arg)) 0
  | OptionType.WildcardSymbolNames => Step.next (st.orQueryFlag QueryFlag.WildcardSymbolNames) 0
  | OptionType.RangeFilter => parseRangeFilter st arg
  | OptionType.Version =>
    Step.ret ParseStatus.Parse_Ok (st.write [Output.stdout (env.versionString ++ "\n")])
  | OptionType.Verbose =>
    Step.next (st.setLogLevel (st.rc.mLogLevel + 1)) 0
  | OptionType.PrepareCodeCompleteAt =>
    if (env.encodeLocation arg).isEmpty then st.fail ("Can't resolve argument " ++ arg ++ "\n")
    else Step.next (st.addQuery QueryType.PrepareCodeCompleteAt (env.encodeLocation arg) 0) 0
  | OptionType.CodeCompleteAt =>
    if (env.encodeLocation arg).isEmpty then st.fail ("Can't resolve argument " ++ arg ++ "\n")
    else Step.next (st.addQuery QueryType.CodeCompleteAt (env.encodeLocation arg) 0) 0
  | OptionType.Silent =>
    Step.next (st.setLogLevel LogLevel.None) 0
  | OptionType.LogFile => Step.next (st.setLogFile arg) 0
  | OptionType.StripParen => Step.next (st.orQueryFlag QueryFlag.StripParentheses) 0
  | OptionType.DumpIncludeHeaders => Step.next (st.orQueryFlag QueryFlag.DumpIncludeHeaders) 0
  | OptionType.SilentQuery => Step.next (st.orQueryFlag QueryFlag.SilentQuery) 0
  | OptionType.BuildIndex =>
    if ¬ (toULongLong arg.data).2 then
      (st.setBuildIndex (toULongLong arg.data).1).fail "--build-index [arg] must be >= 0\n"
    else Step.next (st.setBuildIndex (toULongLong arg.data).1) 0
  | OptionType.ConnectTimeout =>
    if atoi arg.data < 0 then
      (st.setConnectTimeout (atoi arg.data)).fail "--connect-timeout [arg] must be >= 0\n"
    else Step.next (st.setConnectTimeout (atoi arg.data)) 0
  | OptionType.Max =>
    if atoi arg.data < 0 then
      (st.setMax (atoi arg.data)).fail "-M [arg] must be >= 0\n"
    else Step.next (st.setMax (atoi arg.data)) 0
  | OptionType.Timeout =>
    if atoi arg.data = 0 then Step.next (st.setTimeout (-1)) 0
    else if atoi arg.data < 0 then (st.setTimeout (atoi arg.data)).fail "-y [arg] must be >= 0\n"
    else Step.next (st.setTimeout (atoi arg.data)) 0
  | OptionType.UnsavedFile => parseUnsavedFile env st arg
  | OptionType.FollowLocation | OptionType.SymbolInfo | OptionType.ClassHierarchy
  | OptionType.ReferenceLocation =>
    if (env.encodeLocation arg).isEmpty then st.fail ("Can't resolve argument " ++ arg ++ "\n")
    else
      Step.next (st.addQuery (locationQueryType opt) (env.encodeLocation arg)
        QueryFlag.HasLocation.mask) 0
  | OptionType.CurrentFile =>
    Step.next (st.setCurrentFile (st.rc.mCurrentFile ++ [env.resolved ResolveMode.RealPath arg])) 0
  | OptionType.ReloadFileManager => Step.next (st.addQuery QueryType.ReloadFileManager "" 0) 0
  | OptionType.DumpCompletions => Step.next (st.addQuery QueryType.DumpCompletions "" 0) 0
  | OptionType.DumpCompilationDatabase =>
    Step.next (st.addQuery QueryType.DumpCompilationDatabase "" 0) 0
  | OptionType.Clear => Step.next (st.addQuery QueryType.ClearProjects "" 0) 0
  | OptionType.RdmLog =>
    Step.next (st.addLog RdmLogCommand.Default) 0
  | OptionType.Diagnostics =>
    Step.next (st.addLog DiagnosticsLevel) 0
  | OptionType.QuitRdm =>
    match (takeArg optarg next).1 with
    | some a =>
      if ¬ (toLongLong a.data).2 then st.fail "Invalid argument to -q\n"
      else
        Step.next (st.addQuitCommand (toInt32 (toLongLong a.data).1)) (takeArg optarg next).2
    | none => Step.next (st.addQuitCommand 0) (takeArg optarg next).2
  | OptionType.DeleteProject => Step.next (st.addQuery QueryType.DeleteProject arg 0) 0
  | OptionType.DebugLocations =>
    Step.next (st.addQuery QueryType.DebugLocations ((takeArg optarg next).1.getD "") 0)
      (takeArg optarg next).2
  | OptionType.SendDiagnostics => Step.next (st.addQuery QueryType.SendDiagnostics arg 0) 0
  | OptionType.FindProjectRoot =>
    Step.ret ParseStatus.Parse_Ok (st.write
      [Output.stdout ("findProjectRoot [" ++ env.resolved ResolveMode.RealPath arg ++ "] => ["
        ++ env.findProjectRoot (env.resolved ResolveMode.RealPath arg) false ++ "]\n")])
  | OptionType.FindProjectBuildRoot =>
    Step.ret ParseStatus.Parse_Ok (st.write
      [Output.stdout ("findProjectRoot [" ++ env.resolved ResolveMode.RealPath arg ++ "] => ["
        ++ env.findProjectRoot (env.resolved ResolveMode.RealPath arg) true ++ "]\n")])
  | OptionType.RTagsConfig =>
    Step.ret ParseStatus.Parse_Ok
      (st.write
        ([Output.stdout ("rtags-config: " ++ env.resolved ResolveMode.RealPath arg ++ ":\n")] ++
          (env.rtagsConfig (env.resolved ResolveMode.RealPath arg)).map
            (fun kv => Output.stdout (kv.1 ++ ": \"" ++ kv.2 ++ "\"\n"))))
  | OptionType.CurrentProject =>
    Step.next (st.addQuery QueryType.Project "" QueryFlag.CurrentProjectOnly.mask) 0
  | OptionType.CheckReindex | OptionType.Reindex | OptionType.Project | OptionType.FindFile
  | OptionType.ListSymbols | OptionType.FindSymbols | OptionType.Sources
  | OptionType.IncludeFile | OptionType.JobCount | OptionType.Status =>
    parseSharedQuery env st opt optarg next
  | OptionType.ListBuffers => Step.next (st.addQuery QueryType.SetBuffers "" 0) 0
  | OptionType.SetBuffers => parseSetBuffers env st optarg next
  | OptionType.LoadCompilationDatabase => parseLoadCompilationDatabase env st optarg next
  | OptionType.HasFileManager =>
    if ¬ env.pathExists
        (env.resolved ResolveMode.MakeAbsolute ((takeArg optarg next).1.getD ".")) then
      st.fail (arg ++ " does not seem to exist\n")
    else
      Step.next (st.addQuery QueryType.HasFileManager
        (if env.isDir (env.resolved ResolveMode.MakeAbsolute ((takeArg optarg next).1.getD "."))
         then env.resolved ResolveMode.MakeAbsolute ((takeArg optarg next).1.getD ".") ++ "/"
         else env.resolved ResolveMode.MakeAbsolute ((takeArg optarg next).1.getD ".")) 0)
        (takeArg optarg next).2
  | OptionType.ProjectRoot =>
    if ¬ env.isDir arg then st.fail (arg ++ " does not seem to be a directory\n")
    else
      Step.next (st.setProjectRoot (env.resolved ResolveMode.MakeAbsolute arg)) 0
  | OptionType.Suspend =>
    match (takeArg optarg next).1 with
    | some p =>
      if ¬ p.isEmpty ∧ p ≠ "clear" ∧ p ≠ "all" then
        if ¬ env.isFile (env.resolved ResolveMode.MakeAbsolute p) then
          st.fail (arg ++ " is not a file\n")
        else
          Step.next (st.addQuery QueryType.Suspend (env.resolved ResolveMode.MakeAbsolute p) 0)
            (takeArg optarg next).2
      else Step.next (st.addQuery QueryType.Suspend p 0) (takeArg optarg next).2
    | none => Step.next (st.addQuery QueryType.Suspend "" 0) (takeArg optarg next).2
  | OptionType.Compile => parseCompile env st optarg next
  | OptionType.IsIndexing => Step.next (st.addQuery QueryType.IsIndexing "" 0) 0
  | OptionType.NoSortReferencesByInput =>
    Step.next (st.orQueryFlag QueryFlag.NoSortReferencesByInput) 0
  | OptionType.IsIndexed | OptionType.DumpFile | OptionType.CheckIncludes
  | OptionType.GenerateTest | OptionType.Diagnose | OptionType.FixIts =>
    parseFileQuery env st opt arg
  | OptionType.AllDependencies =>
    Step.next (st.addQuery QueryType.Dependencies
      (env.serialize [SerialItem.path "", SerialItem.stringList (next.takeWhile notDash)]) 0)
      (next.takeWhile notDash).length
  | OptionType.DumpFileMaps =>
    if ¬ env.isFile arg then st.fail (arg ++ " is not a file\n")
    else
      Step.next (st.addQuery QueryType.DumpFileMaps
        (env.serialize [SerialItem.path (env.resolved ResolveMode.RealPath arg),
          SerialItem.stringList (next.takeWhile notDash)]) 0) (next.takeWhile notDash).length
  | OptionType.Dependencies =>
    if ¬ env.isFile arg then st.fail (arg ++ " is not a file\n")
    else
      Step.next (st.addQuery QueryType.Dependencies
        (env.serialize [SerialItem.path (env.resolved ResolveMode.RealPath arg),
          SerialItem.stringList (next.takeWhile notDash)]) 0) (next.takeWhile notDash).length
  | OptionType.Tokens =>
    if ¬ env.isFile (env.resolved ResolveMode.RealPath (scanTokens arg).1) then
      st.fail (arg ++ " is not a file\n")
    else if (scanTokens arg).2.1 ≥ (scanTokens arg).2.2 then
      st.fail ("Invalid range: " ++ arg ++ "\n")
    else
      Step.next (st.addQuery QueryType.Tokens
        (env.serialize [SerialItem.path (env.resolved ResolveMode.RealPath (scanTokens arg).1),
          SerialItem.uint32 (scanTokens arg).2.1, SerialItem.uint32 (scanTokens arg).2.2]) 0) 0
  | OptionType.TokensIncludeSymbols => Step.next (st.orQueryFlag QueryFlag.TokensIncludeSymbols) 0
  | OptionType.PreprocessFile =>
    if ¬ env.isFile (env.resolved ResolveMode.MakeAbsolute arg) then
      st.fail (arg ++ " is not a file\n")
    else
      Step.next (st.addQuery QueryType.PreprocessFile
        (env.resolved ResolveMode.MakeAbsolute arg) 0) 0
  | OptionType.RemoveFile =>
    if ¬ env.pathExists (env.resolved ResolveMode.MakeAbsolute arg) then
      Step.next (st.addQuery QueryType.RemoveFile (env.resolved ResolveMode.MakeAbsolute arg) 0) 0
    else Step.next (st.addQuery QueryType.RemoveFile arg 0) 0
  | OptionType.ReferenceName => Step.next (st.addQuery QueryType.ReferencesName arg 0) 0

/-! ## The library function `getopt_long`

The GNU implementation, as far as the two programs use it: options and their
arguments are read word by word, a word that is no option is passed over (and
permuted behind the options) unless `POSIXLY_CORRECT` is set, `--` ends the
options.  The functions below read one word; the loops of the callers are
`optionLoop` (for `RClient::parse`) and `rclient.getoptAll` (for the `main` of `rclient`). -/

/-- An entry of the array of `struct option` given to `getopt_long`: the name,
`has_arg` and `val` (none for 0); `flag` is 0 in both programs. -/
structure LongOption where
  name : String
  has_arg : ArgKind
  val : Option Char
  deriving DecidableEq, Repr

/-- How `getopt_long` reads a word of the command line. -/
inductive WordKind where
  /-- A word that is no option: it does not start with `-`, or it is `-`. -/
  | nonOption
  /-- The word `--`. -/
  | endOfOptions
  /-- A word `--name` or `--name=value`. -/
  | long (name : List Char) (value : Option String)
  /-- A word `-abc`: the characters after the dash. -/
  | cluster (chars : List Char)
  deriving DecidableEq, Repr

/-- The kind of a word. -/
def classifyWord (w : String) : WordKind :=
  match w.data with
  | ['-', '-'] => WordKind.endOfOptions
  | '-' :: '-' :: body =>
    WordKind.long (body.takeWhile (fun c => c ≠ '='))
      (match body.dropWhile (fun c => c ≠ '=') with
       | [] => none
       | _ :: v => some (String.mk v))
  | '-' :: c :: cs => WordKind.cluster (c :: cs)
  | _ => WordKind.nonOption

/-- The index of the long option a name stands for: the first entry with exactly
that name; failing that the first entry the name is a prefix of, unless another
such entry differs from it in `has_arg` or `val` (the name is ambiguous). -/
def findLong (longopts : List LongOption) (name : List Char) : Option Nat :=
  match longopts.findIdx? (fun o => o.name.data = name) with
  | some i => some i
  | none =>
    match longopts.enum.filter (fun p => name.isPrefixOf p.2.name.data) with
    | [] => none
    | p :: others =>
      if others.all (fun q => q.2.has_arg = p.2.has_arg ∧ q.2.val = p.2.val) then some p.1
      else none

/-- What `optstring` says of an option character: nothing when the character is not
in it (or is `:` or `;`), else whether it takes an argument (`c:`) or an optional
one (`c::`). -/
def shortArgKind (optstring : List Char) (c : Char) : Option ArgKind :=
  if c = ':' ∨ c = ';' then none
  else
    match optstring.dropWhile (fun d => d ≠ c) with
    | [] => none
    | _ :: ':' :: ':' :: _ => some ArgKind.optional_argument
    | _ :: ':' :: _ => some ArgKind.required_argument
    | _ => some ArgKind.no_argument

/-- What one call of `getopt_long` delivers: the value it returns (none for 0), the
index it stores through `longind` (for a long option), `optarg`, and whether
`optarg` is the word after the option (taken with `argv[optind++]`). -/
structure Delivered where
  val : Option Char
  longIndex : Option Nat
  optarg : Option String
  usedNext : Bool
  deriving DecidableEq, Repr

/-- The call of `getopt_long` on a word `--name` or `--name=value`, `next` being the
words after it: none when it returns `?` (unknown or ambiguous name, a value for
an option that takes none, no word left for a required argument). -/
def getoptLongWord (longopts : List LongOption) (name : List Char) (value : Option String)
    (next : List String) : Option Delivered :=
  match findLong longopts name with
  | none => none
  | some i =>
    match longopts.get? i with
    | none => none
    | some o =>
      match value with
      | some v =>
        if o.has_arg = ArgKind.no_argument then none
        else some { val := o.val, longIndex := some i, optarg := some v, usedNext := false }
      | none =>
        if o.has_arg = ArgKind.required_argument then
          match next with
          | [] => none
          | a :: _ => some { val := o.val, longIndex := some i, optarg := some a, usedNext := true }
        else some { val := o.val, longIndex := some i, optarg := none, usedNext := false }

/-- The call of `getopt_long` on the character `c` of a cluster, `cs` being the
characters after it in the word and `next` the words from `argv[optind]` on (once
`optind` has passed the word, when `cs` is empty): none when it returns `?`. -/
def getoptShortChar (optstring : List Char) (c : Char) (cs : List Char) (next : List String) :
    Option Delivered :=
  match shortArgKind optstring c with
  | none => none
  | some ArgKind.no_argument =>
    some { val := some c, longIndex := none, optarg := none, usedNext := false }
  | some ArgKind.optional_argument =>
    some { val := some c, longIndex := none,
           optarg := if cs.isEmpty then none else some (String.mk cs), usedNext := false }
  | some ArgKind.required_argument =>
    if cs.isEmpty then
      match next with
      | [] => none
      | a :: _ => some { val := some c, longIndex := none, optarg := some a, usedNext := true }
    else some { val := some c, longIndex := none, optarg := some (String.mk cs), usedNext := false }

/-- Whether the cluster goes on after the character `c`: it does when characters are
left and `c` takes no argument (an argument is the rest of the word). -/
def clusterGoesOn (optstring : List Char) (c : Char) (cs : List Char) : Bool :=
  !cs.isEmpty && shortArgKind optstring c = some ArgKind.no_argument

/-! ## Command-line compilation: the option loop of `RClient::parse` -/

/-- The array `options` that `parse` builds from the option table. -/
def options : List LongOption :=
  opts.map (fun o => { name := o.longOpt, has_arg := o.argument, val := o.shortOpt })

/-- The text `shortOptionString` that `parse` builds from the option table. -/
def shortOptionString : List Char :=
  opts.flatMap (fun o =>
    match o.shortOpt with
    | none => []
    | some c =>
      match o.argument with
      | ArgKind.no_argument => [c]
      | ArgKind.required_argument => [c, ':']
      | ArgKind.optional_argument => [c, ':', ':'])

/-- The entry of the table for what `getopt_long` delivered:
`idx == -1 ? shortOptions.value(c) : longOptions.value(idx)`. -/
def optionOf (d : Delivered) : Option OptionEntry :=
  match d.longIndex with
  | some i => opts.get? i
  | none =>
    match d.val with
    | some c => opts.find? (fun o => o.shortOpt = some c)
    | none => none

/-- The test at the head of the loop body: the flag `NoColor` is set unless standard
output is a terminal. -/
def ParseState.colourTest (st : ParseState) (env : Env) : ParseState :=
  if ¬ env.stdoutIsTty then st.orQueryFlag QueryFlag.NoColor else st

/-- The body of the option loop for a delivered option: the colour test, then the
option switch.  `next` are the words from `argv[optind]` on. -/
def handleOption (env : Env) (d : Delivered) (next : List String) (st : ParseState) : Step :=
  match optionOf d with
  | none => Step.abort st
  | some o => dispatch env o.option d.optarg next (st.colourTest env)

/-- How the option loop ends. -/
inductive LoopEnd where
  /-- `getopt_long` returned -1 (state `Done`); `leftover` is `argv[optind]` when
  `optind < argc`: the first word that was passed over. -/
  | done (st : ParseState) (leftover : Option String)
  /-- `getopt_long` returned `?` (state `Error`). -/
  | error (st : ParseState)
  /-- The option switch returned from `parse`. -/
  | ret (status : ParseStatus) (st : ParseState)
  /-- An exception nothing catches, or a failed assertion. -/
  | abort (st : ParseState)
  deriving DecidableEq, Repr

/-- The rounds of the option loop on one cluster word `-abc`.  `word` is the word,
`rest` the words after it, `skip` the number of words the option switch has taken
with `argv[optind++]` since the word was reached.  While the cluster goes on,
`optind` is still at the word itself; it passes the word with the last character
of the cluster.  The result is the end of the
loop, or the state and the number of words of `rest` to pass over. -/
def parseCluster (env : Env) (word : String) (rest : List String) :
    List Char → Nat → ParseState → LoopEnd ⊕ (ParseState × Nat)
  | [], skip, st => Sum.inr (st, skip)
  | c :: cs, skip, st =>
    match getoptShortChar shortOptionString c cs (rest.drop skip) with
    | none => Sum.inl (LoopEnd.error st)
    | some d =>
      if clusterGoesOn shortOptionString c cs then
        match handleOption env d ((word :: rest).drop skip) st with
        | Step.ret status st1 => Sum.inl (LoopEnd.ret status st1)
        | Step.abort st1 => Sum.inl (LoopEnd.abort st1)
        | Step.next st1 consumed => parseCluster env word rest cs (skip + consumed) st1
      else
        match handleOption env d (if d.usedNext then (rest.drop skip).tail else rest.drop skip)
            st with
        | Step.ret status st1 => Sum.inl (LoopEnd.ret status st1)
        | Step.abort st1 => Sum.inl (LoopEnd.abort st1)
        | Step.next st1 consumed =>
          Sum.inr (st1, skip + (if d.usedNext then 1 else 0) + consumed)

/-- The option loop of `RClient::parse` on the words from `argv[optind]` on.  `skip`
is the number of words at the head that were taken as arguments already;
`leftover` is the first word passed over so far. -/
def optionLoop (env : Env) : List String → Nat → Option String → ParseState → LoopEnd
  | [], _, leftover, st => LoopEnd.done st leftover
  | _ :: rest, skip + 1, leftover, st => optionLoop env rest skip leftover st
  | w :: rest, 0, leftover, st =>
    match classifyWord w with
    | WordKind.nonOption =>
      if env.posixlyCorrect then LoopEnd.done st (some w)
      else optionLoop env rest 0 (leftover.orElse (fun _ => some w)) st
    | WordKind.endOfOptions => LoopEnd.done st (leftover.orElse (fun _ => rest.head?))
    | WordKind.long name value =>
      match getoptLongWord options name value rest with
      | none => LoopEnd.error st
      | some d =>
        match handleOption env d (if d.usedNext then rest.tail else rest) st with
        | Step.ret status st1 => LoopEnd.ret status st1
        | Step.abort st1 => LoopEnd.abort st1
        | Step.next st1 consumed =>
          optionLoop env rest ((if d.usedNext then 1 else 0) + consumed) leftover st1
    | WordKind.cluster chars =>
      match parseCluster env w rest chars 0 st with
      | Sum.inl e => e
      | Sum.inr (st1, skip) => optionLoop env rest skip leftover st1

/-! ## Command-line compilation: after the loop -/

/-- The body of the final loop of `parse` for one element of `projectCommands`: a
command with a non-empty query gets the flag `Silent`. -/
def setSilent : RCCommand → RCCommand
  | RCCommand.QueryCommand type query extra =>
    if ¬ query.isEmpty then
      RCCommand.QueryCommand type query (extra ||| QueryFlag.Silent.mask)
    else RCCommand.QueryCommand type query extra
  | c => c

/-- The final loop of `parse` over `projectCommands`, on the queue. -/
def markSilent (projectCommands : List Nat) (commands : List RCCommand) : List RCCommand :=
  projectCommands.foldl (fun cs i => cs.modify setSilent i) commands

/-- The end of a successful `parse`: the queue after the final loop over
`projectCommands`, and the assignment `mArgv = argv`. -/
def ParseState.finish (st : ParseState) (commands : List RCCommand) (argv : List String) :
    ParseState :=
  { st with rc := { st.rc with mCommands := commands, mArgv := argv } }

/-- The result of `RClient::parse`: the status it returns with the variables at that
point, or an exception nothing catches. -/
inductive ParseResult where
  | returned (status : ParseStatus) (st : ParseState)
  | aborted (st : ParseState)
  deriving DecidableEq, Repr

/-- The part of `parse` after the option loop has ended in state `Done`. -/
def finishParse (env : Env) (argv : List String) (st : ParseState) (leftover : Option String) :
    ParseResult :=
  match leftover with
  | some w =>
    ParseResult.returned ParseStatus.Parse_Error
      (st.write [Output.stderr ("rc: unexpected option -- '" ++ w ++ "'\n")])
  | none =>
    if ¬ env.initLogging st.rc.mLogLevel st.logFile then
      ParseResult.returned ParseStatus.Parse_Error
        (st.write [Output.stderr ("Can't initialize logging with " ++ toString st.rc.mLogLevel
          ++ " " ++ st.logFile ++ "\n")])
    else if st.rc.mCommands.isEmpty then
      ParseResult.returned ParseStatus.Parse_Error (st.write [Output.help true])
    else
      let commands :=
        if st.rc.mCommands.length > st.projectCommands.length then
          markSilent st.projectCommands st.rc.mCommands
        else st.rc.mCommands
      let out :=
        if ¬ st.logFile.isEmpty ∨ st.rc.mLogLevel > LogLevel.Error then [Output.log argv] else []
      ParseResult.returned ParseStatus.Parse_Exec ((st.finish commands argv).write out)

/-- The letters of a range that are no short option: `unused` of the dump. -/
def unusedLetters : List Char :=
  (List.range 26).flatMap (fun i =>
    (if (Char.ofNat ('a'.toNat + i)) ∈ shortOptionString then [] else [Char.ofNat ('a'.toNat + i)])
    ++ (if (Char.ofNat ('A'.toNat + i)) ∈ shortOptionString then []
        else [Char.ofNat ('A'.toNat + i)]))

/-- What `parse` prints when `RTAGS_DUMP_UNUSED` is set. -/
def dumpUnusedOutput : List Output :=
  Output.stdout ("Unused: " ++ String.mk unusedLetters ++ "\n") ::
    opts.filterMap (fun o =>
      match o.shortOpt with
      | none => some (Output.stdout ("No shortoption for " ++ o.longOpt ++ "\n"))
      | some c =>
        if o.longOpt.data.head? ≠ some c then
          some (Output.stdout ("Not ideal option for " ++ o.longOpt ++ "|" ++ String.mk [c] ++ "\n"))
        else none)

/-- The variables of `parse` when the option loop starts. -/
def ParseState.init (rc : RClient) (env : Env) (stdin : List Char) : ParseState :=
  { rc := { rc with mSocketFile := env.home ++ ".rdm" }
    projectCommands := []
    logFile := ""
    stdin := stdin
    output := [] }

/-- The method `RClient::parse` on the command line `argv`, `stdin` being what
standard input holds. -/
def RClient.parse (rc : RClient) (env : Env) (argv : List String) (stdin : List Char) :
    ParseResult :=
  if env.dumpUnused then
    ParseResult.returned ParseStatus.Parse_Ok ((ParseState.init rc env stdin).write dumpUnusedOutput)
  else
    match optionLoop env argv.tail 0 none (ParseState.init rc env stdin) with
    | LoopEnd.done st leftover => finishParse env argv st leftover
    | LoopEnd.error st =>
      ParseResult.returned ParseStatus.Parse_Error (st.write [Output.help true])
    | LoopEnd.ret status st => ParseResult.returned status st
    | LoopEnd.abort st => ParseResult.aborted st

/-! ## The program `rclient` (`rclient/main.cpp`)

The option loop of `main` and what follows it.  The database (`Database.h`) is not
among the sources: what it answers is given by a `MainEnv`, and what `main` does to
the outside world is a trace of `MainAction`s. -/

namespace rclient

/-- The array `longOptions` of `main`. -/
def longOptions : List LongOption :=
  [ LongOption.mk "help" ArgKind.no_argument (some 'h'),
    LongOption.mk "follow-symbol" ArgKind.required_argument (some 'f'),
    LongOption.mk "db" ArgKind.required_argument (some 'd'),
    LongOption.mk "print-detected-db-path" ArgKind.no_argument (some 'p'),
    LongOption.mk "find-references" ArgKind.required_argument (some 'r'),
    LongOption.mk "find-symbols" ArgKind.required_argument (some 's'),
    LongOption.mk "find-db" ArgKind.no_argument (some 'F'),
    LongOption.mk "list-symbols" ArgKind.required_argument (some 'l'),
    LongOption.mk "files" ArgKind.required_argument (some 'P'),
    LongOption.mk "paths-relative-to-root" ArgKind.no_argument (some 'n'),
    LongOption.mk "db-type" ArgKind.required_argument (some 't') ]

/-- The text `shortOptions` of `main`. -/
def shortOptions : List Char := "hf:d:r:l:Dps:P:nt:".data

/-- The enumeration `Mode` of `main`. -/
inductive Mode where
  | None
  | FollowSymbol
  | References
  | FindSymbols
  | ListSymbols
  | Files
  deriving DecidableEq, Repr

/-- The flag `PathsRelativeToRoot`. -/
def PathsRelativeToRoot : Nat := 1

/-- What `main` does to the outside world. -/
inductive MainAction where
  | usage (toStderr : Bool)
  | stdout (text : String)
  | stderr (text : String)
  | setenv (name value : String)
  /-- A call of `findRtagsDb`, with its argument if it has one. -/
  | findRtagsDb (arg : Option String)
  /-- A call of `Database::create` for a path. -/
  | openDatabase (dbPath : String)
  /-- The queries the mode switch makes on an opened database. -/
  | queryDatabase (dbPath : String)
  deriving DecidableEq, Repr

/-- Whether an action opens or queries a database. -/
def MainAction.touchesDatabase : MainAction → Bool
  | MainAction.openDatabase _ => true
  | MainAction.queryDatabase _ => true
  | _ => false

/-- What `main` reads of the outside world. -/
structure MainEnv where
  /-- Whether `POSIXLY_CORRECT` is set in the environment. -/
  posixlyCorrect : Bool
  /-- The result of `findRtagsDb()`: the path found from the working directory, empty
  when there is none. -/
  findRtagsDb : String
  /-- The result of `findRtagsDb(arg)`. -/
  findRtagsDbFor : String → String
  /-- The working directory (`getcwd`). -/
  cwd : String
  /-- Whether the database `Database::create` returns for a path is opened. -/
  isOpened : String → Bool
  /-- The lines the mode switch prints for an opened database, a mode other than
  `None`, the argument and the flags. -/
  answer : String → Mode → String → Nat → List String

/-- The variables of `main`, with the trace of its actions. -/
structure MainState where
  mode : Mode
  flags : Nat
  arg : String
  dbPaths : List String
  trace : List MainAction
  deriving DecidableEq, Repr

/-- The variables of `main` when the option loop starts. -/
def MainState.init : MainState :=
  { mode := Mode.None, flags := 0, arg := "", dbPaths := [], trace := [] }

/-- The values successive calls of `getopt_long` on one cluster word deliver, and
whether none of them was `?`. -/
def getoptCluster (optstring : List Char) (next : List String) :
    List Char → List Delivered × Bool
  | [] => ([], true)
  | c :: cs =>
    match getoptShortChar optstring c cs next with
    | none => ([], false)
    | some d =>
      if clusterGoesOn optstring c cs then
        (d :: (getoptCluster optstring next cs).1, (getoptCluster optstring next cs).2)
      else ([d], true)

/-- The values successive calls of `getopt_long` deliver for the words of a command
line after `argv[0]`, up to the first `?` (none in the list) or to the -1 that ends
it.  `skip` is the number of words at the head that were taken as arguments. -/
def getoptAll (optstring : List Char) (longopts : List LongOption) (posixlyCorrect : Bool) :
    List String → Nat → List (Option Delivered)
  | [], _ => []
  | _ :: rest, skip + 1 => getoptAll optstring longopts posixlyCorrect rest skip
  | w :: rest, 0 =>
    match classifyWord w with
    | WordKind.nonOption =>
      if posixlyCorrect then [] else getoptAll optstring longopts posixlyCorrect rest 0
    | WordKind.endOfOptions => []
    | WordKind.long name value =>
      match getoptLongWord longopts name value rest with
      | none => [none]
      | some d =>
        some d :: getoptAll optstring longopts posixlyCorrect rest (if d.usedNext then 1 else 0)
    | WordKind.cluster chars =>
      (getoptCluster optstring rest chars).1.map some ++
        (if (getoptCluster optstring rest chars).2 then
          getoptAll optstring longopts posixlyCorrect rest
            (if ((getoptCluster optstring rest chars).1.getLast?.map Delivered.usedNext) = some true
             then 1 else 0)
         else [none])

/-- The outcome of one round of the option loop of `main`: go on, or return. -/
inductive Round where
  | next (s : MainState)
  | exit (code : Int) (s : MainState)
  deriving DecidableEq, Repr

/-- What is done is appended to the trace. -/
def MainState.act (s : MainState) (actions : List MainAction) : MainState :=
  { s with trace := s.trace ++ actions }

/-- The case of a mode option that tests the mode first (`-f`, `-P`, `-l`, `-s`). -/
def setMode (s : MainState) (mode : Mode) (optarg : Option String) : Round :=
  if s.mode ≠ Mode.None then
    Round.exit 1 (s.act [MainAction.stderr "Mode is already set\n"])
  else Round.next { s with arg := optarg.getD "", mode := mode }

/-- The body of the option loop of `main`: the switch on the value `getopt_long`
returned (none for `?`), its cases in the order of the source. -/
def round (env : MainEnv) (s : MainState) : Option Delivered → Round
  | none => Round.exit 1 (s.act [MainAction.usage true])
  | some d =>
    if d.val = some 'n' then Round.next { s with flags := s.flags ||| PathsRelativeToRoot }
    else if d.val = some 'p' then
      if ¬ env.findRtagsDb.isEmpty then
        Round.exit 0 (s.act [MainAction.findRtagsDb none, MainAction.stdout (env.findRtagsDb ++ "\n")])
      else
        Round.exit 0 (s.act [MainAction.findRtagsDb none,
          MainAction.stderr ("No db found for " ++ env.cwd ++ "\n")])
    else if d.val = some 't' then
      Round.next (s.act [MainAction.setenv "RTAGS_DB_TYPE" (d.optarg.getD "")])
    else if d.val = some 'h' then Round.exit 0 (s.act [MainAction.usage false])
    else if d.val = some 'f' then setMode s Mode.FollowSymbol d.optarg
    else if d.val = some 'P' then setMode s Mode.Files d.optarg
    else if d.val = some 'r' then
      if s.mode ≠ Mode.None then
        Round.exit 1
          ({ s with arg := d.optarg.getD "" }.act [MainAction.stderr "Mode is already set\n"])
      else Round.next { s with arg := d.optarg.getD "", mode := Mode.References }
    else if d.val = some 'D' then
      if ¬ env.findRtagsDb.isEmpty then
        Round.next
          ({ s with dbPaths := s.dbPaths ++ [env.findRtagsDb] }.act [MainAction.findRtagsDb none])
      else Round.next (s.act [MainAction.findRtagsDb none])
    else if d.val = some 'd' then
      match d.optarg with
      | some a => if a.length ≠ 0 then Round.next { s with dbPaths := s.dbPaths ++ [a] }
                  else Round.next s
      | none => Round.next s
    else if d.val = some 'l' then setMode s Mode.ListSymbols d.optarg
    else if d.val = some 's' then setMode s Mode.FindSymbols d.optarg
    else Round.next s

/-- The option loop of `main` on the values `getopt_long` delivers. -/
def mainLoop (env : MainEnv) : List (Option Delivered) → MainState → Round
  | [], s => Round.next s
  | g :: gs, s =>
    match round env s g with
    | Round.next s1 => mainLoop env gs s1
    | Round.exit code s1 => Round.exit code s1

/-- The loop of `main` over the databases. -/
def databases (env : MainEnv) (s : MainState) : List String → Int × MainState
  | [] => (0, s)
  | dbPath :: rest =>
    if ¬ env.isOpened dbPath then databases env (s.act [MainAction.openDatabase dbPath]) rest
    else if s.mode = Mode.None then
      (1, s.act [MainAction.openDatabase dbPath, MainAction.usage true,
                 MainAction.stderr "No mode selected\n"])
    else
      databases env
        (s.act ([MainAction.openDatabase dbPath, MainAction.queryDatabase dbPath] ++
          (env.answer dbPath s.mode s.arg s.flags).map (fun l => MainAction.stdout (l ++ "\n"))))
        rest

/-- The part of `main` after the option loop. -/
def afterOptions (env : MainEnv) (s : MainState) : Int × MainState :=
  let s1 : MainState :=
    if s.dbPaths.isEmpty then
      let db := if env.findRtagsDb.isEmpty ∧ ¬ s.arg.isEmpty then env.findRtagsDbFor s.arg
                else env.findRtagsDb
      let looked := if env.findRtagsDb.isEmpty ∧ ¬ s.arg.isEmpty then
                      [MainAction.findRtagsDb none, MainAction.findRtagsDb (some s.arg)]
                    else [MainAction.findRtagsDb none]
      if ¬ db.isEmpty then { s with dbPaths := s.dbPaths ++ [db] }.act looked
      else s.act looked
    else s
  if s1.dbPaths.isEmpty then (1, s1.act [MainAction.stderr "No databases specified\n"])
  else if s1.flags &&& PathsRelativeToRoot ≠ 0 ∧ s1.mode ≠ Mode.Files then
    (1, s1.act [MainAction.stderr "-n only makes sense with -P\n"])
  else databases env s1 s1.dbPaths

/-- The function `main` of `rclient`: its return value and the variables at that
point. -/
def main (env : MainEnv) (argv : List String) : Int × MainState :=
  match mainLoop env (getoptAll shortOptions longOptions env.posixlyCorrect argv.tail 0)
      MainState.init with
  | Round.exit code s => (code, s)
  | Round.next s => afterOptions env s

/-- Whether a value `getopt_long` delivered is one of the mode options `-f`, `-r`,
`-l`, `-s`, `-P`. -/
def isModeOption (d : Delivered) : Bool :=
  d.val = some 'f' || d.val = some 'r' || d.val = some 'l' || d.val = some 's'
    || d.val = some 'P'

end rclient

/-! ## Observations on the command-line compilation -/

/-- Whether a command carries the flag `Silent`. -/
def RCCommand.silent : RCCommand → Bool
  | RCCommand.QueryCommand _ _ extra => Flags.has extra QueryFlag.Silent
  | _ => false

/-- Whether a command is a project-selection query queued by a `--project` option
(`--current-project` queues one with the flag `CurrentProjectOnly`). -/
def RCCommand.projectSelection : RCCommand → Bool
  | RCCommand.QueryCommand QueryType.Project _ extra =>
    !Flags.has extra QueryFlag.CurrentProjectOnly
  | _ => false

/-- Whether a command is as the `--project` case queues it: a Project query without
extra flags. -/
def RCCommand.plainProject : RCCommand → Bool
  | RCCommand.QueryCommand QueryType.Project _ extra => decide (extra = 0)
  | _ => false

/-- Whether a command is as the option switch queues it: without the flag `Silent`,
and a Project query either without extra flags or, with an empty query, with the
flag `CurrentProjectOnly` alone. -/
def RCCommand.wellQueued : RCCommand → Bool
  | RCCommand.QueryCommand QueryType.Project query extra =>
    decide (extra = 0) || (decide (query = "") && decide (extra = QueryFlag.CurrentProjectOnly.mask))
  | RCCommand.QueryCommand _ _ extra => !Flags.has extra QueryFlag.Silent
  | _ => true

/-- The indices, counted from `k`, of the commands of a list that are as the
`--project` case queues them. -/
def projectIndices : Nat → List RCCommand → List Nat
  | _, [] => []
  | k, c :: cs => (if c.plainProject then [k] else []) ++ projectIndices (k + 1) cs

/-- The variables `st1` come from `st` by queueing commands as the option switch
does, the Project queries of the `--project` case being appended to
`projectCommands`. -/
def ParseState.Extends (st st1 : ParseState) : Prop :=
  ∃ new : List RCCommand,
    st1.rc.mCommands = st.rc.mCommands ++ new ∧
    st1.projectCommands = st.projectCommands ++ projectIndices st.rc.mCommands.length new ∧
    ∀ c ∈ new, c.wellQueued = true

/-- A round of the option loop that goes on extends the variables; one that returns
does so with a status other than `Parse_Exec` and leaves the queue and
`projectCommands` as they were. -/
def Step.Sound (st : ParseState) : Step → Prop
  | Step.next st1 _ => st.Extends st1
  | Step.ret status st1 =>
    status ≠ ParseStatus.Parse_Exec ∧
      st1.rc.mCommands = st.rc.mCommands ∧ st1.projectCommands = st.projectCommands
  | Step.abort st1 => st1.rc.mCommands = st.rc.mCommands

/-- The queue of `st1` is the queue of `st` with commands appended. -/
def ParseState.Grows (st st1 : ParseState) : Prop :=
  ∃ new : List RCCommand, st1.rc.mCommands = st.rc.mCommands ++ new

/-- The end of the option loop in state `Done` extends the variables the loop started
from; a return from inside the loop has a status other than `Parse_Exec`; and the
queue has only grown. -/
def LoopEnd.Sound (st : ParseState) : LoopEnd → Prop
  | LoopEnd.done st1 _ => st.Extends st1
  | LoopEnd.error st1 => st.Grows st1
  | LoopEnd.ret status st1 => status ≠ ParseStatus.Parse_Exec ∧ st.Grows st1
  | LoopEnd.abort st1 => st.Grows st1

/-- The same for the rounds of the loop on a cluster word. -/
def ClusterSound (st : ParseState) : LoopEnd ⊕ (ParseState × Nat) → Prop
  | Sum.inl e => LoopEnd.Sound st e
  | Sum.inr r => st.Extends r.1

/-- The value bound to a key in a `Map`, if any. -/
def mapGet (m : List (String × String)) (key : String) : Option String :=
  (m.find? (fun kv => kv.1 = key)).map (fun kv => kv.2)

/-- What the final loop of `parse` makes of a command of the queue: a command of
`projectCommands` goes through `setSilent`. -/
def silenced (c : RCCommand) : RCCommand := if c.plainProject then setSilent c else c

/-- Whether a command is a project-selection query with a non-empty query string. -/
def RCCommand.nonEmptyProject : RCCommand → Bool
  | RCCommand.QueryCommand QueryType.Project query _ => !query.isEmpty
  | _ => false

/-- The variables of `parse` when it is left. -/
def ParseResult.state : ParseResult → ParseState
  | ParseResult.returned _ st => st
  | ParseResult.aborted st => st

/-- The status `parse` returns, if it returns. -/
def ParseResult.status : ParseResult → Option ParseStatus
  | ParseResult.returned status _ => some status
  | ParseResult.aborted _ => none

/-- The queue `parse` leaves. -/
def ParseResult.commands (r : ParseResult) : List RCCommand := r.state.rc.mCommands

/-! ## A concrete environment -/

/-- An environment for examples: standard output is a terminal, the only path that
exists is the file `/w/a.cpp`, paths resolve to themselves, a location is encoded as
itself, logging can be initialised, and the port is a `uint16_t`. -/
def Env.plain : Env :=
  { dumpUnused := false
    posixlyCorrect := false
    stdoutIsTty := true
    home := "/home/user/"
    pwd := "/w/"
    pathExists := fun p => p = "/w/a.cpp"
    isFile := fun p => p = "/w/a.cpp"
    isDir := fun _ => false
    resolve := fun _ p => some p
    parentDir := fun p => p
    encodeLocation := fun s => s
    serialize := fun _ => ""
    initLogging := fun _ _ => true
    tcpPortOfInt := fun z => z % 65536
    versionString := "rtags"
    findProjectRoot := fun _ _ => ""
    rtagsConfig := fun _ => [] }

/-- The query string of an option whose argument is resolved when it names an
existing path (`--project`, `--reindex`, ...). -/
def Env.queryArg (env : Env) (arg : String) : String :=
  if env.pathExists arg then env.resolved ResolveMode.RealPath arg else arg

/-- A sample world for `rclient`: no database file is found from the working
directory `/w`, and every database opens and answers nothing. -/
def rclient.MainEnv.plain : rclient.MainEnv :=
  { posixlyCorrect := false, findRtagsDb := "", findRtagsDbFor := fun _ => "", cwd := "/w",
    isOpened := fun _ => true, answer := fun _ _ _ _ => [] }

/-! ## The `exec` methods of the commands -/

/-- One call of an `exec` method of a command: the client after it, the calls of
`connection->send` it made with their results, and the value it returned. -/
structure ExecCall where
  rc : RClient
  trace : List Action
  result : Bool
  deriving DecidableEq, Repr

/-- The method `QueryCommand::exec`; `send` is what `connection->send` answers. -/
def QueryCommand.exec (rc : RClient) (send : Message → Bool) (type : QueryType)
    (query : String) (extraQueryFlags : Flags) : ExecCall :=
  let msg := Message.query (QueryCommand.message rc type query extraQueryFlags)
  { rc := rc, trace := [Action.send msg (send msg)], result := send msg }

/-- The method `QuitCommand::exec`. -/
def QuitCommand.exec (rc : RClient) (send : Message → Bool) (mExitCode : Int) : ExecCall :=
  let msg := Message.quit mExitCode
  { rc := rc, trace := [Action.send msg (send msg)], result := send msg }

/-- The method `RdmLogCommand::exec`. -/
def RdmLogCommand.exec (rc : RClient) (send : Message → Bool) (mLevel : LogLevel) : ExecCall :=
  let msg := Message.logOutput (RdmLogCommand.message rc mLevel)
  { rc := rc, trace := [Action.send msg (send msg)], result := send msg }

/-- The method `CompileCommand::exec`; the call of `pathEnvironment` may fill the
cache of the client. -/
def CompileCommand.exec (rc : RClient) (rctPathEnv : List String) (send : Message → Bool)
    (compilationDatabaseDir cwd args : String) : ExecCall :=
  let built := CompileCommand.message rc rctPathEnv compilationDatabaseDir cwd args
  let msg := Message.index built.2
  { rc := built.1, trace := [Action.send msg (send msg)], result := send msg }

/-- The virtual call `cmd->exec(this, connection)`. -/
def RCCommand.exec (rc : RClient) (rctPathEnv : List String) (send : Message → Bool) :
    RCCommand → ExecCall
  | RCCommand.QueryCommand type query extra => QueryCommand.exec rc send type query extra
  | RCCommand.QuitCommand code => QuitCommand.exec rc send code
  | RCCommand.RdmLogCommand level => RdmLogCommand.exec rc send level
  | RCCommand.CompileCommand dir cwd args => CompileCommand.exec rc rctPathEnv send dir cwd args

/-- Whether an action writes to standard output. -/
def Action.isStdout : Action → Bool
  | Action.stdout _ => true
  | Action.flushStdout => true
  | _ => false

/-! ## Further observations and samples -/

/-- A client in autotest mode with the queue `--status`, `--is-indexing`. -/
def autotestClient : RClient :=
  { mSocketFile := "/home/user/.rdm"
    mFlags := Flag_Autotest
    mCommands := [RCCommand.QueryCommand QueryType.Status "" 0,
                  RCCommand.QueryCommand QueryType.IsIndexing "" 0] }

/-- The variables the option loop leaves. -/
def LoopEnd.state : LoopEnd → ParseState
  | LoopEnd.done st _ => st
  | LoopEnd.error st => st
  | LoopEnd.ret _ st => st
  | LoopEnd.abort st => st

/-- Whether a command is built by one of the two constructors of `CompileCommand`
only: a Compile command has an empty compilation-database directory, or an empty
working directory and an empty argument string. -/
def RCCommand.exclusive : RCCommand → Bool
  | RCCommand.CompileCommand dir cwd args => dir.isEmpty || (cwd.isEmpty && args.isEmpty)
  | _ => true

/-- The queue of `st1` is the queue of `st` followed by commands that are built by
one constructor only. -/
def ParseState.Keeps (st st1 : ParseState) : Prop :=
  ∃ new : List RCCommand,
    st1.rc.mCommands = st.rc.mCommands ++ new ∧ ∀ c ∈ new, c.exclusive = true

/-- A round of the option switch appends only such commands. -/
def Step.Keeps (st : ParseState) : Step → Prop
  | Step.next st1 _ => st.Keeps st1
  | Step.ret _ st1 => st.Keeps st1
  | Step.abort st1 => st.Keeps st1

/-- The option loop appends only such commands. -/
def LoopEnd.Keeps (st : ParseState) (e : LoopEnd) : Prop := st.Keeps e.state

/-- The same for the rounds of the loop on a cluster word. -/
def ClusterKeeps (st : ParseState) : LoopEnd ⊕ (ParseState × Nat) → Prop
  | Sum.inl e => LoopEnd.Keeps st e
  | Sum.inr r => st.Keeps r.1

/-! ## Logical lines of standard input -/

/-- The lines of a text, each with the newline that ends it; the last one may have
none.  `acc` is the part of the current line read so far. -/
def physicalLines : List Char → List Char → List (List Char)
  | [], acc => if acc.isEmpty then [] else [acc]
  | c :: cs, acc =>
    if c = '\n' then (acc ++ [c]) :: physicalLines cs [] else physicalLines cs (acc ++ [c])

/-- Whether a line is continued on the next one: it ends with a backslash followed by
a newline. -/
def continued (line : List Char) : Bool := ['\\', '\n'].isSuffixOf line

/-- The logical lines of a list of lines, in the words of the specification: a logical
line is a maximal run of lines joined across trailing backslash-newline
continuations, each backslash-newline replaced by two spaces; a final unterminated
continuation yields one last logical line.  `pending` is the text joined so far. -/
def logicalLines : List (List Char) → List Char → List (List Char)
  | [], pending => if pending.isEmpty then [] else [pending]
  | l :: ls, pending =>
    if continued l then logicalLines ls (pending ++ l.dropLast.dropLast ++ [' ', ' '])
    else (pending ++ l) :: logicalLines ls []

/-! ## Locations

`Location.h` is not among the sources; the codec is modelled from the
specification.  The normalization of a path depends on the file system and is a
parameter. -/

/-- Modelled from the spec: a location, a (file path, line, column) triple;
`Location.h` is not among the sources. -/
structure Location where
  path : String
  line : Nat
  column : Nat
  deriving DecidableEq, Repr

/-- Modelled from the spec: the value of a component written as a decimal numeral
(digits only, at least one); `Location.h` is not among the sources. -/
def Location.numeral (s : List Char) : Option Nat :=
  if s ≠ [] ∧ s.all Char.isDigit = true then
    some (s.foldl (fun acc c => acc * 10 + (c.toNat - '0'.toNat)) 0)
  else none

/-- Modelled from the spec: the location text syntax `path:line:col` with 1-based line
and column, read from its last two colons; none when a component is missing.
`Location.h` is not among the sources. -/
def Location.parseText (text : String) : Option Location :=
  match lastIndexOf ':' text.data with
  | none => none
  | some j =>
    match lastIndexOf ':' (text.data.take j) with
    | none => none
    | some i =>
      match Location.numeral ((text.data.take j).drop (i + 1)),
          Location.numeral (text.data.drop (j + 1)) with
      | some line, some column =>
        if i = 0 ∨ line = 0 ∨ column = 0 then none
        else some { path := String.mk (text.data.take i), line := line, column := column }
      | _, _ => none

/-- Modelled from the spec: `Location::encode`, which parses `path:line:col`,
normalizes the path and produces the canonical token; the token is empty when the text
is malformed.  `Location.h` is not among the sources. -/
def Location.encode (normalize : String → String) (text : String) : String :=
  match Location.parseText text with
  | none => ""
  | some loc => normalize loc.path ++ ":" ++ toString loc.line ++ ":" ++ toString loc.column

/-- Modelled from the spec: the decoder of a token, which rejects malformed input.
`Location.h` is not among the sources. -/
def Location.decode (token : String) : Option Location := Location.parseText token

/-! # Theorems -/

/-! ## The command loop -/

theorem message_mTimeout (cmd : RCCommand) (rc : RClient) (env : List String) :
    (cmd.message rc env).1.mTimeout = rc.mTimeout := by
  cases cmd <;> simp [RCCommand.message, CompileCommand.message, RClient.pathEnvironment]
  split <;> rfl

theorem message_mFlags (cmd : RCCommand) (rc : RClient) (env : List String) :
    (cmd.message rc env).1.mFlags = rc.mFlags := by
  cases cmd <;> simp [RCCommand.message, CompileCommand.message, RClient.pathEnvironment]
  split <;> rfl

theorem sentMessages_append (a b : List Action) :
    sentMessages (a ++ b) = sentMessages a ++ sentMessages b := by
  induction a with
  | nil => rfl
  | cons x xs ih => cases x <;> simp [sentMessages, ih]

theorem sentMessages_handlerOutput (rc : RClient) (evs : List ConnEvent) :
    sentMessages (evs.flatMap (handlerOutput rc)) = [] := by
  induction evs with
  | nil => rfl
  | cons e es ih =>
    rw [List.flatMap_cons, sentMessages_append, ih]
    cases e with
    | newMessage m =>
      cases m with
      | response d =>
        simp only [handlerOutput, RClient.onNewMessage]
        split <;> rfl
      | other id => rfl
    | finished s => rfl
    | disconnected => rfl
    | connected => rfl

theorem dispatchOrder_append (a b : List Action) :
    dispatchOrder (a ++ b) = dispatchOrder a ++ dispatchOrder b := by
  simp [dispatchOrder]

theorem dispatchOrder_handlerOutput (rc : RClient) (evs : List ConnEvent) :
    dispatchOrder (evs.flatMap (handlerOutput rc)) = [] := by
  induction evs with
  | nil => rfl
  | cons e es ih =>
    rw [List.flatMap_cons, dispatchOrder_append, ih]
    cases e with
    | newMessage m =>
      cases m with
      | response d =>
        simp only [handlerOutput, RClient.onNewMessage]
        split <;> rfl
      | other id => rfl
    | finished s => rfl
    | disconnected => rfl
    | connected => rfl

theorem closeCount_append (a b : List Action) :
    closeCount (a ++ b) = closeCount a + closeCount b := by
  simp [closeCount]

theorem closeCount_handlerOutput (rc : RClient) (evs : List ConnEvent) :
    closeCount (evs.flatMap (handlerOutput rc)) = 0 := by
  induction evs with
  | nil => rfl
  | cons e es ih =>
    rw [List.flatMap_cons, closeCount_append, ih]
    cases e with
    | newMessage m =>
      cases m with
      | response d =>
        simp only [handlerOutput, RClient.onNewMessage]
        split <;> rfl
      | other id => rfl
    | finished s => rfl
    | disconnected => rfl
    | connected => rfl

theorem runCommands_nil (t : Transport) (w : Bool) (i : Nat) (s : LoopState) :
    runCommands t w i [] s = s := rfl

theorem runCommands_send_fails (t : Transport) (w : Bool) (i : Nat) (cmd : RCCommand)
    (rest : List RCCommand) (s : LoopState) (h : t.send i = false) :
    runCommands t w i (cmd :: rest) s =
      { s with rc := (cmd.message s.rc t.pathEnvironment).1,
               trace := s.trace ++ [Action.send (cmd.message s.rc t.pathEnvironment).2 (t.send i)],
               ret := 1 } := by
  simp [runCommands, h]

theorem runCommands_wait_fails (t : Transport) (w : Bool) (i : Nat) (cmd : RCCommand)
    (rest : List RCCommand) (s : LoopState) (h : t.send i = true)
    (hw : (t.wait i).status w ≠ LoopStatus.Success) :
    runCommands t w i (cmd :: rest) s =
      { s with rc := (cmd.message s.rc t.pathEnvironment).1,
               connection := s.connection.raiseAll (t.wait i).events,
               trace := s.trace ++ [Action.send (cmd.message s.rc t.pathEnvironment).2 (t.send i)]
                 ++ [Action.loopExec (cmd.message s.rc t.pathEnvironment).1.mTimeout]
                 ++ (t.wait i).events.flatMap (handlerOutput (cmd.message s.rc t.pathEnvironment).1),
               ret := 1 } := by
  simp [runCommands, h, loopExec, hw]

theorem runCommands_ok (t : Transport) (w : Bool) (i : Nat) (cmd : RCCommand)
    (rest : List RCCommand) (s : LoopState) (h : t.send i = true)
    (hw : (t.wait i).status w = LoopStatus.Success) :
    runCommands t w i (cmd :: rest) s =
      runCommands t w (i + 1) rest
        { rc := (cmd.message s.rc t.pathEnvironment).1,
          connection := s.connection.raiseAll (t.wait i).events,
          trace := s.trace ++ [Action.send (cmd.message s.rc t.pathEnvironment).2 (t.send i)]
                 ++ [Action.loopExec (cmd.message s.rc t.pathEnvironment).1.mTimeout]
                 ++ (t.wait i).events.flatMap (handlerOutput (cmd.message s.rc t.pathEnvironment).1),
          ret := s.ret,
          hasZeroExit :=
            if (s.connection.raiseAll (t.wait i).events).finishStatus = 0 then true
            else s.hasZeroExit } := by
  simp [runCommands, h, loopExec, hw]

theorem commandOk_iff (t : Transport) (w : Bool) (i : Nat) :
    t.commandOk w i = true ↔ t.send i = true ∧ (t.wait i).status w = LoopStatus.Success := by
  simp [Transport.commandOk]

theorem runCommands_mFlags (t : Transport) (w : Bool) (cmds : List RCCommand) :
    ∀ (i : Nat) (s : LoopState), (runCommands t w i cmds s).rc.mFlags = s.rc.mFlags := by
  induction cmds with
  | nil => intro i s; rfl
  | cons cmd rest ih =>
    intro i s
    by_cases h : t.send i = true
    · by_cases hw : (t.wait i).status w = LoopStatus.Success
      · rw [runCommands_ok t w i cmd rest s h hw, ih]
        exact message_mFlags cmd s.rc t.pathEnvironment
      · rw [runCommands_wait_fails t w i cmd rest s h hw]
        exact message_mFlags cmd s.rc t.pathEnvironment
    · rw [runCommands_send_fails t w i cmd rest s (by simpa using h)]
      exact message_mFlags cmd s.rc t.pathEnvironment

theorem runCommands_ret_of_fail (t : Transport) (w : Bool) (cmds : List RCCommand) :
    ∀ (i : Nat) (s : LoopState) (k : Nat), k < cmds.length →
      t.commandOk w (i + k) = false → (runCommands t w i cmds s).ret = 1 := by
  induction cmds with
  | nil => intro i s k hk; simp at hk
  | cons cmd rest ih =>
    intro i s k hk hf
    by_cases h : t.send i = true
    · by_cases hw : (t.wait i).status w = LoopStatus.Success
      · rw [runCommands_ok t w i cmd rest s h hw]
        cases k with
        | zero =>
          have : t.commandOk w i = true := (commandOk_iff t w i).2 ⟨h, hw⟩
          simp [this] at hf
        | succ k =>
          apply ih (i + 1) _ k (by simpa using hk)
          rw [← hf]; congr 1; omega
      · rw [runCommands_wait_fails t w i cmd rest s h hw]
    · rw [runCommands_send_fails t w i cmd rest s (by simpa using h)]

theorem eventsFrom_succ (t : Transport) (i n : Nat) :
    t.eventsFrom i (n + 1) = (t.wait i).events ++ t.eventsFrom (i + 1) n := by
  simp [Transport.eventsFrom, List.range'_succ]

theorem raiseAll_append (c : Connection) (a b : List ConnEvent) :
    c.raiseAll (a ++ b) = (c.raiseAll a).raiseAll b := by
  simp [Connection.raiseAll]

theorem runCommands_of_ok (t : Transport) (w : Bool) (cmds : List RCCommand) :
    ∀ (i : Nat) (s : LoopState),
      (∀ j, j < cmds.length → t.commandOk w (i + j) = true) →
      (runCommands t w i cmds s).ret = s.ret ∧
      (runCommands t w i cmds s).connection =
        s.connection.raiseAll (t.eventsFrom i cmds.length) ∧
      ((runCommands t w i cmds s).hasZeroExit = true ↔
        (s.hasZeroExit = true ∨ ∃ j, j < cmds.length ∧
          (s.connection.raiseAll (t.eventsFrom i (j + 1))).finishStatus = 0)) := by
  induction cmds with
  | nil =>
    intro i s _
    refine ⟨rfl, ?_, ?_⟩
    · simp [runCommands, Transport.eventsFrom, Connection.raiseAll]
    · simp [runCommands]
  | cons cmd rest ih =>
    intro i s hall
    have h0 := (commandOk_iff t w i).1 (by simpa using hall 0 (by simp))
    rw [runCommands_ok t w i cmd rest s h0.1 h0.2]
    have hrest : ∀ j, j < rest.length → t.commandOk w (i + 1 + j) = true := by
      intro j hj
      have := hall (j + 1) (by simpa using hj)
      rw [← this]; congr 1; omega
    obtain ⟨h1, h2, h3⟩ := ih (i + 1) _ hrest
    refine ⟨h1, ?_, ?_⟩
    · rw [h2, List.length_cons, eventsFrom_succ, raiseAll_append]
    · rw [h3]
      constructor
      · rintro (hz | ⟨j, hj, hj0⟩)
        · by_cases hc : (s.connection.raiseAll (t.wait i).events).finishStatus = 0
          · right
            refine ⟨0, by simp, ?_⟩
            simpa [Transport.eventsFrom] using hc
          · left; simpa [hc] using hz
        · right
          refine ⟨j + 1, by simpa using hj, ?_⟩
          rw [eventsFrom_succ, raiseAll_append]; exact hj0
      · rintro (hz | ⟨j, hj, hj0⟩)
        · left; simp [hz]
        · cases j with
          | zero =>
            left
            have : (s.connection.raiseAll (t.wait i).events).finishStatus = 0 := by
              simpa [Transport.eventsFrom] using hj0
            simp [this]
          | succ j =>
            right
            refine ⟨j, by simpa using hj, ?_⟩
            rw [eventsFrom_succ, raiseAll_append] at hj0; exact hj0

theorem runCommands_sent (t : Transport) (w : Bool) (cmds : List RCCommand) :
    ∀ (i : Nat) (s : LoopState),
      sentMessages (runCommands t w i cmds s).trace =
        sentMessages s.trace ++
          (commandMessages t.pathEnvironment s.rc cmds).take (t.attempted w i cmds.length) := by
  induction cmds with
  | nil => intro i s; simp [runCommands, commandMessages]
  | cons cmd rest ih =>
    intro i s
    by_cases h : t.send i = true
    · by_cases hw : (t.wait i).status w = LoopStatus.Success
      · have hok : t.commandOk w i = true := (commandOk_iff t w i).2 ⟨h, hw⟩
        rw [runCommands_ok t w i cmd rest s h hw, ih]
        simp [sentMessages_append, sentMessages_handlerOutput, sentMessages, commandMessages,
          Transport.attempted, hok, Nat.add_comm 1]
      · have hok : t.commandOk w i = false := by
          simpa [Transport.commandOk] using fun _ => hw
        rw [runCommands_wait_fails t w i cmd rest s h hw]
        simp [sentMessages_append, sentMessages_handlerOutput, sentMessages, commandMessages,
          Transport.attempted, hok]
    · have hok : t.commandOk w i = false := by
        simp [Transport.commandOk, h]
      rw [runCommands_send_fails t w i cmd rest s (by simpa using h)]
      simp [sentMessages_append, sentMessages, commandMessages, Transport.attempted, hok]

theorem dispatchOrder_step (tr : List Action) (m : Message) (ok : Bool) (timeout : Int)
    (rc : RClient) (evs : List ConnEvent) :
    dispatchOrder (tr ++ [Action.send m ok] ++ [Action.loopExec timeout]
        ++ evs.flatMap (handlerOutput rc)) =
      dispatchOrder tr ++ [Action.send m ok, Action.loopExec timeout] := by
  rw [dispatchOrder_append, dispatchOrder_append, dispatchOrder_append,
    dispatchOrder_handlerOutput]
  simp [dispatchOrder, Action.isDispatch]

theorem closeCount_step (tr : List Action) (m : Message) (ok : Bool) (timeout : Int)
    (rc : RClient) (evs : List ConnEvent) :
    closeCount (tr ++ [Action.send m ok] ++ [Action.loopExec timeout]
        ++ evs.flatMap (handlerOutput rc)) = closeCount tr := by
  rw [closeCount_append, closeCount_append, closeCount_append, closeCount_handlerOutput]
  simp [closeCount]

theorem runCommands_dispatch (t : Transport) (w : Bool) (cmds : List RCCommand) :
    ∀ (i : Nat) (s : LoopState), ∃ n,
      dispatchOrder (runCommands t w i cmds s).trace =
        dispatchOrder s.trace ++
          (dispatchPlan t s.rc.mTimeout i (commandMessages t.pathEnvironment s.rc cmds)).take n := by
  induction cmds with
  | nil => intro i s; exact ⟨0, by simp [runCommands]⟩
  | cons cmd rest ih =>
    intro i s
    by_cases h : t.send i = true
    · by_cases hw : (t.wait i).status w = LoopStatus.Success
      · obtain ⟨n, hn⟩ := ih (i + 1)
          { rc := (cmd.message s.rc t.pathEnvironment).1,
            connection := s.connection.raiseAll (t.wait i).events,
            trace := s.trace ++ [Action.send (cmd.message s.rc t.pathEnvironment).2 (t.send i)]
                 ++ [Action.loopExec (cmd.message s.rc t.pathEnvironment).1.mTimeout]
                 ++ (t.wait i).events.flatMap (handlerOutput (cmd.message s.rc t.pathEnvironment).1),
            ret := s.ret,
            hasZeroExit :=
              if (s.connection.raiseAll (t.wait i).events).finishStatus = 0 then true
              else s.hasZeroExit }
        refine ⟨n + 2, ?_⟩
        rw [runCommands_ok t w i cmd rest s h hw, hn]
        simp only [dispatchOrder_step]
        simp [commandMessages, dispatchPlan, message_mTimeout]
      · refine ⟨2, ?_⟩
        rw [runCommands_wait_fails t w i cmd rest s h hw]
        simp only [dispatchOrder_step]
        simp [commandMessages, dispatchPlan, message_mTimeout]
    · refine ⟨1, ?_⟩
      rw [runCommands_send_fails t w i cmd rest s (by simpa using h)]
      simp [dispatchOrder_append, dispatchOrder, Action.isDispatch, commandMessages, dispatchPlan]

theorem runCommands_closeCount (t : Transport) (w : Bool) (cmds : List RCCommand) :
    ∀ (i : Nat) (s : LoopState),
      closeCount (runCommands t w i cmds s).trace = closeCount s.trace := by
  induction cmds with
  | nil => intro i s; rfl
  | cons cmd rest ih =>
    intro i s
    by_cases h : t.send i = true
    · by_cases hw : (t.wait i).status w = LoopStatus.Success
      · rw [runCommands_ok t w i cmd rest s h hw, ih]
        exact closeCount_step _ _ _ _ _ _
      · rw [runCommands_wait_fails t w i cmd rest s h hw]
        exact closeCount_step _ _ _ _ _ _
    · rw [runCommands_send_fails t w i cmd rest s (by simpa using h)]
      simp [closeCount_append, closeCount]

theorem runCommands_client (t : Transport) (w : Bool) (cmds : List RCCommand) :
    ∀ (i : Nat) (s : LoopState),
      (runCommands t w i cmds s).connection.client = s.connection.client := by
  have hraise : ∀ (evs : List ConnEvent) (c : Connection), (c.raiseAll evs).client = c.client := by
    intro evs
    induction evs with
    | nil => intro c; rfl
    | cons e es ih =>
      intro c
      show (Connection.raiseAll (c.raise e) es).client = c.client
      rw [ih]; cases e <;> rfl
  induction cmds with
  | nil => intro i s; rfl
  | cons cmd rest ih =>
    intro i s
    by_cases h : t.send i = true
    · by_cases hw : (t.wait i).status w = LoopStatus.Success
      · rw [runCommands_ok t w i cmd rest s h hw, ih]; exact hraise _ _
      · rw [runCommands_wait_fails t w i cmd rest s h hw]; exact hraise _ _
    · rw [runCommands_send_fails t w i cmd rest s (by simpa using h)]

theorem attempted_le (t : Transport) (w : Bool) (n : Nat) :
    ∀ i, t.attempted w i n ≤ n := by
  induction n with
  | zero => intro i; simp [Transport.attempted]
  | succ n ih =>
    intro i
    simp only [Transport.attempted]
    split
    · have := ih (i + 1); omega
    · omega

theorem attempted_of_ok (t : Transport) (w : Bool) (n : Nat) :
    ∀ i, (∀ j, j < n → t.commandOk w (i + j) = true) → t.attempted w i n = n := by
  induction n with
  | zero => intro i _; simp [Transport.attempted]
  | succ n ih =>
    intro i hall
    have h0 : t.commandOk w i = true := by simpa using hall 0 (by omega)
    simp only [Transport.attempted, h0, if_true]
    rw [ih (i + 1)]
    · omega
    · intro j hj
      have := hall (j + 1) (by omega)
      rw [← this]; congr 1; omega

theorem attempted_of_fail (t : Transport) (w : Bool) (n : Nat) :
    ∀ i k, k < n → t.commandOk w (i + k) = false → t.attempted w i n ≤ k + 1 := by
  induction n with
  | zero => intro i k hk; omega
  | succ n ih =>
    intro i k hk hf
    simp only [Transport.attempted]
    split
    · rename_i h0
      cases k with
      | zero => simp [h0] at hf
      | succ k =>
        have := ih (i + 1) k (by omega) (by rw [← hf]; congr 1; omega)
        omega
    · omega

theorem attempted_first_fail (t : Transport) (w : Bool) (n : Nat) :
    ∀ i k, k < n → (∀ j, j < k → t.commandOk w (i + j) = true) →
      t.commandOk w (i + k) = false → t.attempted w i n = k + 1 := by
  induction n with
  | zero => intro i k hk; omega
  | succ n ih =>
    intro i k hk hall hf
    cases k with
    | zero =>
      have h0 : t.commandOk w i = false := by simpa using hf
      simp [Transport.attempted, h0]
    | succ k =>
      have h0 : t.commandOk w i = true := by simpa using hall 0 (by omega)
      simp only [Transport.attempted, h0, if_true]
      rw [ih (i + 1) k (by omega)]
      · omega
      · intro j hj
        have := hall (j + 1) (by omega)
        rw [← this]; congr 1; omega
      · rw [← hf]; congr 1; omega

theorem attempted_ge (t : Transport) (w : Bool) (n : Nat) :
    ∀ i k, k < n → (∀ j, j < k → t.commandOk w (i + j) = true) → k + 1 ≤ t.attempted w i n := by
  induction n with
  | zero => intro i k hk; omega
  | succ n ih =>
    intro i k hk hall
    cases k with
    | zero =>
      simp only [Transport.attempted]
      split <;> omega
    | succ k =>
      have h0 : t.commandOk w i = true := by simpa using hall 0 (by omega)
      simp only [Transport.attempted, h0, if_true]
      have := ih (i + 1) k (by omega) (by
        intro j hj
        have := hall (j + 1) (by omega)
        rw [← this]; congr 1; omega)
      omega

/-! ## The executor -/

theorem exec_of_establishes (rc : RClient) (t : Transport) (h : rc.establishes t = true) :
    rc.exec t = execCommands t rc.connectedWired rc (rc.connectionReady t) (rc.connectTrace t) := by
  unfold RClient.exec RClient.establishes RClient.connectionReady RClient.connectTrace
    RClient.connectedWired at *
  by_cases hp : rc.mTcpPort ≠ 0
  · simp only [hp, if_true, ne_eq, not_false_eq_true, Bool.and_eq_true] at h ⊢
    simp [h.1, h.2, loopExec]
  · simp only [hp, if_false] at h ⊢
    simp [h]

theorem exec_of_not_establishes (rc : RClient) (t : Transport) (h : rc.establishes t = false) :
    (rc.exec t).ret = 1 ∧ sentMessages (rc.exec t).trace = [] ∧
      closeCount (rc.exec t).trace = 0 ∧ (rc.exec t).rc = rc := by
  unfold RClient.exec RClient.establishes RClient.connectionReady at *
  by_cases hp : rc.mTcpPort ≠ 0
  · simp only [hp, if_true, ne_eq, not_false_eq_true] at h ⊢
    by_cases hc : t.connectTcp = true
    · simp only [hc, Bool.true_and] at h
      simp only [hc, Bool.not_true, Bool.false_eq_true, if_false, loopExec, h, Bool.not_false,
        if_true, true_and]
      refine ⟨?_, ?_, trivial⟩
      · rw [sentMessages_append, sentMessages_append, sentMessages_append,
          sentMessages_handlerOutput]
        split <;> rfl
      · rw [closeCount_append, closeCount_append, closeCount_append,
          closeCount_handlerOutput]
        split <;> rfl
    · simp only [hc, Bool.not_false, if_true, true_and]
      refine ⟨?_, ?_, trivial⟩
      · rw [sentMessages_append]; split <;> rfl
      · rw [closeCount_append]; split <;> rfl
  · simp only [hp, if_false] at h ⊢
    simp only [h, Bool.not_false, if_true, true_and]
    refine ⟨?_, ?_, trivial⟩
    · rw [sentMessages_append]; split <;> rfl
    · rw [closeCount_append]; split <;> rfl

theorem sentMessages_connectTrace (rc : RClient) (t : Transport) :
    sentMessages (rc.connectTrace t) = [] := by
  unfold RClient.connectTrace
  split
  · rw [sentMessages_append, sentMessages_append, sentMessages_handlerOutput]; rfl
  · rfl

theorem closeCount_connectTrace (rc : RClient) (t : Transport) :
    closeCount (rc.connectTrace t) = 0 := by
  unfold RClient.connectTrace
  split
  · rw [closeCount_append, closeCount_append, closeCount_handlerOutput]; rfl
  · rfl

theorem dispatchOrder_connectTrace (rc : RClient) (t : Transport) :
    dispatchOrder (rc.connectTrace t) =
      if rc.mTcpPort ≠ 0 then [Action.loopExec rc.mConnectTimeout] else [] := by
  unfold RClient.connectTrace
  split
  · rw [dispatchOrder_append, dispatchOrder_append, dispatchOrder_handlerOutput]; rfl
  · rfl

theorem client_connectionReady (rc : RClient) (t : Transport) :
    (rc.connectionReady t).client = t.client := by
  have hraise : ∀ (evs : List ConnEvent) (c : Connection), (c.raiseAll evs).client = c.client := by
    intro evs
    induction evs with
    | nil => intro c; rfl
    | cons e es ih =>
      intro c
      show (Connection.raiseAll (c.raise e) es).client = c.client
      rw [ih]; cases e <;> rfl
  unfold RClient.connectionReady
  split
  · rw [hraise]
  · rfl

/-- The start of the command loop of `exec`. -/
theorem execCommands_ret (t : Transport) (w : Bool) (rc : RClient) (c : Connection)
    (tr : List Action) :
    (execCommands t w rc c tr).ret =
      if (runCommands t w 0 rc.mCommands ⟨rc, c, tr, 0, false⟩).ret = 0 ∧ rc.autotest = false ∧
          (runCommands t w 0 rc.mCommands ⟨rc, c, tr, 0, false⟩).hasZeroExit = false then
        (runCommands t w 0 rc.mCommands ⟨rc, c, tr, 0, false⟩).connection.finishStatus
      else (runCommands t w 0 rc.mCommands ⟨rc, c, tr, 0, false⟩).ret := by
  simp only [execCommands, runCommands_mFlags, RClient.autotest]
  simp

/-- The return value of `exec` as a function of what the transport answers. -/
theorem exec_ret (rc : RClient) (t : Transport) :
    (rc.exec t).ret =
      if rc.establishes t = true ∧
          ∀ i, i < rc.mCommands.length → t.commandOk rc.connectedWired i = true then
        if rc.autotest = true ∨
            ∃ i, i < rc.mCommands.length ∧ rc.completionStatus t i = 0 then 0
        else rc.finalStatus t
      else 1 := by
  by_cases he : rc.establishes t = true
  · rw [exec_of_establishes rc t he, execCommands_ret]
    by_cases hall : ∀ i, i < rc.mCommands.length → t.commandOk rc.connectedWired i = true
    · obtain ⟨h1, h2, h3⟩ := runCommands_of_ok t rc.connectedWired rc.mCommands 0
        ⟨rc, rc.connectionReady t, rc.connectTrace t, 0, false⟩ (by simpa using hall)
      have h1' : (runCommands t rc.connectedWired 0 rc.mCommands
          ⟨rc, rc.connectionReady t, rc.connectTrace t, 0, false⟩).ret = 0 := h1
      have h2' : (runCommands t rc.connectedWired 0 rc.mCommands
          ⟨rc, rc.connectionReady t, rc.connectTrace t, 0, false⟩).connection.finishStatus =
          rc.finalStatus t := by rw [h2]; rfl
      have h3' : (runCommands t rc.connectedWired 0 rc.mCommands
          ⟨rc, rc.connectionReady t, rc.connectTrace t, 0, false⟩).hasZeroExit = true ↔
          ∃ i, i < rc.mCommands.length ∧ rc.completionStatus t i = 0 := by
        rw [h3]
        constructor
        · rintro (h | h)
          · simp at h
          · exact h
        · exact Or.inr
      conv_rhs => rw [if_pos ⟨he, hall⟩]
      rw [h1', h2']
      by_cases hz : ∃ i, i < rc.mCommands.length ∧ rc.completionStatus t i = 0
      · have hz1 := h3'.2 hz
        conv_rhs => rw [if_pos (Or.inr hz)]
        simp [hz1]
      · have hz1 : (runCommands t rc.connectedWired 0 rc.mCommands
            ⟨rc, rc.connectionReady t, rc.connectTrace t, 0, false⟩).hasZeroExit = false := by
          cases hb : (runCommands t rc.connectedWired 0 rc.mCommands
            ⟨rc, rc.connectionReady t, rc.connectTrace t, 0, false⟩).hasZeroExit with
          | false => rfl
          | true => exact absurd (h3'.1 hb) hz
        by_cases ha : rc.autotest = true
        · conv_rhs => rw [if_pos (Or.inl ha)]
          simp [ha]
        · have ha1 : rc.autotest = false := by simpa using ha
          conv_rhs => rw [if_neg (fun h => h.elim ha hz)]
          simp [ha1, hz1]
    · have hne : ¬ (rc.establishes t = true ∧
          ∀ i, i < rc.mCommands.length → t.commandOk rc.connectedWired i = true) :=
        fun h => hall h.2
      conv_rhs => rw [if_neg hne]
      push_neg at hall
      obtain ⟨k, hk, hf⟩ := hall
      have hr := runCommands_ret_of_fail t rc.connectedWired rc.mCommands 0
        ⟨rc, rc.connectionReady t, rc.connectTrace t, 0, false⟩ k hk
        (by simpa using hf)
      rw [hr]; simp
  · have he1 : rc.establishes t = false := by simpa using he
    rw [(exec_of_not_establishes rc t he1).1]
    simp [he1]

theorem exec_sent (rc : RClient) (t : Transport) :
    sentMessages (rc.exec t).trace =
      if rc.establishes t = true then
        (commandMessages t.pathEnvironment rc rc.mCommands).take
          (t.attempted rc.connectedWired 0 rc.mCommands.length)
      else [] := by
  by_cases he : rc.establishes t = true
  · rw [exec_of_establishes rc t he, if_pos he]
    have h := runCommands_sent t rc.connectedWired rc.mCommands 0
      ⟨rc, rc.connectionReady t, rc.connectTrace t, 0, false⟩
    simp only [execCommands]
    split
    · rw [sentMessages_append, h, sentMessages_connectTrace]; simp [sentMessages]
    · rw [h, sentMessages_connectTrace]; simp
  · have he1 : rc.establishes t = false := by simpa using he
    rw [(exec_of_not_establishes rc t he1).2.1, if_neg he]

theorem exec_closeCount (rc : RClient) (t : Transport) :
    closeCount (rc.exec t).trace = if rc.establishes t = true ∧ t.client = true then 1 else 0 := by
  by_cases he : rc.establishes t = true
  · rw [exec_of_establishes rc t he]
    have h := runCommands_closeCount t rc.connectedWired rc.mCommands 0
      ⟨rc, rc.connectionReady t, rc.connectTrace t, 0, false⟩
    have hc := runCommands_client t rc.connectedWired rc.mCommands 0
      ⟨rc, rc.connectionReady t, rc.connectTrace t, 0, false⟩
    simp only [execCommands, hc, client_connectionReady]
    by_cases hcl : t.client = true
    · simp only [hcl, if_true, he, and_self]
      rw [closeCount_append, h]
      show closeCount (rc.connectTrace t) + closeCount [Action.close] = 1
      rw [closeCount_connectTrace]; rfl
    · have hcl1 : t.client = false := by simpa using hcl
      simp only [hcl1, Bool.false_eq_true, if_false, and_false]
      rw [h]
      exact closeCount_connectTrace rc t
  · have he1 : rc.establishes t = false := by simpa using he
    rw [(exec_of_not_establishes rc t he1).2.2.1]
    simp [he1]

theorem commandMessages_length (env : List String) (cmds : List RCCommand) :
    ∀ rc : RClient, (commandMessages env rc cmds).length = cmds.length := by
  induction cmds with
  | nil => intro rc; rfl
  | cons c cs ih => intro rc; simp [commandMessages, ih]

theorem finalStatus_eq_last (rc : RClient) (t : Transport) (h : rc.mCommands ≠ []) :
    rc.finalStatus t = rc.completionStatus t (rc.mCommands.length - 1) := by
  have hpos : 0 < rc.mCommands.length := List.length_pos.2 h
  unfold RClient.finalStatus RClient.completionStatus
  rw [Nat.sub_add_cancel hpos]

theorem exec_dispatch (rc : RClient) (t : Transport) :
    ∃ n, dispatchOrder (rc.exec t).trace =
      (if rc.mTcpPort ≠ 0 ∧ t.connectTcp = true then [Action.loopExec rc.mConnectTimeout] else [])
        ++ (dispatchPlan t rc.mTimeout 0
              (commandMessages t.pathEnvironment rc rc.mCommands)).take n := by
  by_cases he : rc.establishes t = true
  · obtain ⟨n, hn⟩ := runCommands_dispatch t rc.connectedWired rc.mCommands 0
      ⟨rc, rc.connectionReady t, rc.connectTrace t, 0, false⟩
    refine ⟨n, ?_⟩
    have hpre : dispatchOrder (rc.connectTrace t) =
        (if rc.mTcpPort ≠ 0 ∧ t.connectTcp = true then [Action.loopExec rc.mConnectTimeout]
         else []) := by
      rw [dispatchOrder_connectTrace]
      by_cases hp : rc.mTcpPort ≠ 0
      · have hc : t.connectTcp = true := by
          simp only [RClient.establishes, hp, if_true, ne_eq, not_false_eq_true,
            Bool.and_eq_true] at he
          exact he.1
        simp [hp, hc]
      · simp [hp]
    rw [exec_of_establishes rc t he]
    simp only [execCommands]
    split
    · rw [dispatchOrder_append, hn, hpre]
      simp [dispatchOrder, Action.isDispatch]
    · rw [hn, hpre]
  · have he1 : rc.establishes t = false := by simpa using he
    refine ⟨0, ?_⟩
    unfold RClient.exec RClient.establishes RClient.connectionReady at *
    by_cases hp : rc.mTcpPort ≠ 0
    · simp only [hp, if_true, ne_eq, not_false_eq_true] at he1 ⊢
      by_cases hc : t.connectTcp = true
      · simp only [hc, Bool.true_and] at he1
        simp only [hc, Bool.not_true, Bool.false_eq_true, if_false, loopExec, he1, Bool.not_false,
          if_true, true_and, and_self, List.take_zero, List.append_nil]
        rw [dispatchOrder_append, dispatchOrder_append, dispatchOrder_append,
          dispatchOrder_handlerOutput]
        split <;> rfl
      · simp only [hc, Bool.not_false, if_true, and_false, if_false, List.take_zero,
          List.append_nil]
        rw [dispatchOrder_append]; split <;> rfl
    · simp only [hp, if_false] at he1 ⊢
      simp only [he1, Bool.not_false, if_true, false_and, if_false, List.take_zero,
        List.append_nil]
      rw [dispatchOrder_append]; split <;> rfl

/-! ## Exit status (C1, C8, C9) -/

/-- C1, as amended: `RClient::exec` returns 1 when the connection is not established
or some command's send fails or its wait does not end with `Success`; when the
connection is established and every command goes through, it returns 0 in autotest
mode or when some command's completion status is 0, and otherwise the finish status
of the connection when the loop is over. -/
theorem C1_exec_return_value (rc : RClient) (t : Transport) :
    (rc.exec t).ret =
      if rc.establishes t = true ∧
          ∀ i, i < rc.mCommands.length → t.commandOk rc.connectedWired i = true then
        if rc.autotest = true ∨
            ∃ i, i < rc.mCommands.length ∧ rc.completionStatus t i = 0 then 0
        else rc.finalStatus t
      else 1 :=
  exec_ret rc t

/-- C1, as stated, fails: with the queue `--status`, `--is-indexing` completing with
the statuses 0 and 5, `exec` returns 0 although not every command completed with
status 0; and a single command completing with status 2 makes `exec` return 2,
not 1. -/
theorem C1_counterexample :
    ¬ ((statusThenIsIndexing.exec
          (Transport.completing (fun i => if i = 0 then 0 else 5))).ret = 0 ↔
        (statusThenIsIndexing.establishes
            (Transport.completing (fun i => if i = 0 then 0 else 5)) = true ∧
          ∀ i, i < statusThenIsIndexing.mCommands.length →
            (Transport.completing (fun i => if i = 0 then 0 else 5)).commandOk
                statusThenIsIndexing.connectedWired i = true ∧
              statusThenIsIndexing.completionStatus
                (Transport.completing (fun i => if i = 0 then 0 else 5)) i = 0)) ∧
      (isIndexingOnly.exec (Transport.completing (fun _ => 2))).ret = 2 := by
  refine ⟨?_, by decide⟩
  intro h
  have h0 : (statusThenIsIndexing.exec
      (Transport.completing (fun i => if i = 0 then 0 else 5))).ret = 0 := by decide
  have h1 := (h.1 h0).2 1 (by decide)
  exact absurd h1.2 (by decide)

/-- C8: when the connection is established, every command is sent and its wait ends
with `Success`, and some command's completion status is 0, `exec` returns 0. -/
theorem C8_zero_status_wins (rc : RClient) (t : Transport)
    (hconn : rc.establishes t = true)
    (hall : ∀ i, i < rc.mCommands.length → t.commandOk rc.connectedWired i = true)
    (hzero : ∃ i, i < rc.mCommands.length ∧ rc.completionStatus t i = 0) :
    (rc.exec t).ret = 0 := by
  rw [exec_ret, if_pos ⟨hconn, hall⟩, if_pos (Or.inr hzero)]

/-- C8 at the queue `--status`, `--is-indexing` completing with the statuses 0 and 5. -/
theorem C8_witness :
    (statusThenIsIndexing.exec (Transport.completing (fun i => if i = 0 then 0 else 5))).ret = 0 :=
  C8_zero_status_wins statusThenIsIndexing
    (Transport.completing (fun i => if i = 0 then 0 else 5)) (by decide) (by decide)
    ⟨0, by decide, by decide⟩

/-- C9: for a non-empty queue run outside autotest mode on an established
connection, if every command is sent and awaited successfully and no command's
completion status is 0, `exec` returns the completion status of the last command. -/
theorem C9_last_status_propagates (rc : RClient) (t : Transport)
    (hne : rc.mCommands ≠ [])
    (hauto : rc.autotest = false)
    (hconn : rc.establishes t = true)
    (hall : ∀ i, i < rc.mCommands.length → t.commandOk rc.connectedWired i = true)
    (hnz : ∀ i, i < rc.mCommands.length → rc.completionStatus t i ≠ 0) :
    (rc.exec t).ret = rc.completionStatus t (rc.mCommands.length - 1) := by
  rw [exec_ret, if_pos ⟨hconn, hall⟩, if_neg, finalStatus_eq_last rc t hne]
  rintro (h | ⟨i, hi, h0⟩)
  · rw [hauto] at h; exact Bool.noConfusion h
  · exact hnz i hi h0

/-- C9 at the queue `--status`, `--is-indexing` completing with the statuses 3 and 7:
`exec` returns 7. -/
theorem C9_witness :
    (statusThenIsIndexing.exec (Transport.completing (fun i => if i = 0 then 3 else 7))).ret =
        statusThenIsIndexing.completionStatus
          (Transport.completing (fun i => if i = 0 then 3 else 7))
          (statusThenIsIndexing.mCommands.length - 1) ∧
      statusThenIsIndexing.completionStatus
          (Transport.completing (fun i => if i = 0 then 3 else 7))
          (statusThenIsIndexing.mCommands.length - 1) = 7 :=
  ⟨C9_last_status_propagates statusThenIsIndexing
    (Transport.completing (fun i => if i = 0 then 3 else 7)) (by decide) (by decide) (by decide)
    (by decide) (by decide), by decide⟩

/-! ## Dispatch order and aborts (C2, C3, C5, C6) -/

/-- C2: if the wait for command `i` of the queue ends with anything other than
`Success`, `exec` returns 1 and the messages handed to the connection are the messages
of at most the first `i + 1` commands, in queue order: none of the commands
`i + 1`, ..., `N - 1` is sent.  When the run reaches that wait, they are exactly the
messages of the commands `0`, ..., `i`. -/
theorem C2_timeout_aborts_queue (rc : RClient) (t : Transport) (i : Nat)
    (hi : i < rc.mCommands.length)
    (hwait : (t.wait i).status rc.connectedWired ≠ LoopStatus.Success) :
    (rc.exec t).ret = 1 ∧
      (∃ k, k ≤ i + 1 ∧ sentMessages (rc.exec t).trace =
        (commandMessages t.pathEnvironment rc rc.mCommands).take k) ∧
      ((rc.establishes t = true ∧ t.send i = true ∧
          ∀ j, j < i → t.commandOk rc.connectedWired j = true) →
        sentMessages (rc.exec t).trace =
          (commandMessages t.pathEnvironment rc rc.mCommands).take (i + 1)) := by
  have hf : t.commandOk rc.connectedWired i = false := by
    simpa [Transport.commandOk] using fun _ => hwait
  refine ⟨?_, ?_, ?_⟩
  · rw [exec_ret, if_neg]
    rintro ⟨_, hall⟩
    rw [hall i hi] at hf
    exact Bool.noConfusion hf
  · rw [exec_sent]
    by_cases he : rc.establishes t = true
    · rw [if_pos he]
      exact ⟨_, attempted_of_fail t rc.connectedWired rc.mCommands.length 0 i hi
        (by simpa using hf), rfl⟩
    · rw [if_neg he]
      exact ⟨0, by omega, by simp⟩
  · rintro ⟨he, _, hprev⟩
    rw [exec_sent, if_pos he,
      attempted_first_fail t rc.connectedWired rc.mCommands.length 0 i hi
        (by simpa using hprev) (by simpa using hf)]

/-- C2 at the queue `--status`, `--is-indexing`, `--quit-rdm` when the wait for
`--is-indexing` times out: `exec` returns 1 and only the first two messages are sent. -/
theorem C2_witness :
    (threeCommands.exec (Transport.timingOutAt 1 (fun _ => 0))).ret = 1 ∧
      (∃ k, k ≤ 1 + 1 ∧
        sentMessages (threeCommands.exec (Transport.timingOutAt 1 (fun _ => 0))).trace =
          (commandMessages (Transport.timingOutAt 1 (fun _ => 0)).pathEnvironment threeCommands
            threeCommands.mCommands).take k) ∧
      ((threeCommands.establishes (Transport.timingOutAt 1 (fun _ => 0)) = true ∧
          (Transport.timingOutAt 1 (fun _ => 0)).send 1 = true ∧
          ∀ j, j < 1 →
            (Transport.timingOutAt 1 (fun _ => 0)).commandOk threeCommands.connectedWired j
              = true) →
        sentMessages (threeCommands.exec (Transport.timingOutAt 1 (fun _ => 0))).trace =
          (commandMessages (Transport.timingOutAt 1 (fun _ => 0)).pathEnvironment threeCommands
            threeCommands.mCommands).take (1 + 1)) :=
  C2_timeout_aborts_queue threeCommands (Transport.timingOutAt 1 (fun _ => 0)) 1
    (by decide) (by decide)

/-- C3: the messages `exec` hands to the connection are the messages of the first
`k` commands of the queue, in queue order, and its sends and event-loop runs
alternate strictly: after the connect wait (on the TCP path), message 0, the wait for
it, message 1, the wait for it, and so on, so message `i + 1` is sent only after the
wait for command `i` has returned. -/
theorem C3_fifo_dispatch (rc : RClient) (t : Transport) :
    (∃ k, k ≤ rc.mCommands.length ∧
      sentMessages (rc.exec t).trace =
        (commandMessages t.pathEnvironment rc rc.mCommands).take k) ∧
    (∃ n, dispatchOrder (rc.exec t).trace =
      (if rc.mTcpPort ≠ 0 ∧ t.connectTcp = true then [Action.loopExec rc.mConnectTimeout] else [])
        ++ (dispatchPlan t rc.mTimeout 0
              (commandMessages t.pathEnvironment rc rc.mCommands)).take n) := by
  refine ⟨?_, exec_dispatch rc t⟩
  rw [exec_sent]
  by_cases he : rc.establishes t = true
  · rw [if_pos he]
    exact ⟨_, attempted_le t rc.connectedWired rc.mCommands.length 0, rfl⟩
  · rw [if_neg he]
    exact ⟨0, by omega, by simp⟩

/-- C5: if establishing the connection fails, `exec` returns 1, hands no message to
the connection, and leaves the client (its queue included) as it was. -/
theorem C5_connection_failure (rc : RClient) (t : Transport)
    (hfail : rc.establishes t = false) :
    (rc.exec t).ret = 1 ∧ sentMessages (rc.exec t).trace = [] ∧ (rc.exec t).rc = rc := by
  obtain ⟨h1, h2, _, h4⟩ := exec_of_not_establishes rc t hfail
  exact ⟨h1, h2, h4⟩

/-- C5 at a socket file that refuses the connection. -/
theorem C5_witness :
    (threeCommands.exec Transport.refusing).ret = 1 ∧
      sentMessages (threeCommands.exec Transport.refusing).trace = [] ∧
      (threeCommands.exec Transport.refusing).rc = threeCommands :=
  C5_connection_failure threeCommands Transport.refusing (by decide)

/-- C6, as stated, fails: with the queue `--status`, `--is-indexing`, `--quit-rdm` on
a connection that drops during the wait for `--status` and refuses every later send,
the exec of `--is-indexing` still runs: its message is handed to `connection->send`. -/
theorem C6_counterexample :
    sentMessages (threeCommands.exec (Transport.droppingAt 0 (fun _ => 0))).trace =
        (commandMessages (Transport.droppingAt 0 (fun _ => 0)).pathEnvironment threeCommands
          threeCommands.mCommands).take 2 ∧
      Action.send (Message.query (QueryCommand.message threeCommands QueryType.IsIndexing "" 0))
          false ∈ (threeCommands.exec (Transport.droppingAt 0 (fun _ => 0))).trace := by
  decide

/-- C6, as amended: if the connection drops during the wait for command `i` (the run
having reached that wait), the wait ends with `Success` like a completed one, and the
exec of command `i + 1` runs: its message is handed to the connection.  When that
send is refused, no later command is executed or sent and `exec` returns 1. -/
theorem C6_drop_aborts_at_next_send (rc : RClient) (t : Transport) (i : Nat)
    (hconn : rc.establishes t = true)
    (hprev : ∀ j, j < i → t.commandOk rc.connectedWired j = true)
    (hsend : t.send i = true)
    (hdrop : ConnEvent.disconnected ∈ (t.wait i).events)
    (hnext : i + 1 < rc.mCommands.length) :
    (t.wait i).status rc.connectedWired = LoopStatus.Success ∧
      i + 2 ≤ (sentMessages (rc.exec t).trace).length ∧
      (t.send (i + 1) = false →
        (rc.exec t).ret = 1 ∧
        sentMessages (rc.exec t).trace =
          (commandMessages t.pathEnvironment rc rc.mCommands).take (i + 2)) := by
  have hstatus : (t.wait i).status rc.connectedWired = LoopStatus.Success := by
    unfold LoopRun.status
    rw [if_pos]
    exact List.any_eq_true.2 ⟨ConnEvent.disconnected, hdrop, rfl⟩
  have hok : t.commandOk rc.connectedWired i = true := (commandOk_iff _ _ _).2 ⟨hsend, hstatus⟩
  have hall : ∀ j, j < i + 1 → t.commandOk rc.connectedWired (0 + j) = true := by
    intro j hj
    rcases Nat.lt_succ_iff_lt_or_eq.1 hj with h | h
    · simpa using hprev j h
    · simpa [h] using hok
  have hlen := commandMessages_length t.pathEnvironment rc.mCommands rc
  refine ⟨hstatus, ?_, ?_⟩
  · rw [exec_sent, if_pos hconn, List.length_take, hlen]
    have := attempted_ge t rc.connectedWired rc.mCommands.length 0 (i + 1) hnext hall
    omega
  · intro hrefuse
    have hf : t.commandOk rc.connectedWired (0 + (i + 1)) = false := by
      simp [Transport.commandOk, hrefuse]
    refine ⟨?_, ?_⟩
    · rw [exec_ret, if_neg]
      rintro ⟨_, h⟩
      have := h (i + 1) hnext
      rw [Nat.zero_add] at hf
      rw [this] at hf
      exact Bool.noConfusion hf
    · rw [exec_sent, if_pos hconn,
        attempted_first_fail t rc.connectedWired rc.mCommands.length 0 (i + 1) hnext hall hf]

/-- C6, as amended, at the queue `--status`, `--is-indexing`, `--quit-rdm` on a
connection that drops during the wait for `--status`. -/
theorem C6_witness :
    ((Transport.droppingAt 0 (fun _ => 0)).wait 0).status threeCommands.connectedWired
        = LoopStatus.Success ∧
      0 + 2 ≤ (sentMessages (threeCommands.exec (Transport.droppingAt 0 (fun _ => 0))).trace).length ∧
      ((Transport.droppingAt 0 (fun _ => 0)).send (0 + 1) = false →
        (threeCommands.exec (Transport.droppingAt 0 (fun _ => 0))).ret = 1 ∧
        sentMessages (threeCommands.exec (Transport.droppingAt 0 (fun _ => 0))).trace =
          (commandMessages (Transport.droppingAt 0 (fun _ => 0)).pathEnvironment threeCommands
            threeCommands.mCommands).take (0 + 2)) :=
  C6_drop_aborts_at_next_send threeCommands (Transport.droppingAt 0 (fun _ => 0)) 0
    (by decide) (by decide) (by decide) (by decide) (by decide)

/-! ## The follow-location scenario (C4) and closing the connection (C7) -/

theorem completing_establishes (rc : RClient) (status : Nat → Int) :
    rc.establishes (Transport.completing status) = true := by
  unfold RClient.establishes RClient.connectionReady
  split <;> rfl

theorem completing_commandOk (status : Nat → Int) (w : Bool) (i : Nat) :
    (Transport.completing status).commandOk w i = true := by
  simp [Transport.commandOk, Transport.completing, LoopRun.status, quits]

/-- C4: for the queue [Query(FollowLocation, encoded location), Quit(0)] of any client,
on a transport on which connecting succeeds and every send succeeds and is followed
at once by the completion signal with status 0, `exec` returns 0, hands exactly two
messages to the connection (the Query, then the Quit), and closes the connection
exactly once. -/
theorem C4_follow_location_then_quit (base : RClient) (token : String) :
    ((followThenQuitClient base token).exec (Transport.completing (fun _ => 0))).ret = 0 ∧
      sentMessages ((followThenQuitClient base token).exec
          (Transport.completing (fun _ => 0))).trace =
        [Message.query (QueryCommand.message (followThenQuitClient base token)
            QueryType.FollowLocation token QueryFlag.HasLocation.mask),
         Message.quit 0] ∧
      closeCount ((followThenQuitClient base token).exec
          (Transport.completing (fun _ => 0))).trace = 1 := by
  have he := completing_establishes (followThenQuitClient base token) (fun _ => 0)
  have hall : ∀ i, i < (followThenQuitClient base token).mCommands.length →
      (Transport.completing (fun _ => 0)).commandOk
        (followThenQuitClient base token).connectedWired i = true :=
    fun i _ => completing_commandOk _ _ i
  refine ⟨?_, ?_, ?_⟩
  · rw [exec_ret, if_pos ⟨he, hall⟩, if_pos]
    refine Or.inr ⟨0, by simp [followThenQuitClient, followThenQuit], ?_⟩
    simp [RClient.completionStatus, Transport.eventsFrom, Transport.completing,
      Connection.raiseAll, Connection.raise]
  · rw [exec_sent, if_pos he,
      attempted_of_ok _ _ _ 0 (by simpa using hall)]
    simp [followThenQuitClient, followThenQuit, commandMessages, RCCommand.message]
  · rw [exec_closeCount, if_pos ⟨he, rfl⟩]

theorem exec_connection_client (rc : RClient) (t : Transport) (he : rc.establishes t = true) :
    (rc.exec t).connection.client = t.client := by
  rw [exec_of_establishes rc t he]
  simp only [execCommands, runCommands_client, client_connectionReady]

theorem closeCount_destroy (c : Connection) (closed : Bool) :
    closeCount (c.destroy closed) = if c.client = true ∧ closed = false then 1 else 0 := by
  unfold Connection.destroy
  cases c.client <;> cases closed <;> rfl

/-- C7: on every path through `RClient::exec` (connection failure, send failure,
time-out, normal completion) the connection is released before `exec` returns to its
caller: the client the connection holds has then been closed exactly once, by `exec`
itself as its last action on the paths after the connection was established, and by
the destruction of the local connection object on the paths where establishing the
connection fails; a connection that holds no client is closed by no one. -/
theorem C7_connection_released (rc : RClient) (t : Transport) :
    closeCount (rc.execToReturn t)
      = (if (rc.exec t).connection.client = true then 1 else 0) ∧
    (rc.establishes t = true → t.client = true →
      closeCount (rc.exec t).trace = 1 ∧
      (rc.exec t).trace.getLast? = some Action.close) ∧
    (rc.establishes t = false → closeCount (rc.exec t).trace = 0) := by
  have hcount := exec_closeCount rc t
  refine ⟨?_, ?_, ?_⟩
  · unfold RClient.execToReturn
    rw [closeCount_append, closeCount_destroy, hcount]
    by_cases he : rc.establishes t = true
    · rw [exec_connection_client rc t he]
      by_cases hc : t.client = true
      · simp [he, hc]
      · simp [he, hc]
    · by_cases hc : (rc.exec t).connection.client = true
      · simp [he, hc]
      · simp [he, hc]
  · intro he hc
    refine ⟨by rw [hcount, if_pos ⟨he, hc⟩], ?_⟩
    rw [exec_of_establishes rc t he]
    simp only [execCommands, runCommands_client, client_connectionReady, hc, if_true]
    simp
  · intro he
    rw [hcount, if_neg]
    rintro ⟨h, _⟩
    rw [he] at h
    exact Bool.noConfusion h

/-- C7, witness: a client talking to a TCP address whose connection is never connected
(connection failure, with a client held by the connection), and the queue `--status`,
`--is-indexing`, `--quit-rdm` completing on a socket file. -/
theorem C7_witness :
    (tcpClient.exec Transport.neverConnected).ret = 1 ∧
    (tcpClient.exec Transport.neverConnected).connection.client = true ∧
    closeCount (tcpClient.exec Transport.neverConnected).trace = 0 ∧
    closeCount (tcpClient.execToReturn Transport.neverConnected)
      = (if (tcpClient.exec Transport.neverConnected).connection.client = true then 1
         else 0) ∧
    closeCount (threeCommands.exec (Transport.completing (fun _ => 0))).trace = 1 ∧
    (threeCommands.exec (Transport.completing (fun _ => 0))).trace.getLast?
      = some Action.close :=
  ⟨by decide, by decide, by decide,
   (C7_connection_released tcpClient Transport.neverConnected).1,
   ((C7_connection_released threeCommands (Transport.completing (fun _ => 0))).2.1
      (by decide) (by decide)).1,
   ((C7_connection_released threeCommands (Transport.completing (fun _ => 0))).2.1
      (by decide) (by decide)).2⟩

/-! # Theorems on the command-line compilation

## The assignments leave the queue alone -/

@[simp] theorem setSocketFile_mCommands (st : ParseState) (v) :
    (st.setSocketFile v).rc.mCommands = st.rc.mCommands := by
  cases st; rfl

@[simp] theorem setSocketFile_projectCommands (st : ParseState) (v) :
    (st.setSocketFile v).projectCommands = st.projectCommands := by
  cases st; rfl

@[simp] theorem setTcpHost_mCommands (st : ParseState) (v) :
    (st.setTcpHost v).rc.mCommands = st.rc.mCommands := by
  cases st; rfl

@[simp] theorem setTcpHost_projectCommands (st : ParseState) (v) :
    (st.setTcpHost v).projectCommands = st.projectCommands := by
  cases st; rfl

@[simp] theorem setTcpPort_mCommands (st : ParseState) (v) :
    (st.setTcpPort v).rc.mCommands = st.rc.mCommands := by
  cases st; rfl

@[simp] theorem setTcpPort_projectCommands (st : ParseState) (v) :
    (st.setTcpPort v).projectCommands = st.projectCommands := by
  cases st; rfl

@[simp] theorem setGuessFlags_mCommands (st : ParseState) (v) :
    (st.setGuessFlags v).rc.mCommands = st.rc.mCommands := by
  cases st; rfl

@[simp] theorem setGuessFlags_projectCommands (st : ParseState) (v) :
    (st.setGuessFlags v).projectCommands = st.projectCommands := by
  cases st; rfl

@[simp] theorem setFlags_mCommands (st : ParseState) (v) :
    (st.setFlags v).rc.mCommands = st.rc.mCommands := by
  cases st; rfl

@[simp] theorem setFlags_projectCommands (st : ParseState) (v) :
    (st.setFlags v).projectCommands = st.projectCommands := by
  cases st; rfl

@[simp] theorem setPathFilters_mCommands (st : ParseState) (v) :
    (st.setPathFilters v).rc.mCommands = st.rc.mCommands := by
  cases st; rfl

@[simp] theorem setPathFilters_projectCommands (st : ParseState) (v) :
    (st.setPathFilters v).projectCommands = st.projectCommands := by
  cases st; rfl

@[simp] theorem setKindFilters_mCommands (st : ParseState) (v) :
    (st.setKindFilters v).rc.mCommands = st.rc.mCommands := by
  cases st; rfl

@[simp] theorem setKindFilters_projectCommands (st : ParseState) (v) :
    (st.setKindFilters v).projectCommands = st.projectCommands := by
  cases st; rfl

@[simp] theorem setMinOffset_mCommands (st : ParseState) (v) :
    (st.setMinOffset v).rc.mCommands = st.rc.mCommands := by
  cases st; rfl

@[simp] theorem setMinOffset_projectCommands (st : ParseState) (v) :
    (st.setMinOffset v).projectCommands = st.projectCommands := by
  cases st; rfl

@[simp] theorem setMaxOffset_mCommands (st : ParseState) (v) :
    (st.setMaxOffset v).rc.mCommands = st.rc.mCommands := by
  cases st; rfl

@[simp] theorem setMaxOffset_projectCommands (st : ParseState) (v) :
    (st.setMaxOffset v).projectCommands = st.projectCommands := by
  cases st; rfl

@[simp] theorem setLogLevel_mCommands (st : ParseState) (v) :
    (st.setLogLevel v).rc.mCommands = st.rc.mCommands := by
  cases st; rfl

@[simp] theorem setLogLevel_projectCommands (st : ParseState) (v) :
    (st.setLogLevel v).projectCommands = st.projectCommands := by
  cases st; rfl

@[simp] theorem setBuildIndex_mCommands (st : ParseState) (v) :
    (st.setBuildIndex v).rc.mCommands = st.rc.mCommands := by
  cases st; rfl

@[simp] theorem setBuildIndex_projectCommands (st : ParseState) (v) :
    (st.setBuildIndex v).projectCommands = st.projectCommands := by
  cases st; rfl

@[simp] theorem setConnectTimeout_mCommands (st : ParseState) (v) :
    (st.setConnectTimeout v).rc.mCommands = st.rc.mCommands := by
  cases st; rfl

@[simp] theorem setConnectTimeout_projectCommands (st : ParseState) (v) :
    (st.setConnectTimeout v).projectCommands = st.projectCommands := by
  cases st; rfl

@[simp] theorem setMax_mCommands (st : ParseState) (v) :
    (st.setMax v).rc.mCommands = st.rc.mCommands := by
  cases st; rfl

@[simp] theorem setMax_projectCommands (st : ParseState) (v) :
    (st.setMax v).projectCommands = st.projectCommands := by
  cases st; rfl

@[simp] theorem setTimeout_mCommands (st : ParseState) (v) :
    (st.setTimeout v).rc.mCommands = st.rc.mCommands := by
  cases st; rfl

@[simp] theorem setTimeout_projectCommands (st : ParseState) (v) :
    (st.setTimeout v).projectCommands = st.projectCommands := by
  cases st; rfl

@[simp] theorem setUnsavedFiles_mCommands (st : ParseState) (v) :
    (st.setUnsavedFiles v).rc.mCommands = st.rc.mCommands := by
  cases st; rfl

@[simp] theorem setUnsavedFiles_projectCommands (st : ParseState) (v) :
    (st.setUnsavedFiles v).projectCommands = st.projectCommands := by
  cases st; rfl

@[simp] theorem setCurrentFile_mCommands (st : ParseState) (v) :
    (st.setCurrentFile v).rc.mCommands = st.rc.mCommands := by
  cases st; rfl

@[simp] theorem setCurrentFile_projectCommands (st : ParseState) (v) :
    (st.setCurrentFile v).projectCommands = st.projectCommands := by
  cases st; rfl

@[simp] theorem setProjectRoot_mCommands (st : ParseState) (v) :
    (st.setProjectRoot v).rc.mCommands = st.rc.mCommands := by
  cases st; rfl

@[simp] theorem setProjectRoot_projectCommands (st : ParseState) (v) :
    (st.setProjectRoot v).projectCommands = st.projectCommands := by
  cases st; rfl

@[simp] theorem setQueryFlags_mCommands (st : ParseState) (v) :
    (st.setQueryFlags v).rc.mCommands = st.rc.mCommands := by
  cases st; rfl

@[simp] theorem setQueryFlags_projectCommands (st : ParseState) (v) :
    (st.setQueryFlags v).projectCommands = st.projectCommands := by
  cases st; rfl

@[simp] theorem setLogFile_mCommands (st : ParseState) (v) :
    (st.setLogFile v).rc.mCommands = st.rc.mCommands := by
  cases st; rfl

@[simp] theorem setLogFile_projectCommands (st : ParseState) (v) :
    (st.setLogFile v).projectCommands = st.projectCommands := by
  cases st; rfl

@[simp] theorem setStdin_mCommands (st : ParseState) (v) :
    (st.setStdin v).rc.mCommands = st.rc.mCommands := by
  cases st; rfl

@[simp] theorem setStdin_projectCommands (st : ParseState) (v) :
    (st.setStdin v).projectCommands = st.projectCommands := by
  cases st; rfl

@[simp] theorem setOutput_mCommands (st : ParseState) (v) :
    (st.setOutput v).rc.mCommands = st.rc.mCommands := by
  cases st; rfl

@[simp] theorem setOutput_projectCommands (st : ParseState) (v) :
    (st.setOutput v).projectCommands = st.projectCommands := by
  cases st; rfl

@[simp] theorem write_mCommands (st : ParseState) (out : List Output) :
    (st.write out).rc.mCommands = st.rc.mCommands := by
  cases st; rfl

@[simp] theorem write_projectCommands (st : ParseState) (out : List Output) :
    (st.write out).projectCommands = st.projectCommands := by
  cases st; rfl

@[simp] theorem orQueryFlag_mCommands (st : ParseState) (f : QueryFlag) :
    (st.orQueryFlag f).rc.mCommands = st.rc.mCommands := by
  cases st; rfl

@[simp] theorem orQueryFlag_projectCommands (st : ParseState) (f : QueryFlag) :
    (st.orQueryFlag f).projectCommands = st.projectCommands := by
  cases st; rfl

@[simp] theorem addPathFilter_mCommands (st : ParseState) (p : String) (k : PathFilterKind) :
    (st.addPathFilter p k).rc.mCommands = st.rc.mCommands := by
  cases st; rfl

@[simp] theorem addPathFilter_projectCommands (st : ParseState) (p : String)
    (k : PathFilterKind) : (st.addPathFilter p k).projectCommands = st.projectCommands := by
  cases st; rfl

@[simp] theorem addQuery_mCommands (st : ParseState) (t : QueryType) (q : String) (f : Flags) :
    (st.addQuery t q f).rc.mCommands = st.rc.mCommands ++ [RCCommand.QueryCommand t q f] := by
  cases st; rfl

@[simp] theorem addQuery_projectCommands (st : ParseState) (t : QueryType) (q : String)
    (f : Flags) : (st.addQuery t q f).projectCommands = st.projectCommands := by
  cases st; rfl

@[simp] theorem addQuitCommand_mCommands (st : ParseState) (code : Int) :
    (st.addQuitCommand code).rc.mCommands = st.rc.mCommands ++ [RCCommand.QuitCommand code] := by
  cases st; rfl

@[simp] theorem addQuitCommand_projectCommands (st : ParseState) (code : Int) :
    (st.addQuitCommand code).projectCommands = st.projectCommands := by
  cases st; rfl

@[simp] theorem addLog_mCommands (st : ParseState) (level : LogLevel) :
    (st.addLog level).rc.mCommands = st.rc.mCommands ++ [RCCommand.RdmLogCommand level] := by
  cases st; rfl

@[simp] theorem addLog_projectCommands (st : ParseState) (level : LogLevel) :
    (st.addLog level).projectCommands = st.projectCommands := by
  cases st; rfl

@[simp] theorem addCompile_mCommands (st : ParseState) (cwd args : String) :
    (st.addCompile cwd args).rc.mCommands
      = st.rc.mCommands ++ [RCCommand.CompileCommand "" cwd args] := by
  cases st; rfl

@[simp] theorem addCompile_projectCommands (st : ParseState) (cwd args : String) :
    (st.addCompile cwd args).projectCommands = st.projectCommands := by
  cases st; rfl

@[simp] theorem addCompileDir_mCommands (st : ParseState) (dir : String) :
    (st.addCompileDir dir).rc.mCommands
      = st.rc.mCommands ++ [RCCommand.CompileCommand dir "" ""] := by
  cases st; rfl

@[simp] theorem addCompileDir_projectCommands (st : ParseState) (dir : String) :
    (st.addCompileDir dir).projectCommands = st.projectCommands := by
  cases st; rfl

@[simp] theorem appendProjectCommand_mCommands (st : ParseState) :
    st.appendProjectCommand.rc.mCommands = st.rc.mCommands := by
  cases st; rfl

@[simp] theorem appendProjectCommand_projectCommands (st : ParseState) :
    st.appendProjectCommand.projectCommands
      = st.projectCommands ++ [st.rc.mCommands.length - 1] := by
  cases st; rfl

/-! ## The option switch extends the queue -/

theorem projectIndices_append (k : Nat) (a b : List RCCommand) :
    projectIndices k (a ++ b) = projectIndices k a ++ projectIndices (k + a.length) b := by
  induction a generalizing k with
  | nil => simp [projectIndices]
  | cons c cs ih =>
    have e : k + 1 + cs.length = k + (cs.length + 1) := by omega
    show (if c.plainProject then [k] else []) ++ projectIndices (k + 1) (cs ++ b) =
      ((if c.plainProject then [k] else []) ++ projectIndices (k + 1) cs) ++
        projectIndices (k + (cs.length + 1)) b
    rw [ih, e, List.append_assoc]

theorem Extends.refl (st : ParseState) : st.Extends st :=
  ⟨[], by simp, by simp [projectIndices], by simp⟩

theorem Extends.of_eq {st st1 : ParseState} (h1 : st1.rc.mCommands = st.rc.mCommands)
    (h2 : st1.projectCommands = st.projectCommands) : st.Extends st1 :=
  ⟨[], by simp [h1], by simp [projectIndices, h2], by simp⟩

theorem Extends.trans {a b c : ParseState} (h1 : a.Extends b) (h2 : b.Extends c) :
    a.Extends c := by
  obtain ⟨n1, e1, p1, w1⟩ := h1
  obtain ⟨n2, e2, p2, w2⟩ := h2
  refine ⟨n1 ++ n2, by rw [e2, e1, List.append_assoc], ?_, ?_⟩
  · rw [p2, p1, e1, projectIndices_append, List.length_append, List.append_assoc]
  · intro x hx
    rcases List.mem_append.1 hx with h | h
    · exact w1 x h
    · exact w2 x h

/-- Queueing one command that the `--project` case does not queue. -/
theorem Extends.push {st st1 : ParseState} (c : RCCommand)
    (h1 : st1.rc.mCommands = st.rc.mCommands ++ [c])
    (h2 : st1.projectCommands = st.projectCommands)
    (hw : c.wellQueued = true) (hp : c.plainProject = false) : st.Extends st1 :=
  ⟨[c], h1, by simp [projectIndices, h2, hp], by simpa using hw⟩

/-- Queueing one command as the `--project` case does. -/
theorem Extends.pushProject {st st1 : ParseState} (c : RCCommand)
    (h1 : st1.rc.mCommands = st.rc.mCommands ++ [c])
    (h2 : st1.projectCommands = st.projectCommands ++ [st.rc.mCommands.length])
    (hw : c.wellQueued = true) (hp : c.plainProject = true) : st.Extends st1 :=
  ⟨[c], h1, by simp [projectIndices, h2, hp], by simpa using hw⟩

theorem Step.sound_next {st st1 : ParseState} {n : Nat} (h : st.Extends st1) :
    Step.Sound st (Step.next st1 n) := h

theorem Step.sound_fail {st st1 : ParseState} (message : String)
    (h1 : st1.rc.mCommands = st.rc.mCommands) (h2 : st1.projectCommands = st.projectCommands) :
    Step.Sound st (st1.fail message) := ⟨by decide, h1, h2⟩

theorem Step.sound_ret {st st1 : ParseState} (status : ParseStatus)
    (hs : status ≠ ParseStatus.Parse_Exec)
    (h1 : st1.rc.mCommands = st.rc.mCommands) (h2 : st1.projectCommands = st.projectCommands) :
    Step.Sound st (Step.ret status st1) := ⟨hs, h1, h2⟩

theorem parseRangeFilter_sound (st : ParseState) (optarg : String) :
    Step.Sound st (parseRangeFilter st optarg) := by
  unfold parseRangeFilter
  lift_lets
  intro first st1 second st2
  have c1 : st1.rc.mCommands = st.rc.mCommands := by simp [st1]
  have p1 : st1.projectCommands = st.projectCommands := by simp [st1]
  have c2 : st2.rc.mCommands = st.rc.mCommands := by simp [st2, c1]
  have p2 : st2.projectCommands = st.projectCommands := by simp [st2, p1]
  clear_value first st1 second st2
  split_ifs
  all_goals first
    | exact Step.sound_fail _ c1 p1
    | exact Step.sound_fail _ c2 p2
    | exact Step.sound_next (Extends.of_eq c2 p2)

theorem parseSocketAddress_sound (env : Env) (st : ParseState) (optarg : String) :
    Step.Sound st (parseSocketAddress env st optarg) := by
  unfold parseSocketAddress
  lift_lets
  intro st1
  have c1 : st1.rc.mCommands = st.rc.mCommands := by simp [st1]
  have p1 : st1.projectCommands = st.projectCommands := by simp [st1]
  clear_value st1
  split
  · exact Step.sound_fail _ c1 p1
  · lift_lets
    intro st2
    have c2 : st2.rc.mCommands = st.rc.mCommands := by simp [st2, c1]
    have p2 : st2.projectCommands = st.projectCommands := by simp [st2, p1]
    clear_value st2
    split_ifs
    · exact Step.sound_fail _ c2 p2
    · exact Step.sound_next (Extends.of_eq (by simp [c2]) (by simp [p2]))

theorem parseUnsavedFile_sound (env : Env) (st : ParseState) (optarg : String) :
    Step.Sound st (parseUnsavedFile env st optarg) := by
  unfold parseUnsavedFile
  split
  · exact Step.sound_fail _ rfl rfl
  · lift_lets
    intro bytes path contents st1
    have c1 : st1.rc.mCommands = st.rc.mCommands := by simp [st1]
    have p1 : st1.projectCommands = st.projectCommands := by simp [st1]
    clear_value bytes path contents st1
    split_ifs
    all_goals first
      | exact Step.sound_fail _ rfl rfl
      | exact Step.sound_fail _ c1 p1
      | exact Step.sound_next (Extends.of_eq (by simp [c1]) (by simp [p1]))
      | exact (rfl : st.rc.mCommands = st.rc.mCommands)

theorem wellQueued_plain (t : QueryType) (q : String) :
    (RCCommand.QueryCommand t q 0).wellQueued = true := by
  cases t <;> rfl

theorem plainProject_plain (t : QueryType) (q : String) :
    (RCCommand.QueryCommand t q 0).plainProject = decide (t = QueryType.Project) := by
  cases t <;> rfl

/-- Queueing a query without extra flags of a type other than Project. -/
theorem Extends.addPlain {st st1 : ParseState} (t : QueryType) (q : String)
    (h : st.Extends st1) (ht : t ≠ QueryType.Project) : st.Extends (st1.addQuery t q 0) :=
  Extends.trans h (Extends.push (RCCommand.QueryCommand t q 0) (by simp) (by simp)
    (wellQueued_plain t q) (by rw [plainProject_plain]; simpa using ht))

theorem parseSetBuffers_sound (env : Env) (st : ParseState) (optarg : Option String)
    (next : List String) : Step.Sound st (parseSetBuffers env st optarg next) := by
  unfold parseSetBuffers
  lift_lets
  intro taken
  clear_value taken
  split
  · exact Step.sound_next (Extends.addPlain _ _ (Extends.refl st) (by decide))
  · split_ifs
    · exact Step.sound_next
        (Extends.addPlain _ _ (Extends.of_eq (by simp) (by simp)) (by decide))
    · exact Step.sound_next
        (Extends.addPlain _ _ (Extends.of_eq (by simp) (by simp)) (by decide))

theorem Extends.addCompile {st st1 : ParseState} (cwd args : String) (h : st.Extends st1) :
    st.Extends (st1.addCompile cwd args) :=
  Extends.trans h (Extends.push (RCCommand.CompileCommand "" cwd args) (by simp) (by simp)
    rfl rfl)

theorem compileLine_extends (env : Env) (st : ParseState) (acc : ParseState × String)
    (buf : String) (h : st.Extends acc.1) : st.Extends (compileLine env acc buf).1 := by
  unfold compileLine
  lift_lets
  intro pending
  clear_value pending
  split_ifs
  all_goals first
    | exact Extends.addCompile _ _ h
    | exact h

theorem foldl_compileLine_extends (env : Env) (st : ParseState) (lines : List String)
    (acc : ParseState × String) (h : st.Extends acc.1) :
    st.Extends (lines.foldl (compileLine env) acc).1 := by
  induction lines generalizing acc with
  | nil => exact h
  | cons l ls ih => exact ih _ (compileLine_extends env st acc l h)

theorem parseCompile_sound (env : Env) (st : ParseState) (optarg : Option String)
    (next : List String) : Step.Sound st (parseCompile env st optarg next) := by
  unfold parseCompile
  lift_lets
  intro args
  clear_value args
  split_ifs
  · intro r
    have hr : st.Extends r.1 :=
      foldl_compileLine_extends env st _ _ (Extends.of_eq (by simp) (by simp))
    clear_value r
    split_ifs
    all_goals first
      | exact Step.sound_next (Extends.addCompile _ _ hr)
      | exact Step.sound_next hr
  · exact Step.sound_next (Extends.addCompile _ _ (Extends.refl st))

theorem parseLoadCompilationDatabase_sound (env : Env) (st : ParseState)
    (optarg : Option String) (next : List String) :
    Step.Sound st (parseLoadCompilationDatabase env st optarg next) := by
  unfold parseLoadCompilationDatabase
  lift_lets
  intro taken dir0 dir1
  clear_value taken dir0 dir1
  split_ifs
  all_goals first
    | exact Step.sound_fail _ rfl rfl
    | skip
  split
  · exact Step.sound_fail _ rfl rfl
  · lift_lets
    intro dir
    clear_value dir
    split_ifs
    all_goals first
      | exact Step.sound_fail _ rfl rfl
      | exact Step.sound_next (Extends.push (RCCommand.CompileCommand dir "" "") (by simp)
          (by simp) rfl rfl)

theorem parseSharedQuery_sound (env : Env) (st : ParseState) (opt : OptionType)
    (optarg : Option String) (next : List String) :
    Step.Sound st (parseSharedQuery env st opt optarg next) := by
  unfold parseSharedQuery
  lift_lets
  intro type resolve taken st1
  have h1 : ∃ q, st1 = st.addQuery type q 0 := by
    simp only [st1]
    split
    · split_ifs
      · exact ⟨_, rfl⟩
      · exact ⟨_, rfl⟩
    · exact ⟨_, rfl⟩
  clear_value type resolve taken st1
  obtain ⟨q, rfl⟩ := h1
  apply Step.sound_next
  split_ifs with ht
  · refine Extends.pushProject (RCCommand.QueryCommand type q 0) (by simp) (by simp)
      (wellQueued_plain _ _) (by rw [plainProject_plain]; simpa using ht)
  · exact Extends.addPlain _ _ (Extends.refl st) ht

theorem fileQueryType_ne_project (opt : OptionType) :
    (fileQueryType opt).1 ≠ QueryType.Project := by
  cases opt <;> simp [fileQueryType]

theorem fileQueryType_wellQueued (opt : OptionType) (q : String) :
    (RCCommand.QueryCommand (fileQueryType opt).1 q (fileQueryType opt).2).wellQueued = true := by
  cases opt <;> rfl

theorem fileQueryType_plainProject (opt : OptionType) (q : String) :
    (RCCommand.QueryCommand (fileQueryType opt).1 q (fileQueryType opt).2).plainProject
      = false := by
  cases opt <;> rfl

theorem parseFileQuery_sound (env : Env) (st : ParseState) (opt : OptionType)
    (optarg : String) : Step.Sound st (parseFileQuery env st opt optarg) := by
  unfold parseFileQuery
  lift_lets
  intro p1 p2 p3
  clear_value p1 p2 p3
  split_ifs
  all_goals first
    | exact Step.sound_fail _ rfl rfl
    | exact Step.sound_next
        (Extends.push (RCCommand.QueryCommand (fileQueryType opt).1 p3 (fileQueryType opt).2)
          (by simp) (by simp) (fileQueryType_wellQueued opt _) (fileQueryType_plainProject opt _))

theorem locationQueryType_ne_project (opt : OptionType) :
    locationQueryType opt ≠ QueryType.Project := by
  cases opt <;> simp [locationQueryType]

theorem wellQueued_hasLocation (t : QueryType) (q : String) (h : t ≠ QueryType.Project) :
    (RCCommand.QueryCommand t q QueryFlag.HasLocation.mask).wellQueued = true := by
  cases t <;> first | rfl | exact absurd rfl h

theorem plainProject_of_ne (t : QueryType) (q : String) (f : Flags) (h : t ≠ QueryType.Project) :
    (RCCommand.QueryCommand t q f).plainProject = false := by
  cases t <;> first | rfl | exact absurd rfl h

theorem Extends.addLocation (st : ParseState) (opt : OptionType) (q : String) :
    st.Extends (st.addQuery (locationQueryType opt) q QueryFlag.HasLocation.mask) :=
  Extends.push (RCCommand.QueryCommand (locationQueryType opt) q QueryFlag.HasLocation.mask)
    (by simp) (by simp) (wellQueued_hasLocation _ _ (locationQueryType_ne_project opt))
    (plainProject_of_ne _ _ _ (locationQueryType_ne_project opt))

theorem Extends.addCurrentProject (st : ParseState) :
    st.Extends (st.addQuery QueryType.Project "" QueryFlag.CurrentProjectOnly.mask) :=
  Extends.push (RCCommand.QueryCommand QueryType.Project "" QueryFlag.CurrentProjectOnly.mask)
    (by simp) (by simp) (by decide) (by decide)

theorem Extends.addLog (st : ParseState) (level : LogLevel) : st.Extends (st.addLog level) :=
  Extends.push (RCCommand.RdmLogCommand level) (by simp) (by simp) rfl rfl

theorem Extends.addQuitCommand (st : ParseState) (code : Int) :
    st.Extends (st.addQuitCommand code) :=
  Extends.push (RCCommand.QuitCommand code) (by simp) (by simp) rfl rfl

/-- Every round of the option switch extends the queue, or returns leaving it as it was. -/
theorem dispatch_sound (env : Env) (opt : OptionType) (optarg : Option String)
    (next : List String) (st : ParseState) :
    Step.Sound st (dispatch env opt optarg next st) := by
  cases opt
  all_goals simp only [dispatch]
  all_goals first
    | with_reducible exact parseRangeFilter_sound _ _
    | with_reducible exact parseSocketAddress_sound _ _ _
    | with_reducible exact parseUnsavedFile_sound _ _ _
    | with_reducible exact parseSetBuffers_sound _ _ _ _
    | with_reducible exact parseCompile_sound _ _ _ _
    | with_reducible exact parseLoadCompilationDatabase_sound _ _ _ _
    | with_reducible exact parseSharedQuery_sound _ _ _ _ _
    | with_reducible exact parseFileQuery_sound _ _ _ _
    | skip
  all_goals repeat' first
    | (with_reducible refine Step.sound_ret _ ?_ ?_ ?_) <;> (simp; done)
    | (with_reducible refine Step.sound_fail _ ?_ ?_) <;> (simp; done)
    | (with_reducible refine Step.sound_next (Extends.of_eq ?_ ?_)) <;> (simp; done)
    | (with_reducible refine Step.sound_next (Extends.addPlain _ _ (Extends.refl st) ?_)) <;> decide
    | with_reducible exact Step.sound_next (Extends.addLocation st _ _)
    | with_reducible exact Step.sound_next (Extends.addCurrentProject st)
    | with_reducible exact Step.sound_next (Extends.addLog st _)
    | with_reducible exact Step.sound_next (Extends.addQuitCommand st _)
    | split

theorem Step.Sound.of_same {st st0 : ParseState} {s : Step}
    (h1 : st0.rc.mCommands = st.rc.mCommands) (h2 : st0.projectCommands = st.projectCommands)
    (h : Step.Sound st0 s) : Step.Sound st s := by
  cases s with
  | next st1 n => exact Extends.trans (Extends.of_eq h1 h2) h
  | ret status st1 => exact ⟨h.1, h.2.1.trans h1, h.2.2.trans h2⟩
  | abort st1 => exact Eq.trans h h1

theorem colourTest_mCommands (st : ParseState) (env : Env) :
    (st.colourTest env).rc.mCommands = st.rc.mCommands := by
  unfold ParseState.colourTest
  split_ifs <;> simp

theorem colourTest_projectCommands (st : ParseState) (env : Env) :
    (st.colourTest env).projectCommands = st.projectCommands := by
  unfold ParseState.colourTest
  split_ifs <;> simp

theorem handleOption_sound (env : Env) (d : Delivered) (next : List String) (st : ParseState) :
    Step.Sound st (handleOption env d next st) := by
  unfold handleOption
  split
  · exact (rfl : st.rc.mCommands = st.rc.mCommands)
  · exact Step.Sound.of_same (colourTest_mCommands st env) (colourTest_projectCommands st env)
      (dispatch_sound _ _ _ _ _)

theorem Extends.grows {st st1 : ParseState} (h : st.Extends st1) : st.Grows st1 := by
  obtain ⟨new, e, _, _⟩ := h
  exact ⟨new, e⟩

theorem Grows.of_same_queue {st0 st st1 : ParseState} (h : st0.Extends st)
    (e : st1.rc.mCommands = st.rc.mCommands) : st0.Grows st1 := by
  obtain ⟨new, e1, _, _⟩ := h
  exact ⟨new, e.trans e1⟩

/-- What a round of the loop body that does not go on leaves of the queue. -/
theorem handleOption_ends (env : Env) (d : Delivered) (next : List String)
    (st0 st : ParseState) (h : st0.Extends st) :
    (∀ status st1, handleOption env d next st = Step.ret status st1 →
      status ≠ ParseStatus.Parse_Exec ∧ st0.Grows st1) ∧
    (∀ st1, handleOption env d next st = Step.abort st1 → st0.Grows st1) ∧
    (∀ st1 n, handleOption env d next st = Step.next st1 n → st0.Extends st1) := by
  have hs := handleOption_sound env d next st
  refine ⟨?_, ?_, ?_⟩
  · intro status st1 heq
    rw [heq] at hs
    exact ⟨hs.1, Grows.of_same_queue h hs.2.1⟩
  · intro st1 heq
    rw [heq] at hs
    exact Grows.of_same_queue h hs
  · intro st1 n heq
    rw [heq] at hs
    exact Extends.trans h hs

theorem parseCluster_sound (env : Env) (word : String) (rest : List String) (chars : List Char)
    (skip : Nat) (st0 st : ParseState) (h : st0.Extends st) :
    ClusterSound st0 (parseCluster env word rest chars skip st) := by
  induction chars generalizing skip st with
  | nil => exact h
  | cons c cs ih =>
    unfold parseCluster
    split
    · exact Extends.grows h
    · rename_i d hd
      split
      · obtain ⟨e1, e2, e3⟩ := handleOption_ends env d ((word :: rest).drop skip) st0 st h
        split
        · rename_i status st1 heq
          exact e1 _ _ heq
        · rename_i st1 heq
          exact e2 _ heq
        · rename_i st1 consumed heq
          exact ih _ _ (e3 _ _ heq)
      · obtain ⟨e1, e2, e3⟩ := handleOption_ends env d
          (if d.usedNext then (rest.drop skip).tail else rest.drop skip) st0 st h
        split
        · rename_i status st1 heq
          exact e1 _ _ heq
        · rename_i st1 heq
          exact e2 _ heq
        · rename_i st1 consumed heq
          exact e3 _ _ heq

/-- When the option loop ends in state `Done`, the variables extend those it started
from; it does not return `Parse_Exec` from inside; and the queue has only grown. -/
theorem optionLoop_sound (env : Env) (words : List String) (skip : Nat)
    (leftover : Option String) (st0 st : ParseState) (h : st0.Extends st) :
    LoopEnd.Sound st0 (optionLoop env words skip leftover st) := by
  induction words generalizing skip leftover st with
  | nil => exact h
  | cons w rest ih =>
    cases skip with
    | succ k => exact ih _ _ _ h
    | zero =>
      unfold optionLoop
      split
      · split
        · exact h
        · exact ih _ _ _ h
      · exact h
      · split
        · exact Extends.grows h
        · rename_i d hd
          obtain ⟨e1, e2, e3⟩ := handleOption_ends env d
            (if d.usedNext then rest.tail else rest) st0 st h
          split
          · rename_i status st1 heq
            exact e1 _ _ heq
          · rename_i st1 heq
            exact e2 _ heq
          · rename_i st1 consumed heq
            exact ih _ _ _ (e3 _ _ heq)
      · rename_i chars hc
        have hs := parseCluster_sound env w rest chars 0 st0 st h
        split
        · rename_i e heq
          rw [heq] at hs
          exact hs
        · rename_i st1 skip1 heq
          rw [heq] at hs
          exact ih _ _ _ hs

/-! ## The final loop over `projectCommands` -/

theorem modify_length_append {α : Type} (f : α → α) (pre : List α) (c : α) (cs : List α) :
    (pre ++ c :: cs).modify f pre.length = pre ++ f c :: cs := by
  induction pre with
  | nil => rfl
  | cons a pre ih =>
    show (a :: (pre ++ c :: cs)).modify f (pre.length + 1) = a :: (pre ++ f c :: cs)
    rw [List.modify_succ_cons, ih]

theorem markSilent_append (pre suf : List RCCommand) :
    markSilent (projectIndices pre.length suf) (pre ++ suf) = pre ++ suf.map silenced := by
  induction suf generalizing pre with
  | nil => simp [markSilent, projectIndices]
  | cons c cs ih =>
    have ih1 := ih (pre ++ [silenced c])
    simp only [List.length_append, List.length_singleton, List.append_assoc,
      List.singleton_append] at ih1
    unfold markSilent at ih1 ⊢
    simp only [projectIndices, List.foldl_append, List.map_cons]
    by_cases hp : c.plainProject = true
    · have hs : silenced c = setSilent c := by simp [silenced, hp]
      simp only [hp, if_true, List.foldl_cons, List.foldl_nil, modify_length_append]
      rw [← hs]
      exact ih1
    · have hs : silenced c = c := by simp [silenced, hp]
      simp only [hp, List.foldl_nil]
      rw [hs] at ih1 ⊢
      exact ih1

theorem markSilent_projectIndices (cmds : List RCCommand) :
    markSilent (projectIndices 0 cmds) cmds = cmds.map silenced := by
  simpa using markSilent_append [] cmds

theorem projectIndices_length (k : Nat) (cmds : List RCCommand) :
    (projectIndices k cmds).length = cmds.countP RCCommand.plainProject := by
  induction cmds generalizing k with
  | nil => rfl
  | cons c cs ih =>
    by_cases hp : c.plainProject = true
    · simp [projectIndices, hp, ih, List.countP_cons_of_pos]
    · simp [projectIndices, hp, ih, List.countP_cons_of_neg]

/-! ## The shape of the queue after a successful `parse` -/

theorem finish_mCommands (st : ParseState) (commands : List RCCommand) (argv : List String) :
    (st.finish commands argv).rc.mCommands = commands := by
  cases st; rfl

theorem finish_projectCommands (st : ParseState) (commands : List RCCommand)
    (argv : List String) : (st.finish commands argv).projectCommands = st.projectCommands := by
  cases st; rfl

theorem init_mCommands (rc : RClient) (env : Env) (stdin : List Char) :
    (ParseState.init rc env stdin).rc.mCommands = rc.mCommands := by
  cases rc; rfl

theorem init_projectCommands (rc : RClient) (env : Env) (stdin : List Char) :
    (ParseState.init rc env stdin).projectCommands = [] := rfl

theorem finishParse_exec (env : Env) (argv : List String) (st st1 : ParseState)
    (leftover : Option String)
    (h : finishParse env argv st leftover = ParseResult.returned ParseStatus.Parse_Exec st1) :
    st.rc.mCommands ≠ [] ∧
    st1.rc.mCommands =
      (if st.rc.mCommands.length > st.projectCommands.length then
        markSilent st.projectCommands st.rc.mCommands else st.rc.mCommands) ∧
    st1.projectCommands = st.projectCommands := by
  unfold finishParse at h
  split at h
  · simp at h
  · split at h
    · simp at h
    · split at h
      · simp at h
      · rename_i h2
        simp only [ParseResult.returned.injEq, true_and] at h
        subst h
        refine ⟨?_, ?_, ?_⟩
        · intro he
          apply h2
          simp [he]
        · simp [finish_mCommands]
        · simp [finish_projectCommands]

/-- After a successful `parse` of a client whose queue was empty, the queue is a
non-empty list of commands as the option switch queues them, those of the
`--project` case having gone through `setSilent` when the queue holds another
command. -/
theorem parse_exec_shape (rc : RClient) (env : Env) (argv : List String) (stdin : List Char)
    (st : ParseState) (hrc : rc.mCommands = [])
    (h : rc.parse env argv stdin = ParseResult.returned ParseStatus.Parse_Exec st) :
    ∃ cmds : List RCCommand, cmds ≠ [] ∧ (∀ c ∈ cmds, c.wellQueued = true) ∧
      st.rc.mCommands =
        (if cmds.countP RCCommand.plainProject < cmds.length then cmds.map silenced
         else cmds) := by
  unfold RClient.parse at h
  split_ifs at h
  · simp at h
  · have hs := optionLoop_sound env argv.tail 0 none (ParseState.init rc env stdin)
      (ParseState.init rc env stdin) (Extends.refl _)
    split at h
    · rename_i st1 leftover heq
      rw [heq] at hs
      obtain ⟨new, e1, e2, hw⟩ := hs
      rw [init_mCommands, hrc, List.nil_append] at e1
      rw [init_projectCommands, init_mCommands, hrc, List.nil_append] at e2
      simp only [List.length_nil] at e2
      obtain ⟨hne, hc, _⟩ := finishParse_exec env argv st1 st leftover h
      refine ⟨new, by rw [← e1]; exact hne, hw, ?_⟩
      rw [hc, e1, e2, projectIndices_length, markSilent_projectIndices]
    · simp at h
    · rename_i status st1 heq
      rw [heq] at hs
      simp only [ParseResult.returned.injEq] at h
      exact absurd h.1 hs.1
    · simp at h

/-! ## The flag `Silent` after `parse` -/

theorem wellQueued_project (q : String) (f : Flags)
    (h : (RCCommand.QueryCommand QueryType.Project q f).wellQueued = true) :
    f = 0 ∨ (q = "" ∧ f = QueryFlag.CurrentProjectOnly.mask) := by
  simpa [RCCommand.wellQueued] using h

theorem wellQueued_not_silent (c : RCCommand) (h : c.wellQueued = true) : c.silent = false := by
  cases c with
  | QueryCommand t q f =>
    by_cases ht : t = QueryType.Project
    · subst ht
      rcases wellQueued_project q f h with h0 | ⟨_, h1⟩
      · subst h0; rfl
      · subst h1; rfl
    · cases t <;> first | exact absurd rfl ht | simpa [RCCommand.wellQueued, RCCommand.silent] using h
  | QuitCommand code => rfl
  | RdmLogCommand level => rfl
  | CompileCommand dir cwd args => rfl

theorem silenced_plainProject (q : String) (hq : q ≠ "") :
    silenced (RCCommand.QueryCommand QueryType.Project q 0)
      = RCCommand.QueryCommand QueryType.Project q (0 ||| QueryFlag.Silent.mask) := by
  have h : ¬ q.isEmpty = true := fun he => hq ((String.isEmpty_iff q).1 he)
  simp [silenced, RCCommand.plainProject, setSilent, h]

theorem silenced_of_not_plain (c : RCCommand) (h : c.plainProject = false) : silenced c = c := by
  simp [silenced, h]

theorem plainProject_of_type_ne (t : QueryType) (q : String) (f : Flags)
    (h : t ≠ QueryType.Project) : (RCCommand.QueryCommand t q f).plainProject = false := by
  cases t <;> first | rfl | exact absurd rfl h

/-- What `silenced` leaves of a query: its type and its query string. -/
theorem silenced_query (c : RCCommand) (t : QueryType) (q : String) (f : Flags)
    (h : silenced c = RCCommand.QueryCommand t q f) :
    ∃ f0, c = RCCommand.QueryCommand t q f0 := by
  unfold silenced at h
  split_ifs at h
  · cases c with
    | QueryCommand t0 q0 f0 =>
      simp only [setSilent] at h
      split_ifs at h
      · injection h with h1 h2 h3
        exact ⟨f0, by rw [h1, h2]⟩
      · injection h with h1 h2 h3
        exact ⟨f0, by rw [h1, h2]⟩
    | QuitCommand code => exact absurd h (by simp [setSilent])
    | RdmLogCommand level => exact absurd h (by simp [setSilent])
    | CompileCommand dir cwd args => exact absurd h (by simp [setSilent])
  · exact ⟨f, h⟩

/-- A Project query with a non-empty query string that the option switch queued
carries the flag `Silent` once it went through the final loop. -/
theorem silenced_project_silent (c : RCCommand) (q : String) (f : Flags)
    (hw : c.wellQueued = true) (hq : q ≠ "")
    (h : silenced c = RCCommand.QueryCommand QueryType.Project q f) :
    Flags.has f QueryFlag.Silent = true := by
  obtain ⟨f0, rfl⟩ := silenced_query c _ _ _ h
  rcases wellQueued_project q f0 hw with h0 | ⟨h1, _⟩
  · subst h0
    rw [silenced_plainProject q hq] at h
    injection h with _ _ h3
    rw [← h3]
    decide
  · exact absurd h1 hq

theorem projectSelection_wellQueued (c : RCCommand) (hw : c.wellQueued = true) :
    c.projectSelection = c.plainProject := by
  cases c with
  | QueryCommand t q f =>
    by_cases ht : t = QueryType.Project
    · subst ht
      rcases wellQueued_project q f hw with h0 | ⟨_, h1⟩
      · subst h0; rfl
      · subst h1; rfl
    · cases t <;> first | exact absurd rfl ht | rfl
  | QuitCommand code => rfl
  | RdmLogCommand level => rfl
  | CompileCommand dir cwd args => rfl

theorem projectSelection_silenced (c : RCCommand) (hw : c.wellQueued = true) :
    (silenced c).projectSelection = c.plainProject := by
  by_cases hp : c.plainProject = true
  · cases c with
    | QueryCommand t q f =>
      by_cases ht : t = QueryType.Project
      · subst ht
        rcases wellQueued_project q f hw with h0 | ⟨_, h1⟩
        · subst h0
          by_cases hq : q = ""
          · subst hq; rfl
          · rw [silenced_plainProject q hq]; rfl
        · subst h1
          exact absurd hp (Bool.eq_false_iff.1 rfl)
      · rw [plainProject_of_type_ne t q f ht] at hp
        exact absurd hp (by decide)
    | QuitCommand code => exact absurd hp (Bool.eq_false_iff.1 rfl)
    | RdmLogCommand level => exact absurd hp (Bool.eq_false_iff.1 rfl)
    | CompileCommand dir cwd args => exact absurd hp (Bool.eq_false_iff.1 rfl)
  · have hp1 : c.plainProject = false := by simpa using hp
    rw [silenced_of_not_plain c hp1, projectSelection_wellQueued c hw]

theorem countP_projectSelection_silenced (cmds : List RCCommand)
    (hw : ∀ c ∈ cmds, c.wellQueued = true) :
    (cmds.map silenced).countP RCCommand.projectSelection
      = cmds.countP RCCommand.plainProject := by
  induction cmds with
  | nil => rfl
  | cons c cs ih =>
    have h1 := projectSelection_silenced c (hw c (List.mem_cons_self _ _))
    have h2 := ih (fun x hx => hw x (List.mem_cons_of_mem _ hx))
    simp only [List.map_cons, List.countP_cons, h1, h2]

theorem countP_projectSelection_wellQueued (cmds : List RCCommand)
    (hw : ∀ c ∈ cmds, c.wellQueued = true) :
    cmds.countP RCCommand.projectSelection = cmds.countP RCCommand.plainProject := by
  induction cmds with
  | nil => rfl
  | cons c cs ih =>
    have h1 := projectSelection_wellQueued c (hw c (List.mem_cons_self _ _))
    have h2 := ih (fun x hx => hw x (List.mem_cons_of_mem _ hx))
    simp only [List.countP_cons, h1, h2]

/-- The rule of the flag `Silent`, on the queue a successful `parse` leaves: with
`n` the number of commands queued by `--project` options, every Project query with a
non-empty query string carries the flag when the queue is longer than `n`, and no
command carries it otherwise; a query of another type never carries it. -/
theorem parse_silent_rule (rc : RClient) (env : Env) (argv : List String) (stdin : List Char)
    (st : ParseState) (hrc : rc.mCommands = [])
    (h : rc.parse env argv stdin = ParseResult.returned ParseStatus.Parse_Exec st) :
    (st.rc.mCommands.countP RCCommand.projectSelection < st.rc.mCommands.length →
      ∀ q f, RCCommand.QueryCommand QueryType.Project q f ∈ st.rc.mCommands → q ≠ "" →
        Flags.has f QueryFlag.Silent = true) ∧
    (st.rc.mCommands.length ≤ st.rc.mCommands.countP RCCommand.projectSelection →
      ∀ c ∈ st.rc.mCommands, c.silent = false) ∧
    (∀ t q f, RCCommand.QueryCommand t q f ∈ st.rc.mCommands → t ≠ QueryType.Project →
      Flags.has f QueryFlag.Silent = false) := by
  obtain ⟨cmds, _, hw, hc⟩ := parse_exec_shape rc env argv stdin st hrc h
  by_cases hlt : cmds.countP RCCommand.plainProject < cmds.length
  · rw [if_pos hlt] at hc
    rw [hc, countP_projectSelection_silenced cmds hw, List.length_map]
    refine ⟨?_, fun hle => absurd hlt (by omega), ?_⟩
    · intro _ q f hm hq
      obtain ⟨c, hcm, hce⟩ := List.mem_map.1 hm
      exact silenced_project_silent c q f (hw c hcm) hq hce
    · intro t q f hm ht
      obtain ⟨c, hcm, hce⟩ := List.mem_map.1 hm
      obtain ⟨f0, rfl⟩ := silenced_query c _ _ _ hce
      rw [silenced_of_not_plain _ (plainProject_of_type_ne t q f0 ht)] at hce
      have := wellQueued_not_silent _ (hw _ hcm)
      rw [hce] at this
      exact this
  · rw [if_neg hlt] at hc
    rw [hc, countP_projectSelection_wellQueued cmds hw]
    refine ⟨fun hl => absurd hl hlt, ?_, ?_⟩
    · intro _ c hcm
      exact wellQueued_not_silent c (hw c hcm)
    · intro t q f hm _
      exact wellQueued_not_silent _ (hw _ hm)

/-! ## Decimal numerals and the scan of `strtoul` -/

theorem digitChar_isDigit (k : Nat) (h : k < 10) :
    (Nat.digitChar k).isDigit = true ∧ (Nat.digitChar k).toNat - '0'.toNat = k := by
  interval_cases k <;> exact ⟨rfl, rfl⟩

theorem toDigitsCore_append (b fuel n : Nat) (ds : List Char) :
    Nat.toDigitsCore b fuel n ds = Nat.toDigitsCore b fuel n [] ++ ds := by
  induction fuel generalizing n ds with
  | zero => rfl
  | succ fuel ih =>
    simp only [Nat.toDigitsCore]
    split_ifs
    · rfl
    · rw [ih (n / b) (Nat.digitChar (n % b) :: ds), ih (n / b) [Nat.digitChar (n % b)]]
      simp

theorem toDigitsCore_spec (fuel n : Nat) (h : n < fuel) :
    (∀ c ∈ Nat.toDigitsCore 10 fuel n [], c.isDigit = true) ∧
    (Nat.toDigitsCore 10 fuel n []).foldl (fun acc c => acc * 10 + (c.toNat - '0'.toNat)) 0 = n ∧
    Nat.toDigitsCore 10 fuel n [] ≠ [] := by
  induction fuel generalizing n with
  | zero => omega
  | succ fuel ih =>
    have hd := digitChar_isDigit (n % 10) (Nat.mod_lt _ (by decide))
    simp only [Nat.toDigitsCore]
    split_ifs with h0
    · have hn : n % 10 = n := by omega
      refine ⟨?_, ?_, by simp⟩
      · intro c hc
        rw [List.mem_singleton] at hc
        rw [hc]; exact hd.1
      · simp only [List.foldl_cons, List.foldl_nil, Nat.zero_mul, Nat.zero_add]
        rw [hd.2, hn]
    · have hlt : n / 10 < fuel := by omega
      obtain ⟨i1, i2, i3⟩ := ih (n / 10) hlt
      rw [toDigitsCore_append]
      refine ⟨?_, ?_, by simp [i3]⟩
      · intro c hc
        rcases List.mem_append.1 hc with h1 | h1
        · exact i1 c h1
        · rw [List.mem_singleton] at h1
          rw [h1]; exact hd.1
      · rw [List.foldl_append, i2]
        simp only [List.foldl_cons, List.foldl_nil]
        rw [hd.2]
        omega

/-- The decimal numeral of a natural number: its digits are decimal digits, there is
at least one, and their value is the number. -/
theorem toString_nat_spec (n : Nat) :
    (∀ c ∈ (toString n).data, c.isDigit = true) ∧
    (toString n).data.foldl (fun acc c => acc * 10 + (c.toNat - '0'.toNat)) 0 = n ∧
    (toString n).data ≠ [] :=
  toDigitsCore_spec (n + 1) n (Nat.lt_succ_self n)

theorem scanDigits_append (l rest : List Char) (acc : Nat)
    (hl : ∀ c ∈ l, c.isDigit = true) (hr : ∀ c, rest.head? = some c → c.isDigit = false) :
    scanDigits (l ++ rest) acc
      = (l.foldl (fun acc c => acc * 10 + (c.toNat - '0'.toNat)) acc, rest) := by
  induction l generalizing acc with
  | nil =>
    cases rest with
    | nil => rfl
    | cons c cs =>
      have := hr c rfl
      simp [scanDigits, this]
  | cons c cs ih =>
    have hc := hl c (List.mem_cons_self _ _)
    simp only [List.cons_append, scanDigits, hc, if_true, List.foldl_cons]
    exact ih _ (fun x hx => hl x (List.mem_cons_of_mem _ hx))

theorem isDigit_not_space (c : Char) (h : c.isDigit = true) :
    isSpaceC c = false ∧ c ≠ '-' ∧ c ≠ '+' := by
  refine ⟨?_, ?_, ?_⟩
  · by_contra hs
    simp only [isSpaceC, Bool.or_eq_true, decide_eq_true_eq, Bool.not_eq_false] at hs
    rcases hs with ((((h1 | h1) | h1) | h1) | h1) | h1 <;>
      (rw [h1] at h; exact absurd h (by decide))
  · intro h1; rw [h1] at h; exact absurd h (by decide)
  · intro h1; rw [h1] at h; exact absurd h (by decide)

/-- What `strtoul` scans at the head of a decimal numeral followed by a text that does
not start with a digit. -/
theorem scanNumber_toString (n : Nat) (rest : List Char)
    (hr : ∀ c, rest.head? = some c → c.isDigit = false) :
    scanNumber ((toString n).data ++ rest)
      = { negative := false, magnitude := n, rest := rest, converted := true } := by
  obtain ⟨h1, h2, h3⟩ := toString_nat_spec n
  obtain ⟨c, cs, hcs⟩ := List.exists_cons_of_ne_nil h3
  have hc : c.isDigit = true := h1 c (by rw [hcs]; exact List.mem_cons_self _ _)
  obtain ⟨s1, s2, s3⟩ := isDigit_not_space c hc
  have hsd := scanDigits_append (toString n).data rest 0 h1 hr
  rw [h2] at hsd
  rw [hcs] at hsd ⊢
  simp only [List.cons_append] at hsd ⊢
  simp [scanNumber, List.dropWhile, s1, s2, s3, hc, hsd]

theorem toInt32_natCast (n : Nat) (h : n < 2147483648) : toInt32 (n : Int) = (n : Int) := by
  simp only [toInt32]
  split_ifs <;> omega

theorem unsignedValue_mk (n : Nat) (rest : List Char) (h : n ≤ 18446744073709551615) :
    Scanned.unsignedValue { negative := false, magnitude := n, rest := rest, converted := true }
      = n := by
  simp only [Scanned.unsignedValue]
  rw [if_neg (by simpa using h)]
  simp

@[simp] theorem setMinOffset_mMinOffset (st : ParseState) (v : Int) :
    (st.setMinOffset v).rc.mMinOffset = v := by
  cases st; rfl

@[simp] theorem setMaxOffset_mMinOffset (st : ParseState) (v : Int) :
    (st.setMaxOffset v).rc.mMinOffset = st.rc.mMinOffset := by
  cases st; rfl

@[simp] theorem setMaxOffset_mMaxOffset (st : ParseState) (v : Int) :
    (st.setMaxOffset v).rc.mMaxOffset = v := by
  cases st; rfl

/-- The range-filter case on an argument `a-b` of two decimal numerals that fit an
`int`: it fails when `b ≤ a` and stores the two bounds otherwise. -/
theorem parseRangeFilter_decimal (st : ParseState) (a b : Nat)
    (ha : a < 2147483648) (hb : b < 2147483648) :
    parseRangeFilter st (toString a ++ "-" ++ toString b) =
      if b ≤ a then
        ((st.setMinOffset a).setMaxOffset b).fail
          ("Invalid range (" ++ toString (a : Int) ++ "-" ++ toString (b : Int)
            ++ "), must be uint-uint. E.g. 1-123\n")
      else Step.next ((st.setMinOffset a).setMaxOffset b) 0 := by
  have hdata : (toString a ++ "-" ++ toString b).data
      = (toString a).data ++ ('-' :: ((toString b).data ++ [])) := by
    simp [String.data_append]
  have h1 : scanNumber (toString a ++ "-" ++ toString b).data
      = { negative := false, magnitude := a, rest := '-' :: ((toString b).data ++ []),
          converted := true } := by
    rw [hdata]
    exact scanNumber_toString a _ (by intro c hc; simp at hc; rw [← hc]; decide)
  have h2 : scanNumber ((toString b).data ++ [])
      = { negative := false, magnitude := b, rest := [], converted := true } :=
    scanNumber_toString b [] (by intro c hc; simp at hc)
  unfold parseRangeFilter
  simp only [h1, List.head?_cons, List.tail_cons, h2, ne_eq, not_true_eq_false, if_false,
    List.isEmpty_nil, unsignedValue_mk a _ (by omega), unsignedValue_mk b _ (by omega),
    toInt32_natCast a ha, toInt32_natCast b hb, setMaxOffset_mMaxOffset,
    setMaxOffset_mMinOffset, setMinOffset_mMinOffset]
  have hc : ((b : Int) ≤ (a : Int) ∨ (a : Int) < 0) ↔ b ≤ a := by omega
  simp only [hc]

/-! ## `lastIndexOf`, `atoi` and maps -/

theorem lastIndexOf_none (c : Char) (s : List Char) (h : c ∉ s) : lastIndexOf c s = none := by
  have : s.reverse.indexOf? c = none := by
    unfold List.indexOf?
    rw [List.findIdx?_eq_none_iff]
    intro x hx
    have hx1 : x ∈ s := List.mem_reverse.1 hx
    simp only [beq_eq_false_iff_ne, ne_eq]
    intro e
    exact h (e ▸ hx1)
  simp only [lastIndexOf, this]

theorem lastIndexOf_append (c : Char) (host seg : List Char) (h : c ∉ seg) :
    lastIndexOf c (host ++ c :: seg) = some host.length := by
  have hr : (host ++ c :: seg).reverse = seg.reverse ++ (c :: host.reverse) := by simp
  have h0 : List.findIdx? (fun x => x == c) seg.reverse = none := by
    rw [List.findIdx?_eq_none_iff]
    intro x hx
    have hx1 : x ∈ seg := List.mem_reverse.1 hx
    simp only [beq_eq_false_iff_ne, ne_eq]
    intro e
    exact h (e ▸ hx1)
  have : (host ++ c :: seg).reverse.indexOf? c = some seg.length := by
    unfold List.indexOf?
    rw [hr, List.findIdx?_append, h0, List.findIdx?_cons]
    simp
  simp only [lastIndexOf, this, List.length_append, List.length_cons]
  congr 1
  omega

theorem signedValue_mk (n : Nat) (rest : List Char) (h : n ≤ 9223372036854775807) :
    Scanned.signedValue { negative := false, magnitude := n, rest := rest, converted := true }
      = (n : Int) := by
  simp only [Scanned.signedValue]
  rw [if_neg (by simp), if_neg (by simpa using h)]

/-- The function `atoi` on a decimal numeral that fits an `int`, whatever follows it. -/
theorem atoi_toString (n : Nat) (junk : List Char) (hn : n < 2147483648)
    (hj : ∀ c, junk.head? = some c → c.isDigit = false) :
    atoi ((toString n).data ++ junk) = (n : Int) := by
  unfold atoi
  rw [scanNumber_toString n junk hj, signedValue_mk n junk (by omega), toInt32_natCast n hn]

theorem colon_not_mem_toString (n : Nat) : ':' ∉ (toString n).data := by
  intro h
  have := (toString_nat_spec n).1 ':' h
  exact absurd this (by decide)

theorem mapGet_mapSet_self (m : List (String × String)) (k v : String) :
    mapGet (mapSet m k v) k = some v := by
  unfold mapSet mapGet
  split_ifs with h
  · induction m with
    | nil => simp at h
    | cons kv rest ih =>
      simp only [List.map_cons, List.find?_cons]
      by_cases hk : kv.1 = k
      · simp [hk]
      · have hr : (rest.any fun kv => decide (kv.1 = k)) = true := by
          simpa [hk] using h
        rw [if_neg hk]
        simp only [hk, decide_False]
        exact ih hr
  · have hn : List.find? (fun kv => decide (kv.1 = k)) m = none := by
      rw [List.find?_eq_none]
      intro x hx hxk
      apply h
      exact List.any_eq_true.2 ⟨x, hx, hxk⟩
    rw [List.find?_append, hn]
    simp

theorem mapGet_mapSet_other (m : List (String × String)) (k v k1 : String) (h : k1 ≠ k) :
    mapGet (mapSet m k v) k1 = mapGet m k1 := by
  have hk2 : ¬ k = k1 := fun e => h e.symm
  unfold mapSet mapGet
  split_ifs with ha
  · clear ha
    induction m with
    | nil => rfl
    | cons kv rest ih =>
      simp only [List.map_cons, List.find?_cons]
      by_cases hk : kv.1 = k
      · have hk1 : ¬ kv.1 = k1 := by rw [hk]; exact hk2
        rw [if_pos hk]
        simp only [hk1, hk2, decide_False]
        exact ih
      · rw [if_neg hk]
        by_cases hk1 : kv.1 = k1
        · simp [hk1]
        · simp only [hk1, decide_False]
          exact ih
  · rw [List.find?_append]
    cases List.find? (fun kv => decide (kv.1 = k1)) m <;> simp [List.find?, hk2]

/-! ## Claims on the flag `Silent` -/

/-- C10: after a successful `RClient::parse` (of a client whose queue was empty) that
leaves exactly two Query commands, the first a Project query with a non-empty query
string and the second a query of another type with a non-empty query string, the
first command carries the flag `Silent` and the second does not. -/
theorem C10_silent_suppression (rc : RClient) (env : Env) (argv : List String)
    (stdin : List Char) (st : ParseState) (q0 q1 : String) (f0 f1 : Flags) (t1 : QueryType)
    (hrc : rc.mCommands = [])
    (h : rc.parse env argv stdin = ParseResult.returned ParseStatus.Parse_Exec st)
    (hq : st.rc.mCommands = [RCCommand.QueryCommand QueryType.Project q0 f0,
      RCCommand.QueryCommand t1 q1 f1])
    (h0 : q0 ≠ "") (ht : t1 ≠ QueryType.Project) (_h1 : q1 ≠ "") :
    Flags.has f0 QueryFlag.Silent = true ∧ Flags.has f1 QueryFlag.Silent = false := by
  obtain ⟨r1, _, r3⟩ := parse_silent_rule rc env argv stdin st hrc h
  rw [hq] at r1 r3
  have hc : List.countP RCCommand.projectSelection
      [RCCommand.QueryCommand QueryType.Project q0 f0, RCCommand.QueryCommand t1 q1 f1]
      < [RCCommand.QueryCommand QueryType.Project q0 f0,
          RCCommand.QueryCommand t1 q1 f1].length := by
    have e : (RCCommand.QueryCommand t1 q1 f1).projectSelection = false := by
      cases t1 <;> first | rfl | exact absurd rfl ht
    by_cases e0 : (RCCommand.QueryCommand QueryType.Project q0 f0).projectSelection = true
    · simp [List.countP_cons, e, e0]
    · simp [List.countP_cons, e, e0]
  exact ⟨r1 hc q0 f0 (List.mem_cons_self _ _) h0,
    r3 t1 q1 f1 (List.mem_cons_of_mem _ (List.mem_cons_self _ _)) ht⟩

/-- C10, witness: `rc --project=foo --references-name=bar`. -/
theorem C10_witness :
    Flags.has 1024 QueryFlag.Silent = true ∧ Flags.has 0 QueryFlag.Silent = false :=
  C10_silent_suppression {} Env.plain ["rc", "--project=foo", "--references-name=bar"] []
    (RClient.parse {} Env.plain ["rc", "--project=foo", "--references-name=bar"] []).state
    "foo" "bar" 1024 0 QueryType.ReferencesName rfl (by decide) (by decide) (by decide)
    (by decide) (by decide)

/-- C11, counterexample: `rc --project=foo --project` is parsed successfully and
queues two commands, of which one is a project-selection query with a non-empty query
string; that command, `Project "foo"`, does not carry the flag `Silent`. -/
theorem C11_counterexample :
    (RClient.parse {} Env.plain ["rc", "--project=foo", "--project"] []).status
        = some ParseStatus.Parse_Exec ∧
      (RClient.parse {} Env.plain ["rc", "--project=foo", "--project"] []).commands
        = [RCCommand.QueryCommand QueryType.Project "foo" 0,
           RCCommand.QueryCommand QueryType.Project "" 0] ∧
      List.countP RCCommand.nonEmptyProject
          (RClient.parse {} Env.plain ["rc", "--project=foo", "--project"] []).commands
        < (RClient.parse {} Env.plain ["rc", "--project=foo", "--project"] []).commands.length ∧
      Flags.has 0 QueryFlag.Silent = false := by
  decide

/-- C11 (amended): after a successful `RClient::parse` (of a client whose queue was
empty), if the queue holds more commands than were queued by `--project` options
(with or without an argument), every Project query with a non-empty query string
carries the flag `Silent`; if every queued command was queued by a `--project` option,
no command carries it. -/
theorem C11_silent_rule (rc : RClient) (env : Env) (argv : List String) (stdin : List Char)
    (st : ParseState) (hrc : rc.mCommands = [])
    (h : rc.parse env argv stdin = ParseResult.returned ParseStatus.Parse_Exec st) :
    (st.rc.mCommands.countP RCCommand.projectSelection < st.rc.mCommands.length →
      ∀ q f, RCCommand.QueryCommand QueryType.Project q f ∈ st.rc.mCommands → q ≠ "" →
        Flags.has f QueryFlag.Silent = true) ∧
    (st.rc.mCommands.length ≤ st.rc.mCommands.countP RCCommand.projectSelection →
      ∀ c ∈ st.rc.mCommands, c.silent = false) :=
  ⟨(parse_silent_rule rc env argv stdin st hrc h).1,
   (parse_silent_rule rc env argv stdin st hrc h).2.1⟩

/-- C11, witness: `rc --project=foo --current-project`, where the other command is a
project-selection query with an empty query string, queued by `--current-project`. -/
theorem C11_witness :
    (RClient.parse {} Env.plain ["rc", "--project=foo", "--current-project"] []).commands
        = [RCCommand.QueryCommand QueryType.Project "foo" 1024,
           RCCommand.QueryCommand QueryType.Project "" QueryFlag.CurrentProjectOnly.mask] ∧
      ((RClient.parse {} Env.plain
            ["rc", "--project=foo", "--current-project"] []).state.rc.mCommands.countP
          RCCommand.projectSelection
        < (RClient.parse {} Env.plain
            ["rc", "--project=foo", "--current-project"] []).state.rc.mCommands.length →
        ∀ q f, RCCommand.QueryCommand QueryType.Project q f ∈
            (RClient.parse {} Env.plain
              ["rc", "--project=foo", "--current-project"] []).state.rc.mCommands → q ≠ "" →
          Flags.has f QueryFlag.Silent = true) :=
  ⟨by decide,
   (C11_silent_rule {} Env.plain ["rc", "--project=foo", "--current-project"] []
    (RClient.parse {} Env.plain ["rc", "--project=foo", "--current-project"] []).state
    rfl (by decide)).1⟩

/-! ## Running the option loop on given words -/

/-- One round of the option loop on a long option whose round goes on. -/
theorem optionLoop_long (env : Env) (w : String) (rest : List String)
    (leftover : Option String) (st st1 : ParseState) (name : List Char)
    (value : Option String) (d : Delivered) (n : Nat)
    (hc : classifyWord w = WordKind.long name value)
    (hg : getoptLongWord options name value rest = some d)
    (hh : handleOption env d (if d.usedNext then rest.tail else rest) st = Step.next st1 n) :
    optionLoop env (w :: rest) 0 leftover st
      = optionLoop env rest ((if d.usedNext then 1 else 0) + n) leftover st1 := by
  rw [optionLoop]
  simp only [hc, hg, hh]

theorem optionOf_long (val : Option Char) (i : Nat) (optarg : Option String) (u : Bool) :
    optionOf { val := val, longIndex := some i, optarg := optarg, usedNext := u }
      = opts.get? i := rfl

theorem handleOption_of (env : Env) (d : Delivered) (next : List String) (st : ParseState)
    (o : OptionEntry) (ho : optionOf d = some o) :
    handleOption env d next st = dispatch env o.option d.optarg next (st.colourTest env) := by
  simp only [handleOption, ho]

theorem getoptLongWord_required (longopts : List LongOption) (name : List Char) (i : Nat)
    (o : LongOption) (a : String) (rest : List String)
    (h1 : findLong longopts name = some i) (h2 : longopts.get? i = some o)
    (h3 : o.has_arg = ArgKind.required_argument) :
    getoptLongWord longopts name none (a :: rest)
      = some { val := o.val, longIndex := some i, optarg := some a, usedNext := true } := by
  simp only [getoptLongWord, h1, h2, h3, if_true]

theorem getoptLongWord_optional (longopts : List LongOption) (name : List Char) (i : Nat)
    (o : LongOption) (rest : List String)
    (h1 : findLong longopts name = some i) (h2 : longopts.get? i = some o)
    (h3 : o.has_arg = ArgKind.optional_argument) :
    getoptLongWord longopts name none rest
      = some { val := o.val, longIndex := some i, optarg := none, usedNext := false } := by
  simp only [getoptLongWord, h1, h2, h3]
  simp

/-- The round of the option loop for `--follow-location loc` with a location that
can be encoded. -/
theorem optionLoop_followLocation (env : Env) (loc : String) (rest : List String)
    (leftover : Option String) (st : ParseState) (he : env.encodeLocation loc ≠ "") :
    optionLoop env ("--follow-location" :: loc :: rest) 0 leftover st
      = optionLoop env rest 0 leftover
          ((st.colourTest env).addQuery QueryType.FollowLocation (env.encodeLocation loc)
            QueryFlag.HasLocation.mask) := by
  have hne : ¬ (env.encodeLocation loc).isEmpty = true :=
    fun h => he ((String.isEmpty_iff _).1 h)
  rw [optionLoop_long env "--follow-location" (loc :: rest) leftover st _
    "follow-location".data none
    { val := some 'f', longIndex := some 14, optarg := some loc, usedNext := true } 0
    (by decide)
    (getoptLongWord_required options _ 14
      (LongOption.mk "follow-location" ArgKind.required_argument (some 'f')) loc rest
      (by decide) (by decide) rfl)]
  · rfl
  · rw [handleOption_of env _ _ st
      (OptionEntry.mk OptionType.FollowLocation "follow-location" (some 'f')
        ArgKind.required_argument) (by rw [optionOf_long]; decide)]
    simp only [dispatch, Option.getD_some, hne, if_false, locationQueryType,
      Bool.false_eq_true]

/-- The round of the option loop for a final `--list-symbols`. -/
theorem optionLoop_listSymbols_last (env : Env) (leftover : Option String) (st : ParseState) :
    optionLoop env ["--list-symbols"] 0 leftover st
      = LoopEnd.done ((st.colourTest env).addQuery QueryType.ListSymbols "" 0) leftover := by
  rw [optionLoop_long env "--list-symbols" [] leftover st
    ((st.colourTest env).addQuery QueryType.ListSymbols "" 0)
    "list-symbols".data none
    { val := some 'S', longIndex := some 17, optarg := none, usedNext := false } 0
    (by decide)
    (getoptLongWord_optional options _ 17
      (LongOption.mk "list-symbols" ArgKind.optional_argument (some 'S')) []
      (by decide) (by decide) rfl)]
  · rfl
  · rw [handleOption_of env _ _ st
      (OptionEntry.mk OptionType.ListSymbols "list-symbols" (some 'S')
        ArgKind.optional_argument) (by rw [optionOf_long]; decide)]
    simp [dispatch, parseSharedQuery, sharedQueryType, takeArg]

/-- The round of the option loop for `--project` followed by a word that does not
start with a dash: the word is the argument. -/
theorem optionLoop_project (env : Env) (a : String) (rest : List String)
    (leftover : Option String) (st : ParseState) (ha : notDash a = true) :
    optionLoop env ("--project" :: a :: rest) 0 leftover st
      = optionLoop env rest 0 leftover
          ((st.colourTest env).addQuery QueryType.Project (env.queryArg a) 0).appendProjectCommand
      := by
  rw [optionLoop_long env "--project" (a :: rest) leftover st
    ((st.colourTest env).addQuery QueryType.Project (env.queryArg a) 0).appendProjectCommand
    "project".data none
    { val := some 'w', longIndex := some 7, optarg := none, usedNext := false } 1
    (by decide)
    (getoptLongWord_optional options _ 7
      (LongOption.mk "project" ArgKind.optional_argument (some 'w')) _
      (by decide) (by decide) rfl)]
  · rfl
  · rw [handleOption_of env _ _ st
      (OptionEntry.mk OptionType.Project "project" (some 'w')
        ArgKind.optional_argument) (by rw [optionOf_long]; decide)]
    simp only [dispatch, parseSharedQuery, sharedQueryType, takeArg, ha, if_true,
      Bool.false_eq_true, if_false, Env.queryArg]
    split_ifs <;> simp_all

/-! ## From the end of the loop to the result of `parse` -/

@[simp] theorem addQuery_mLogLevel (st : ParseState) (t : QueryType) (q : String) (f : Flags) :
    (st.addQuery t q f).rc.mLogLevel = st.rc.mLogLevel := by
  cases st; rfl

@[simp] theorem addQuery_logFile (st : ParseState) (t : QueryType) (q : String) (f : Flags) :
    (st.addQuery t q f).logFile = st.logFile := by
  cases st; rfl

@[simp] theorem appendProjectCommand_mLogLevel (st : ParseState) :
    st.appendProjectCommand.rc.mLogLevel = st.rc.mLogLevel := by
  cases st; rfl

@[simp] theorem appendProjectCommand_logFile (st : ParseState) :
    st.appendProjectCommand.logFile = st.logFile := by
  cases st; rfl

@[simp] theorem colourTest_mLogLevel (st : ParseState) (env : Env) :
    (st.colourTest env).rc.mLogLevel = st.rc.mLogLevel := by
  unfold ParseState.colourTest
  split_ifs
  · cases st; rfl
  · rfl

@[simp] theorem colourTest_logFile (st : ParseState) (env : Env) :
    (st.colourTest env).logFile = st.logFile := by
  unfold ParseState.colourTest
  split_ifs
  · cases st; rfl
  · rfl

@[simp] theorem init_mLogLevel (rc : RClient) (env : Env) (stdin : List Char) :
    (ParseState.init rc env stdin).rc.mLogLevel = rc.mLogLevel := by
  cases rc; rfl

@[simp] theorem init_logFile (rc : RClient) (env : Env) (stdin : List Char) :
    (ParseState.init rc env stdin).logFile = "" := rfl

/-- The result of `parse` when the option loop ends in state `Done` with every word
read, logging can be initialised and the queue is not empty. -/
theorem parse_of_done (rc : RClient) (env : Env) (argv : List String) (stdin : List Char)
    (st : ParseState) (hd : env.dumpUnused = false)
    (hl : optionLoop env argv.tail 0 none (ParseState.init rc env stdin) = LoopEnd.done st none)
    (hlog : env.initLogging st.rc.mLogLevel st.logFile = true)
    (hne : st.rc.mCommands ≠ []) :
    (rc.parse env argv stdin).status = some ParseStatus.Parse_Exec ∧
    (rc.parse env argv stdin).commands =
      (if st.rc.mCommands.length > st.projectCommands.length then
        markSilent st.projectCommands st.rc.mCommands else st.rc.mCommands) := by
  have he : ¬ st.rc.mCommands.isEmpty = true := by
    intro h
    exact hne (List.isEmpty_iff.1 h)
  unfold RClient.parse
  rw [if_neg (by simp [hd]), hl]
  simp only [finishParse, hlog, he, not_true_eq_false, if_false, ParseResult.status,
    ParseResult.commands, ParseResult.state, Bool.false_eq_true]
  simp only [write_mCommands, finish_mCommands, and_self]

/-! ## Claims on the order and the exclusiveness of commands -/

/-- C12, counterexample: `rc --follow-location a.cpp:1:1 --list-symbols`, with a
location that can be encoded, is parsed successfully; both queries are queued. -/
theorem C12_counterexample :
    (RClient.parse {} Env.plain
        ["rc", "--follow-location", "a.cpp:1:1", "--list-symbols"] []).status
      = some ParseStatus.Parse_Exec ∧
    (RClient.parse {} Env.plain
        ["rc", "--follow-location", "a.cpp:1:1", "--list-symbols"] []).commands
      = [RCCommand.QueryCommand QueryType.FollowLocation "a.cpp:1:1"
           QueryFlag.HasLocation.mask,
         RCCommand.QueryCommand QueryType.ListSymbols "" 0] := by
  decide

/-- C12 (amended): `RClient::parse` has no exclusive modes.  An invocation that gives
`--follow-location` with a location that can be encoded and then `--list-symbols`
is parsed successfully (`Parse_Exec`), and the queue holds the FollowLocation query
and then the ListSymbols query. -/
theorem C12_follow_then_list_symbols (rc : RClient) (env : Env) (loc : String)
    (stdin : List Char) (hrc : rc.mCommands = []) (hd : env.dumpUnused = false)
    (he : env.encodeLocation loc ≠ "") (hlog : env.initLogging rc.mLogLevel "" = true) :
    (rc.parse env ["rc", "--follow-location", loc, "--list-symbols"] stdin).status
      = some ParseStatus.Parse_Exec ∧
    (rc.parse env ["rc", "--follow-location", loc, "--list-symbols"] stdin).commands
      = [RCCommand.QueryCommand QueryType.FollowLocation (env.encodeLocation loc)
           QueryFlag.HasLocation.mask,
         RCCommand.QueryCommand QueryType.ListSymbols "" 0] := by
  have hl : optionLoop env ["rc", "--follow-location", loc, "--list-symbols"].tail 0 none
      (ParseState.init rc env stdin) = LoopEnd.done
        (((((ParseState.init rc env stdin).colourTest env).addQuery QueryType.FollowLocation
          (env.encodeLocation loc) QueryFlag.HasLocation.mask).colourTest env).addQuery
            QueryType.ListSymbols "" 0) none := by
    rw [List.tail_cons, optionLoop_followLocation env loc _ _ _ he, optionLoop_listSymbols_last]
  have h := parse_of_done rc env _ stdin _ hd hl
    (by simpa using hlog)
    (by simp [colourTest_mCommands])
  refine ⟨h.1, ?_⟩
  rw [h.2]
  simp [colourTest_mCommands, colourTest_projectCommands, init_mCommands,
    init_projectCommands, hrc, markSilent]

/-- C12, witness: `rc --follow-location a.cpp:1:1 --list-symbols`. -/
theorem C12_witness :
    (RClient.parse {} Env.plain
        ["rc", "--follow-location", "a.cpp:1:1", "--list-symbols"] []).status
      = some ParseStatus.Parse_Exec ∧
    (RClient.parse {} Env.plain
        ["rc", "--follow-location", "a.cpp:1:1", "--list-symbols"] []).commands
      = [RCCommand.QueryCommand QueryType.FollowLocation (Env.plain.encodeLocation "a.cpp:1:1")
           QueryFlag.HasLocation.mask,
         RCCommand.QueryCommand QueryType.ListSymbols "" 0] :=
  C12_follow_then_list_symbols {} Env.plain "a.cpp:1:1" [] rfl rfl (by decide) rfl

/-- C14: each of `addQuery`, `addQuitCommand`, `addLog` and the two `addCompile`
appends exactly one command at the end of the queue and leaves the commands queued
before it, and their order, as they were; and `rc --project a --project b` queues two
Project queries, for `a` and then for `b`, not one merged command. -/
theorem C14_commands_are_appended :
    (∀ (rc : RClient) (t : QueryType) (q : String) (f : Flags),
      (rc.addQuery t q f).mCommands = rc.mCommands ++ [RCCommand.QueryCommand t q f]) ∧
    (∀ (rc : RClient) (code : Int),
      (rc.addQuitCommand code).mCommands = rc.mCommands ++ [RCCommand.QuitCommand code]) ∧
    (∀ (rc : RClient) (level : LogLevel),
      (rc.addLog level).mCommands = rc.mCommands ++ [RCCommand.RdmLogCommand level]) ∧
    (∀ (rc : RClient) (cwd args : String),
      (rc.addCompile cwd args).mCommands
        = rc.mCommands ++ [RCCommand.CompileCommand "" cwd args]) ∧
    (∀ (rc : RClient) (dir : String),
      (rc.addCompileDir dir).mCommands
        = rc.mCommands ++ [RCCommand.CompileCommand dir "" ""]) ∧
    (∀ (rc : RClient) (env : Env) (a b : String) (stdin : List Char),
      rc.mCommands = [] → env.dumpUnused = false → notDash a = true → notDash b = true →
      env.initLogging rc.mLogLevel "" = true →
      (rc.parse env ["rc", "--project", a, "--project", b] stdin).status
        = some ParseStatus.Parse_Exec ∧
      (rc.parse env ["rc", "--project", a, "--project", b] stdin).commands
        = [RCCommand.QueryCommand QueryType.Project (env.queryArg a) 0,
           RCCommand.QueryCommand QueryType.Project (env.queryArg b) 0]) := by
  refine ⟨fun _ _ _ _ => rfl, fun _ _ => rfl, fun _ _ => rfl, fun _ _ _ => rfl,
    fun _ _ => rfl, ?_⟩
  intro rc env a b stdin hrc hd ha hb hlog
  have hl : optionLoop env ["rc", "--project", a, "--project", b].tail 0 none
      (ParseState.init rc env stdin) = LoopEnd.done
        (((((ParseState.init rc env stdin).colourTest env).addQuery QueryType.Project
          (env.queryArg a) 0).appendProjectCommand.colourTest env).addQuery
            QueryType.Project (env.queryArg b) 0).appendProjectCommand none := by
    rw [List.tail_cons, optionLoop_project env a _ _ _ ha, optionLoop_project env b _ _ _ hb]
    rfl
  have h := parse_of_done rc env _ stdin _ hd hl
    (by simpa using hlog)
    (by simp [colourTest_mCommands])
  refine ⟨h.1, ?_⟩
  rw [h.2]
  simp [colourTest_mCommands, colourTest_projectCommands, init_mCommands,
    init_projectCommands, hrc]

/-- C14, witness: `rc --project a --project b`. -/
theorem C14_witness :
    (RClient.parse {} Env.plain ["rc", "--project", "a", "--project", "b"] []).status
      = some ParseStatus.Parse_Exec ∧
    (RClient.parse {} Env.plain ["rc", "--project", "a", "--project", "b"] []).commands
      = [RCCommand.QueryCommand QueryType.Project (Env.plain.queryArg "a") 0,
         RCCommand.QueryCommand QueryType.Project (Env.plain.queryArg "b") 0] :=
  C14_commands_are_appended.2.2.2.2.2 {} Env.plain "a" "b" [] rfl rfl (by decide) (by decide)
    rfl

/-! ## Claims on the program `rclient` -/

namespace rclient

theorem mainLoop_append (env : MainEnv) (pre post : List (Option Delivered)) :
    ∀ s : MainState, mainLoop env (pre ++ post) s =
      match mainLoop env pre s with
      | Round.next s1 => mainLoop env post s1
      | Round.exit code s1 => Round.exit code s1 := by
  induction pre with
  | nil => intro s; rfl
  | cons g gs ih =>
    intro s
    show mainLoop env (g :: (gs ++ post)) s = _
    simp only [mainLoop]
    cases h : round env s g with
    | next s1 => exact ih s1
    | exit code s1 => rfl

theorem act_untouched (s : MainState) (actions : List MainAction)
    (hs : ∀ a ∈ s.trace, a.touchesDatabase = false)
    (ha : ∀ a ∈ actions, a.touchesDatabase = false) :
    ∀ a ∈ (s.act actions).trace, a.touchesDatabase = false := by
  intro a h
  simp only [MainState.act, List.mem_append] at h
  rcases h with h | h
  · exact hs a h
  · exact ha a h

/-- A round of the option loop that goes on opens and queries no database. -/
theorem round_next_untouched (env : MainEnv) (s s1 : MainState) (g : Option Delivered)
    (hs : ∀ a ∈ s.trace, a.touchesDatabase = false) (h : round env s g = Round.next s1) :
    ∀ a ∈ s1.trace, a.touchesDatabase = false := by
  cases g with
  | none => simp [round] at h
  | some d =>
    unfold round at h
    simp only [setMode] at h
    have key : ∀ acts : List MainAction, (∀ a ∈ acts, a.touchesDatabase = false) →
        ∀ s0 : MainState, s0.trace = s.trace →
        ∀ a ∈ (s0.act acts).trace, a.touchesDatabase = false := by
      intro acts hacts s0 h0
      exact act_untouched s0 acts (by rw [h0]; exact hs) hacts
    have one : ∀ b : MainAction, b.touchesDatabase = false →
        ∀ a ∈ [b], a.touchesDatabase = false := by
      intro b hb a ha
      rw [List.mem_singleton] at ha
      rw [ha]; exact hb
    by_cases cn : d.val = some 'n'
    · rw [if_pos cn] at h
      injection h with h; subst h; exact hs
    rw [if_neg cn] at h
    by_cases cp : d.val = some 'p'
    · rw [if_pos cp] at h
      by_cases e : ¬ env.findRtagsDb.isEmpty = true
      · rw [if_pos e] at h; injection h
      · rw [if_neg e] at h; injection h
    rw [if_neg cp] at h
    by_cases ct : d.val = some 't'
    · rw [if_pos ct] at h
      injection h with h; subst h; refine key _ (one _ ?_) _ rfl; rfl
    rw [if_neg ct] at h
    by_cases ch : d.val = some 'h'
    · rw [if_pos ch] at h
      injection h
    rw [if_neg ch] at h
    by_cases cf : d.val = some 'f'
    · rw [if_pos cf] at h
      by_cases m : s.mode ≠ Mode.None
      · rw [if_pos m] at h; injection h
      · rw [if_neg m] at h; injection h with h; subst h; exact hs
    rw [if_neg cf] at h
    by_cases cP : d.val = some 'P'
    · rw [if_pos cP] at h
      by_cases m : s.mode ≠ Mode.None
      · rw [if_pos m] at h; injection h
      · rw [if_neg m] at h; injection h with h; subst h; exact hs
    rw [if_neg cP] at h
    by_cases cr : d.val = some 'r'
    · rw [if_pos cr] at h
      by_cases m : s.mode ≠ Mode.None
      · rw [if_pos m] at h; injection h
      · rw [if_neg m] at h; injection h with h; subst h; exact hs
    rw [if_neg cr] at h
    by_cases cD : d.val = some 'D'
    · rw [if_pos cD] at h
      by_cases e : ¬ env.findRtagsDb.isEmpty = true
      · rw [if_pos e] at h; injection h with h; subst h; refine key _ (one _ ?_) _ rfl; rfl
      · rw [if_neg e] at h; injection h with h; subst h; refine key _ (one _ ?_) _ rfl; rfl
    rw [if_neg cD] at h
    by_cases cd : d.val = some 'd'
    · rw [if_pos cd] at h
      cases ho : d.optarg with
      | none => rw [ho] at h; injection h with h; subst h; exact hs
      | some a =>
        rw [ho] at h
        by_cases e : a.length ≠ 0
        · simp only [if_pos e] at h; injection h with h; subst h; exact hs
        · simp only [if_neg e] at h; injection h with h; subst h; exact hs
    rw [if_neg cd] at h
    by_cases cl : d.val = some 'l'
    · rw [if_pos cl] at h
      by_cases m : s.mode ≠ Mode.None
      · rw [if_pos m] at h; injection h
      · rw [if_neg m] at h; injection h with h; subst h; exact hs
    rw [if_neg cl] at h
    by_cases cs : d.val = some 's'
    · rw [if_pos cs] at h
      by_cases m : s.mode ≠ Mode.None
      · rw [if_pos m] at h; injection h
      · rw [if_neg m] at h; injection h with h; subst h; exact hs
    rw [if_neg cs] at h
    injection h with h; subst h; exact hs

theorem mainLoop_next_untouched (env : MainEnv) (gs : List (Option Delivered)) :
    ∀ s s1 : MainState, (∀ a ∈ s.trace, a.touchesDatabase = false) →
      mainLoop env gs s = Round.next s1 → ∀ a ∈ s1.trace, a.touchesDatabase = false := by
  induction gs with
  | nil =>
    intro s s1 hs h
    simp only [mainLoop] at h
    injection h with h
    subst h
    exact hs
  | cons g gs ih =>
    intro s s1 hs h
    simp only [mainLoop] at h
    cases hr : round env s g with
    | next s2 =>
      rw [hr] at h
      exact ih s2 s1 (round_next_untouched env s s2 g hs hr) h
    | exit code s2 =>
      rw [hr] at h
      simp at h

/-- A mode option met when a mode is already set makes the round return 1, after the
message on standard error. -/
theorem round_mode_twice (env : MainEnv) (s : MainState) (d : Delivered)
    (hd : isModeOption d = true) (hm : s.mode ≠ Mode.None) :
    ∃ s1, round env s (some d) = Round.exit 1 s1 ∧
      s1.trace = s.trace ++ [MainAction.stderr "Mode is already set\n"] := by
  simp only [isModeOption, Bool.or_eq_true, decide_eq_true_eq] at hd
  rcases hd with (((hd | hd) | hd) | hd) | hd <;>
    simp [round, hd, setMode, hm, MainState.act]

/-- C13: when `rclient` meets one of the mode options `-f`, `-r`, `-l`, `-s`, `-P` after
a mode has been set by the options before it, `main` prints `Mode is already set` on
standard error and returns 1, and up to that point no database has been opened or
queried. -/
theorem C13_second_mode_option (env : MainEnv) (argv : List String)
    (pre post : List (Option Delivered)) (d : Delivered) (s : MainState)
    (hopts : getoptAll shortOptions longOptions env.posixlyCorrect argv.tail 0
      = pre ++ some d :: post)
    (hd : isModeOption d = true)
    (hpre : mainLoop env pre MainState.init = Round.next s)
    (hm : s.mode ≠ Mode.None) :
    (main env argv).1 = 1 ∧
    (main env argv).2.trace = s.trace ++ [MainAction.stderr "Mode is already set\n"] ∧
    ∀ a ∈ (main env argv).2.trace, a.touchesDatabase = false := by
  obtain ⟨s1, hr, ht⟩ := round_mode_twice env s d hd hm
  have hmain : main env argv = (1, s1) := by
    unfold main
    rw [hopts, mainLoop_append, hpre]
    simp only [mainLoop, hr]
  have hs : ∀ a ∈ s.trace, a.touchesDatabase = false :=
    mainLoop_next_untouched env pre MainState.init s (by intro a h; cases h) hpre
  rw [hmain]
  refine ⟨rfl, ht, ?_⟩
  intro a ha
  simp only [ht, List.mem_append, List.mem_singleton] at ha
  rcases ha with ha | ha
  · exact hs a ha
  · subst ha; rfl

/-- C13, witness: `rclient -f a -r b` returns 1 at `-r`. -/
theorem C13_witness :
    (main MainEnv.plain ["rclient", "-f", "a", "-r", "b"]).1 = 1 ∧
    (main MainEnv.plain ["rclient", "-f", "a", "-r", "b"]).2.trace
      = [] ++ [MainAction.stderr "Mode is already set\n"] ∧
    ∀ a ∈ (main MainEnv.plain ["rclient", "-f", "a", "-r", "b"]).2.trace,
      a.touchesDatabase = false :=
  C13_second_mode_option MainEnv.plain ["rclient", "-f", "a", "-r", "b"]
    [some (Delivered.mk (some 'f') none (some "a") true)] []
    (Delivered.mk (some 'r') none (some "b") true)
    { mode := Mode.FollowSymbol, flags := 0, arg := "a", dbPaths := [], trace := [] }
    (by decide) (by decide) (by decide) (by decide)

end rclient

/-! ## Claims on option values -/

/-- C15, counterexample: `--range-filter 0-2147483648` fails although
`0 < 2147483648` (the upper bound does not fit the `int` it is stored in), and
`--range-filter 4294967296-5` is accepted although `5 ≤ 4294967296`, with the
range 0 to 5 stored. -/
theorem C15_counterexample :
    (RClient.parse {} Env.plain
        ["rc", "--is-indexing", "--range-filter", "0-2147483648"] []).status
      = some ParseStatus.Parse_Error ∧
    (RClient.parse {} Env.plain
        ["rc", "--is-indexing", "--range-filter", "4294967296-5"] []).status
      = some ParseStatus.Parse_Exec ∧
    (RClient.parse {} Env.plain
        ["rc", "--is-indexing", "--range-filter", "4294967296-5"] []).state.rc.mMinOffset = 0 ∧
    (RClient.parse {} Env.plain
        ["rc", "--is-indexing", "--range-filter", "4294967296-5"] []).state.rc.mMaxOffset = 5 := by
  decide

/-- C15 (amended): for the `--range-filter` argument `a-b` of two decimal numerals
that fit an `int` (`a, b < 2^31`), the option fails with `Parse_Error` when `b ≤ a`,
and when `a < b` the round goes on with `mMinOffset = a` strictly less than
`mMaxOffset = b`. -/
theorem C15_range_filter (env : Env) (st : ParseState) (next : List String) (a b : Nat)
    (ha : a < 2147483648) (hb : b < 2147483648) :
    (b ≤ a → ∃ st1, dispatch env OptionType.RangeFilter
        (some (toString a ++ "-" ++ toString b)) next st
      = Step.ret ParseStatus.Parse_Error st1) ∧
    (a < b → ∃ st1, dispatch env OptionType.RangeFilter
        (some (toString a ++ "-" ++ toString b)) next st = Step.next st1 0 ∧
      st1.rc.mMinOffset = (a : Int) ∧ st1.rc.mMaxOffset = (b : Int) ∧
      st1.rc.mMinOffset < st1.rc.mMaxOffset) := by
  have hd : dispatch env OptionType.RangeFilter (some (toString a ++ "-" ++ toString b)) next st
      = parseRangeFilter st (toString a ++ "-" ++ toString b) := by
    simp only [dispatch, Option.getD_some]
  rw [hd, parseRangeFilter_decimal st a b ha hb]
  constructor
  · intro h
    rw [if_pos h]
    exact ⟨_, rfl⟩
  · intro h
    rw [if_neg (by omega)]
    refine ⟨_, rfl, by simp, by simp, ?_⟩
    simp only [setMaxOffset_mMinOffset, setMinOffset_mMinOffset, setMaxOffset_mMaxOffset]
    omega

/-- C15, witness: `--range-filter 1-123`. -/
theorem C15_witness :
    ∃ st1, dispatch Env.plain OptionType.RangeFilter (some (toString 1 ++ "-" ++ toString 123))
        [] (ParseState.init {} Env.plain []) = Step.next st1 0 ∧
      st1.rc.mMinOffset = ((1 : Nat) : Int) ∧ st1.rc.mMaxOffset = ((123 : Nat) : Int) ∧
      st1.rc.mMinOffset < st1.rc.mMaxOffset :=
  (C15_range_filter Env.plain (ParseState.init {} Env.plain []) [] 1 123 (by decide)
    (by decide)).2 (by decide)

@[simp] theorem setTcpHost_mTcpHost (st : ParseState) (v : String) :
    (st.setTcpHost v).rc.mTcpHost = v := by
  cases st; rfl

@[simp] theorem setTcpHost_mTcpPort (st : ParseState) (v : String) :
    (st.setTcpHost v).rc.mTcpPort = st.rc.mTcpPort := by
  cases st; rfl

@[simp] theorem setTcpPort_mTcpPort (st : ParseState) (v : Int) :
    (st.setTcpPort v).rc.mTcpPort = v := by
  cases st; rfl

/-- C16, counterexample: `--socket-address localhost:80x`, where the segment after
the last colon is digits followed by another character, is accepted, with host
`localhost` and port 80. -/
theorem C16_counterexample :
    (RClient.parse {} Env.plain
        ["rc", "--socket-address", "localhost:80x", "--is-indexing"] []).status
      = some ParseStatus.Parse_Exec ∧
    (RClient.parse {} Env.plain
        ["rc", "--socket-address", "localhost:80x", "--is-indexing"] []).state.rc.mTcpHost
      = "localhost" ∧
    (RClient.parse {} Env.plain
        ["rc", "--socket-address", "localhost:80x", "--is-indexing"] []).state.rc.mTcpPort
      = 80 := by
  decide

/-- C16 (amended): the `--socket-address` argument is split at its last colon.  The
option fails with `Parse_Error` when the argument holds no colon, or when `atoi` of
the segment after the last colon, converted to the type of the port, is 0; otherwise
the round goes on, the host being exactly the text before the last colon and the port
that number.  `atoi` reads the decimal numeral at the head of the segment and ignores
what follows it. -/
theorem C16_socket_address (env : Env) (st : ParseState) (next : List String) :
    (∀ optarg : String, ':' ∉ optarg.data →
      ∃ st1, dispatch env OptionType.SocketAddress (some optarg) next st
        = Step.ret ParseStatus.Parse_Error st1) ∧
    (∀ host seg : List Char, ':' ∉ seg →
      (env.tcpPortOfInt (atoi seg) = 0 →
        ∃ st1, dispatch env OptionType.SocketAddress (some (String.mk (host ++ ':' :: seg)))
          next st = Step.ret ParseStatus.Parse_Error st1) ∧
      (env.tcpPortOfInt (atoi seg) ≠ 0 →
        ∃ st1, dispatch env OptionType.SocketAddress (some (String.mk (host ++ ':' :: seg)))
          next st = Step.next st1 0 ∧
          st1.rc.mTcpHost = String.mk host ∧
          st1.rc.mTcpPort = env.tcpPortOfInt (atoi seg))) ∧
    (∀ (n : Nat) (junk : List Char), n < 2147483648 →
      (∀ c, junk.head? = some c → c.isDigit = false) →
      atoi ((toString n).data ++ junk) = (n : Int)) := by
  have hd : ∀ optarg : String, dispatch env OptionType.SocketAddress (some optarg) next st
      = parseSocketAddress env st optarg := by
    intro optarg
    simp only [dispatch, Option.getD_some]
  refine ⟨?_, ?_, fun n junk hn hj => atoi_toString n junk hn hj⟩
  · intro optarg h
    rw [hd]
    unfold parseSocketAddress
    simp only [lastIndexOf_none ':' optarg.data h]
    exact ⟨_, rfl⟩
  · intro host seg h
    have hl : lastIndexOf ':' (String.mk (host ++ ':' :: seg)).data = some host.length :=
      lastIndexOf_append ':' host seg h
    have hdrop : List.drop (host.length + 1) (String.mk (host ++ ':' :: seg)).data = seg := by
      show List.drop (host.length + 1) (host ++ ':' :: seg) = seg
      rw [List.drop_append]
      rfl
    have htake : List.take host.length (String.mk (host ++ ':' :: seg)).data = host := by
      show List.take host.length (host ++ ':' :: seg) = host
      simp
    constructor
    · intro h0
      rw [hd]
      unfold parseSocketAddress
      simp only [hl, hdrop, setTcpPort_mTcpPort, h0, if_true]
      exact ⟨_, rfl⟩
    · intro h0
      rw [hd]
      unfold parseSocketAddress
      simp only [hl, hdrop, htake, setTcpPort_mTcpPort, h0, if_false]
      exact ⟨_, rfl, by simp, by simp⟩

/-- C16, witness: `--socket-address localhost:8080`. -/
theorem C16_witness :
    ∃ st1, dispatch Env.plain OptionType.SocketAddress
        (some (String.mk ("localhost".data ++ ':' :: "8080".data))) []
        (ParseState.init {} Env.plain []) = Step.next st1 0 ∧
      st1.rc.mTcpHost = String.mk "localhost".data ∧
      st1.rc.mTcpPort = Env.plain.tcpPortOfInt (atoi "8080".data) :=
  ((C16_socket_address Env.plain (ParseState.init {} Env.plain []) []).2.1
    "localhost".data "8080".data (by decide)).2 (by decide)

/-! ## Claims on failures of `parse` -/

@[simp] theorem setStdin_mUnsavedFiles (st : ParseState) (v : List Char) :
    (st.setStdin v).rc.mUnsavedFiles = st.rc.mUnsavedFiles := by
  cases st; rfl

@[simp] theorem setStdin_stdin (st : ParseState) (v : List Char) :
    (st.setStdin v).stdin = v := by
  cases st; rfl

@[simp] theorem setUnsavedFiles_mUnsavedFiles (st : ParseState) (v : List (String × String)) :
    (st.setUnsavedFiles v).rc.mUnsavedFiles = v := by
  cases st; rfl

@[simp] theorem setUnsavedFiles_stdin (st : ParseState) (v : List (String × String)) :
    (st.setUnsavedFiles v).stdin = st.stdin := by
  cases st; rfl

@[simp] theorem write_mUnsavedFiles (st : ParseState) (out : List Output) :
    (st.write out).rc.mUnsavedFiles = st.rc.mUnsavedFiles := by
  cases st; rfl

/-- The unsaved-file case on an argument `path:n`, `n` a decimal numeral with
`0 < n < 2^31`. -/
theorem parseUnsavedFile_decimal (env : Env) (st : ParseState) (p : List Char) (n : Nat)
    (h0 : 0 < n) (hn : n < 2147483648) :
    parseUnsavedFile env st (String.mk (p ++ ':' :: (toString n).data)) =
      if ¬ env.isFile (env.resolved ResolveMode.RealPath (String.mk p)) then
        st.fail ("Can't open [" ++ String.mk p ++ "] for reading\n")
      else if (st.stdin.take n).length ≠ n then
        (st.setStdin (st.stdin.drop n)).fail
          ("Read error. Got " ++ toString (st.stdin.take n).length ++ ", expected "
            ++ toString (n : Int) ++ "\n")
      else
        Step.next ((st.setStdin (st.stdin.drop n)).setUnsavedFiles
          (mapSet st.rc.mUnsavedFiles (env.resolved ResolveMode.RealPath (String.mk p))
            (String.mk (st.stdin.take n)))) 0 := by
  have hl : lastIndexOf ':' (String.mk (p ++ ':' :: (toString n).data)).data = some p.length :=
    lastIndexOf_append ':' p _ (colon_not_mem_toString n)
  have hdrop : List.drop (p.length + 1) (String.mk (p ++ ':' :: (toString n).data)).data
      = (toString n).data ++ [] := by
    show List.drop (p.length + 1) (p ++ ':' :: (toString n).data) = (toString n).data ++ []
    rw [List.drop_append, List.append_nil]
    rfl
  have htake : List.take p.length (String.mk (p ++ ':' :: (toString n).data)).data = p := by
    show List.take p.length (p ++ ':' :: (toString n).data) = p
    simp
  have ha : atoi ((toString n).data ++ []) = (n : Int) :=
    atoi_toString n [] hn (by intro c hc; simp at hc)
  have hz : ¬ ((n : Int) = 0) := by omega
  have hneg : ¬ ((n : Int) < 0) := by omega
  have hcast : ∀ k : Nat, ((k : Int) ≠ (n : Int)) ↔ k ≠ n := by
    intro k; omega
  unfold parseUnsavedFile
  simp only [hl, hdrop, htake, ha, hz, hneg, if_false, Int.toNat_ofNat, hcast,
    setStdin_mUnsavedFiles]

/-- C20, counterexample: for `--unsaved-file=/w/a.cpp:4294967297` with one byte on
standard input, fewer than the 4294967297 bytes asked for can be read, yet the option
succeeds and binds the path to that one byte (`atoi` stores the count in an `int`). -/
theorem C20_counterexample :
    (RClient.parse {} Env.plain
        ["rc", "--unsaved-file=/w/a.cpp:4294967297", "--is-indexing"] ['x']).status
      = some ParseStatus.Parse_Exec ∧
    (RClient.parse {} Env.plain
        ["rc", "--unsaved-file=/w/a.cpp:4294967297", "--is-indexing"]
        ['x']).state.rc.mUnsavedFiles
      = [("/w/a.cpp", "x")] := by
  decide

/-- C20 (amended): for `--unsaved-file=path:N` with a decimal byte count that fits an
`int` (`0 < N < 2^31`): if standard input holds fewer than `N` bytes the option fails
with `Parse_Error` and the map of unsaved files is as it was; if the resolved path is
a file and `N` bytes can be read, the round goes on, the map binds the resolved path
to exactly the first `N` bytes of standard input, and every other binding is as it
was. -/
theorem C20_unsaved_file (env : Env) (st : ParseState) (next : List String) (p : List Char)
    (n : Nat) (h0 : 0 < n) (hn : n < 2147483648) :
    (st.stdin.length < n →
      ∃ st1, dispatch env OptionType.UnsavedFile
          (some (String.mk (p ++ ':' :: (toString n).data))) next st
        = Step.ret ParseStatus.Parse_Error st1 ∧
        st1.rc.mUnsavedFiles = st.rc.mUnsavedFiles) ∧
    (env.isFile (env.resolved ResolveMode.RealPath (String.mk p)) = true →
      n ≤ st.stdin.length →
      ∃ st1, dispatch env OptionType.UnsavedFile
          (some (String.mk (p ++ ':' :: (toString n).data))) next st
        = Step.next st1 0 ∧
        mapGet st1.rc.mUnsavedFiles (env.resolved ResolveMode.RealPath (String.mk p))
          = some (String.mk (st.stdin.take n)) ∧
        (st.stdin.take n).length = n ∧
        (∀ k, k ≠ env.resolved ResolveMode.RealPath (String.mk p) →
          mapGet st1.rc.mUnsavedFiles k = mapGet st.rc.mUnsavedFiles k)) := by
  have hd : dispatch env OptionType.UnsavedFile
      (some (String.mk (p ++ ':' :: (toString n).data))) next st
      = parseUnsavedFile env st (String.mk (p ++ ':' :: (toString n).data)) := by
    simp only [dispatch, Option.getD_some]
  rw [hd, parseUnsavedFile_decimal env st p n h0 hn]
  constructor
  · intro hlt
    have hlen : (st.stdin.take n).length ≠ n := by
      rw [List.length_take]; omega
    split_ifs
    · exact ⟨_, rfl, by simp⟩
    · exact ⟨_, rfl, by simp⟩
  · intro hf hle
    have hlen : (st.stdin.take n).length = n := by
      rw [List.length_take]; omega
    rw [if_neg (by simp [hf]), if_neg (by simp [hlen])]
    refine ⟨_, rfl, ?_, hlen, ?_⟩
    · simp [mapGet_mapSet_self]
    · intro k hk
      simp [mapGet_mapSet_other _ _ _ _ hk]

/-- C20, witness: `--unsaved-file=/w/a.cpp:3` with `abcdef` on standard input. -/
theorem C20_witness :
    ∃ st1, dispatch Env.plain OptionType.UnsavedFile
        (some (String.mk ("/w/a.cpp".data ++ ':' :: (toString 3).data))) []
        (ParseState.init {} Env.plain "abcdef".data)
      = Step.next st1 0 ∧
      mapGet st1.rc.mUnsavedFiles (Env.plain.resolved ResolveMode.RealPath
          (String.mk "/w/a.cpp".data))
        = some (String.mk ((ParseState.init {} Env.plain "abcdef".data).stdin.take 3)) ∧
      ((ParseState.init {} Env.plain "abcdef".data).stdin.take 3).length = 3 ∧
      (∀ k, k ≠ Env.plain.resolved ResolveMode.RealPath (String.mk "/w/a.cpp".data) →
        mapGet st1.rc.mUnsavedFiles k
          = mapGet (ParseState.init {} Env.plain "abcdef".data).rc.mUnsavedFiles k) :=
  (C20_unsaved_file Env.plain (ParseState.init {} Env.plain "abcdef".data) []
    "/w/a.cpp".data 3 (by decide) (by decide)).2 (by decide) (by decide)

/-! ## Claims on the commands and on inbound messages -/

theorem runCommands_trace_grows (t : Transport) (w : Bool) (cmds : List RCCommand) :
    ∀ (i : Nat) (s : LoopState), s.trace <+: (runCommands t w i cmds s).trace := by
  induction cmds with
  | nil => intro i s; exact List.prefix_refl _
  | cons cmd rest ih =>
    intro i s
    by_cases h : t.send i = true
    · by_cases hw : (t.wait i).status w = LoopStatus.Success
      · rw [runCommands_ok t w i cmd rest s h hw]
        refine List.IsPrefix.trans ?_ (ih _ _)
        simp only [List.append_assoc]
        exact List.prefix_append _ _
      · rw [runCommands_wait_fails t w i cmd rest s h hw]
        simp only [List.append_assoc]
        exact List.prefix_append _ _
    · have h1 : t.send i = false := by simpa using h
      rw [runCommands_send_fails t w i cmd rest s h1]
      exact List.prefix_append _ _

theorem exec_trace (rc : RClient) (env : List String) (send : Message → Bool)
    (cmd : RCCommand) :
    (cmd.exec rc env send).trace
        = [Action.send (cmd.message rc env).2 (send (cmd.message rc env).2)] ∧
      (cmd.exec rc env send).result = send (cmd.message rc env).2 ∧
      (cmd.exec rc env send).rc = (cmd.message rc env).1 := by
  cases cmd <;> exact ⟨rfl, rfl, rfl⟩

/-- The trace of the command loop starts with what the `exec` of its first command
did. -/
theorem runCommands_starts_with_exec (t : Transport) (w : Bool) (i : Nat) (cmd : RCCommand)
    (rest : List RCCommand) (s : LoopState) :
    (s.trace ++ (cmd.exec s.rc t.pathEnvironment (fun _ => t.send i)).trace)
      <+: (runCommands t w i (cmd :: rest) s).trace := by
  rw [(exec_trace s.rc t.pathEnvironment (fun _ => t.send i) cmd).1]
  by_cases h : t.send i = true
  · by_cases hw : (t.wait i).status w = LoopStatus.Success
    · rw [runCommands_ok t w i cmd rest s h hw]
      refine List.IsPrefix.trans ?_ (runCommands_trace_grows t w rest _ _)
      simp only [List.append_assoc]
      exact (List.prefix_append_right_inj _).2 (List.prefix_append _ _)
    · rw [runCommands_wait_fails t w i cmd rest s h hw]
      simp only [List.append_assoc]
      exact (List.prefix_append_right_inj _).2 (List.prefix_append _ _)
  · have h1 : t.send i = false := by simpa using h
    rw [runCommands_send_fails t w i cmd rest s h1]

/-- C17: for every command variant (Query, Quit, RdmLog, Compile), every client and
every connection, one call of the command's `exec` hands exactly one message to
`connection->send`, and the result of `exec` is the result of that send; and this call
is what the command loop of `RClient::exec` runs for the command. -/
theorem C17_one_message_per_exec (cmd : RCCommand) (rc : RClient) (env : List String)
    (send : Message → Bool) :
    (∃ msg, (cmd.exec rc env send).trace = [Action.send msg (send msg)] ∧
      (cmd.exec rc env send).result = send msg) ∧
    (sentMessages (cmd.exec rc env send).trace).length = 1 ∧
    (∀ (t : Transport) (w : Bool) (i : Nat) (rest : List RCCommand) (s : LoopState),
      (s.trace ++ (cmd.exec s.rc t.pathEnvironment (fun _ => t.send i)).trace)
        <+: (runCommands t w i (cmd :: rest) s).trace) := by
  obtain ⟨h1, h2, _⟩ := exec_trace rc env send cmd
  refine ⟨⟨_, h1, h2⟩, ?_, fun t w i rest s => runCommands_starts_with_exec t w i cmd rest s⟩
  rw [h1]
  rfl

/-- A buffer without a NUL byte is read whole. -/
theorem cString_of_no_nul (l : List Char) (h : Char.ofNat 0 ∉ l) : cString l = l := by
  unfold cString
  rw [List.takeWhile_eq_self_iff]
  intro c hc
  simp only [ne_eq, decide_not, Bool.not_eq_true', decide_eq_false_iff_not]
  intro e
  exact h (e ▸ hc)

/-- C18, counterexample: for the response `ab`, NUL, `cd` at the default log level,
`onNewMessage` writes `ab` and a newline, not the text of the response followed by a
newline. -/
theorem C18_counterexample :
    RClient.onNewMessage {} (InMessage.response "ab\x00cd")
      = [Action.stdout "ab\n", Action.flushStdout] ∧
    RClient.onNewMessage {} (InMessage.response "ab\x00cd")
      ≠ [Action.stdout ("ab\x00cd" ++ "\n"), Action.flushStdout] := by
  decide

/-- C18 (amended): `RClient::onNewMessage` writes the text of a Response message up
to its first NUL byte (the whole text when it holds none) followed by a newline to
standard output, and flushes, exactly when the text is not empty and the log level is
at least `Error`; for a message of another kind it writes nothing to standard output
and logs the error `Unexpected message`.  In both cases the handler does not end the
wait of the executor and leaves the connection as it is. -/
theorem C18_on_new_message (rc : RClient) :
    (∀ data : String, data ≠ "" → rc.mLogLevel ≥ LogLevel.Error →
      rc.onNewMessage (InMessage.response data)
        = [Action.stdout (String.mk (cString data.data) ++ "\n"), Action.flushStdout]) ∧
    (∀ data : String, data ≠ "" → rc.mLogLevel ≥ LogLevel.Error → Char.ofNat 0 ∉ data.data →
      rc.onNewMessage (InMessage.response data)
        = [Action.stdout (data ++ "\n"), Action.flushStdout]) ∧
    (∀ data : String, (data = "" ∨ rc.mLogLevel < LogLevel.Error) →
      rc.onNewMessage (InMessage.response data) = []) ∧
    (∀ messageId : Int,
      rc.onNewMessage (InMessage.other messageId)
        = [Action.error ("Unexpected message: " ++ toString messageId)] ∧
      ∀ a ∈ rc.onNewMessage (InMessage.other messageId), a.isStdout = false) ∧
    (∀ (m : InMessage) (w : Bool) (c : Connection) (run : LoopRun),
      quits w (ConnEvent.newMessage m) = false ∧
      c.raise (ConnEvent.newMessage m) = c ∧
      LoopRun.status { run with events := ConnEvent.newMessage m :: run.events } w
        = run.status w ∧
      (loopExec rc w { run with events := ConnEvent.newMessage m :: run.events } c).2.1
        = (loopExec rc w run c).2.1) := by
  have key : ∀ data : String, data ≠ "" → rc.mLogLevel ≥ LogLevel.Error →
      rc.onNewMessage (InMessage.response data)
        = [Action.stdout (String.mk (cString data.data) ++ "\n"), Action.flushStdout] := by
    intro data hd hl
    have he : ¬ data.isEmpty = true := fun h => hd ((String.isEmpty_iff data).1 h)
    simp only [RClient.onNewMessage]
    rw [if_pos ⟨he, hl⟩]
  refine ⟨key, ?_, ?_, ?_, ?_⟩
  · intro data hd hl hn
    rw [key data hd hl, cString_of_no_nul data.data hn]
  · intro data h
    simp only [RClient.onNewMessage]
    rw [if_neg]
    rintro ⟨h1, h2⟩
    rcases h with h | h
    · exact h1 ((String.isEmpty_iff data).2 h)
    · exact absurd h2 (not_le.2 h)
  · intro messageId
    refine ⟨rfl, ?_⟩
    intro a ha
    simp only [RClient.onNewMessage, List.mem_singleton] at ha
    rw [ha]
    rfl
  · intro m w c run
    refine ⟨rfl, rfl, ?_, ?_⟩
    · simp [LoopRun.status, quits]
    · simp [loopExec, Connection.raiseAll, Connection.raise]

/-- C18, witness: the response `done` at the default log level. -/
theorem C18_witness :
    RClient.onNewMessage {} (InMessage.response "done")
      = [Action.stdout ("done" ++ "\n"), Action.flushStdout] :=
  (C18_on_new_message {}).2.1 "done" (by decide) (by decide) (by decide)

/-! ## Claims on the messages the commands build -/

theorem or_eq_zero_left (a b : Nat) (h : a ||| b = 0) : a = 0 := by
  apply Nat.eq_of_testBit_eq
  intro i
  have h1 : (a ||| b).testBit i = false := by rw [h]; exact Nat.zero_testBit i
  rw [Nat.testBit_or, Bool.or_eq_false_iff] at h1
  rw [h1.1, Nat.zero_testBit]

theorem has_or (a b : Flags) (f : QueryFlag) :
    Flags.has (a ||| b) f = (Flags.has a f || Flags.has b f) := by
  unfold Flags.has
  rw [Nat.and_comm, Nat.and_or_distrib_left, Nat.and_comm f.mask a, Nat.and_comm f.mask b]
  by_cases ha : a &&& f.mask = 0
  · rw [ha, Nat.zero_or]
    exact (Bool.false_or _).symm
  · have h1 : (a &&& f.mask ||| b &&& f.mask) ≠ 0 := fun h => ha (or_eq_zero_left _ _ h)
    have e1 : (a &&& f.mask ||| b &&& f.mask != 0) = true := bne_iff_ne.2 h1
    have e2 : (a &&& f.mask != 0) = true := bne_iff_ne.2 ha
    rw [e1, e2]
    rfl

/-- C22: for every Query command and every client, the Query message handed to
`connection->send` by `QueryCommand::exec` has the type and the query of the command,
as flags the bitwise union of the command's `extraQueryFlags` and the client's query
flags (a flag is set in the message exactly when it is set in one of the two), and
the client's values of max, path filters, kind filters, range filter, build index,
current files, unsaved files and terminal width. -/
theorem C22_query_message (rc : RClient) (send : Message → Bool) (type : QueryType)
    (query : String) (extraQueryFlags : Flags) :
    ∃ msg : QueryMessage,
      (QueryCommand.exec rc send type query extraQueryFlags).trace
        = [Action.send (Message.query msg) (send (Message.query msg))] ∧
      msg.type = type ∧ msg.query = query ∧
      msg.flags = extraQueryFlags ||| rc.mQueryFlags ∧
      (∀ f : QueryFlag, Flags.has msg.flags f
        = (Flags.has extraQueryFlags f || Flags.has rc.mQueryFlags f)) ∧
      msg.max = rc.mMax ∧ msg.pathFilters = rc.mPathFilters ∧
      msg.kindFilters = rc.mKindFilters ∧
      msg.minOffset = rc.mMinOffset ∧ msg.maxOffset = rc.mMaxOffset ∧
      msg.buildIndex = rc.mBuildIndex ∧ msg.currentFile = rc.mCurrentFile ∧
      msg.unsavedFiles = rc.mUnsavedFiles ∧ msg.terminalWidth = rc.mTerminalWidth :=
  ⟨QueryCommand.message rc type query extraQueryFlags, rfl, rfl, rfl, rfl,
    fun f => has_or extraQueryFlags rc.mQueryFlags f, rfl, rfl, rfl, rfl, rfl, rfl, rfl, rfl, rfl⟩

/-- The format flags of the message `RdmLogCommand::exec` builds. -/
theorem rdmLog_flags (rc : RClient) (mLevel : LogLevel) :
    (RdmLogCommand.message rc mLevel).flags =
      if rc.mQueryFlags.has QueryFlag.Elisp then LogOutputFlag.Elisp.mask
      else if rc.mQueryFlags.has QueryFlag.XMLCompletions then LogOutputFlag.XMLCompletions.mask
      else if rc.mQueryFlags.has QueryFlag.NoSpellChecking then
        LogOutputFlag.NoSpellChecking.mask
      else 0 := by
  simp only [RdmLogCommand.message]
  split_ifs <;> simp

/-- C29: the LogOutput message `RdmLogCommand::exec` hands to `connection->send`
carries the format flag `Elisp` when the client's query flags hold `Elisp`, else
`XMLCompletions` when they hold that, else `NoSpellChecking` when they hold that, else
none, so at most one of the three; its level is the level of the command unless that
is the sentinel `Default` (-1), in which case it is the log level of the client. -/
theorem C29_log_message (rc : RClient) (send : Message → Bool) (mLevel : LogLevel) :
    ∃ msg : LogOutputMessage,
      (RdmLogCommand.exec rc send mLevel).trace
        = [Action.send (Message.logOutput msg) (send (Message.logOutput msg))] ∧
      msg.flags =
        (if rc.mQueryFlags.has QueryFlag.Elisp then LogOutputFlag.Elisp.mask
         else if rc.mQueryFlags.has QueryFlag.XMLCompletions then
           LogOutputFlag.XMLCompletions.mask
         else if rc.mQueryFlags.has QueryFlag.NoSpellChecking then
           LogOutputFlag.NoSpellChecking.mask
         else 0) ∧
      (∀ f g : LogOutputFlag, msg.flags &&& f.mask ≠ 0 → msg.flags &&& g.mask ≠ 0 → f = g) ∧
      msg.level = (if mLevel = -1 then rc.mLogLevel else mLevel) := by
  refine ⟨RdmLogCommand.message rc mLevel, rfl, rdmLog_flags rc mLevel, ?_, rfl⟩
  intro f g
  rw [rdmLog_flags]
  split_ifs <;> cases f <;> cases g <;> decide

/-- C29, witness: a client whose query flags hold both `Elisp` and `XMLCompletions`
subscribes with the level `Default`: the message carries `Elisp` alone and the log
level of the client. -/
theorem C29_witness :
    ∃ msg : LogOutputMessage,
      (RdmLogCommand.exec
          { mQueryFlags := QueryFlag.Elisp.mask ||| QueryFlag.XMLCompletions.mask }
          (fun _ => true) (-1)).trace
        = [Action.send (Message.logOutput msg) ((fun _ => true) (Message.logOutput msg))] ∧
      msg.flags =
        (if Flags.has (QueryFlag.Elisp.mask ||| QueryFlag.XMLCompletions.mask) QueryFlag.Elisp
          then LogOutputFlag.Elisp.mask
         else if Flags.has (QueryFlag.Elisp.mask ||| QueryFlag.XMLCompletions.mask)
            QueryFlag.XMLCompletions then
           LogOutputFlag.XMLCompletions.mask
         else if Flags.has (QueryFlag.Elisp.mask ||| QueryFlag.XMLCompletions.mask)
            QueryFlag.NoSpellChecking then
           LogOutputFlag.NoSpellChecking.mask
         else 0) ∧
      (∀ f g : LogOutputFlag, msg.flags &&& f.mask ≠ 0 → msg.flags &&& g.mask ≠ 0 → f = g) ∧
      msg.level = (if (-1 : LogLevel) = -1 then LogLevel.Error else -1) :=
  C29_log_message { mQueryFlags := QueryFlag.Elisp.mask ||| QueryFlag.XMLCompletions.mask }
    (fun _ => true) (-1)

/-- C27: in autotest mode, when the connection is established and every queued
command is sent and its wait ends with `Success`, `RClient::exec` returns 0, whatever
the completion statuses of the commands are. -/
theorem C27_autotest_returns_zero (rc : RClient) (t : Transport)
    (hauto : rc.autotest = true)
    (hconn : rc.establishes t = true)
    (hall : ∀ i, i < rc.mCommands.length → t.commandOk rc.connectedWired i = true) :
    (rc.exec t).ret = 0 := by
  rw [exec_ret, if_pos ⟨hconn, hall⟩, if_pos (Or.inl hauto)]

/-- C27, witness: the queue `--status`, `--is-indexing` in autotest mode, both
commands completing with the status 5. -/
theorem C27_witness :
    (∀ i, i < autotestClient.mCommands.length →
      autotestClient.completionStatus (Transport.completing (fun _ => 5)) i ≠ 0) ∧
    (autotestClient.exec (Transport.completing (fun _ => 5))).ret = 0 :=
  ⟨by decide,
   C27_autotest_returns_zero autotestClient (Transport.completing (fun _ => 5))
    (by decide) (by decide) (by decide)⟩

/-! ## Claims on single cases of the option switch -/

/-- The case of an option that takes a location. -/
theorem dispatch_location (env : Env) (st : ParseState) (next : List String) (arg : String)
    (opt : OptionType) (type : QueryType) (flags : Flags)
    (hopt : (opt, type, flags) ∈
      [(OptionType.FollowLocation, QueryType.FollowLocation, QueryFlag.HasLocation.mask),
       (OptionType.SymbolInfo, QueryType.SymbolInfo, QueryFlag.HasLocation.mask),
       (OptionType.ClassHierarchy, QueryType.ClassHierarchy, QueryFlag.HasLocation.mask),
       (OptionType.ReferenceLocation, QueryType.ReferencesLocation, QueryFlag.HasLocation.mask),
       (OptionType.CodeCompleteAt, QueryType.CodeCompleteAt, 0),
       (OptionType.PrepareCodeCompleteAt, QueryType.PrepareCodeCompleteAt, 0)]) :
    dispatch env opt (some arg) next st =
      if (env.encodeLocation arg).isEmpty then st.fail ("Can't resolve argument " ++ arg ++ "\n")
      else Step.next (st.addQuery type (env.encodeLocation arg) flags) 0 := by
  simp only [List.mem_cons, Prod.mk.injEq, List.mem_singleton, List.not_mem_nil,
    or_false] at hopt
  rcases hopt with ⟨h1, h2, h3⟩ | ⟨h1, h2, h3⟩ | ⟨h1, h2, h3⟩ | ⟨h1, h2, h3⟩ | ⟨h1, h2, h3⟩ |
    ⟨h1, h2, h3⟩ <;> (subst h1 h2 h3; rfl)

/-- C23: for the options that take a location (`--follow-location`, `--symbol-info`,
`--class-hierarchy`, `--references`, `--code-complete-at`,
`--prepare-code-complete-at`): when `Location::encode` returns the empty token for the
argument, the option switch returns `Parse_Error` and the queue is as it was;
otherwise the round goes on and exactly one Query command is appended, of the type of
the option, whose query is exactly the encoded token. -/
theorem C23_location_options (env : Env) (st : ParseState) (next : List String) (arg : String)
    (opt : OptionType) (type : QueryType) (flags : Flags)
    (hopt : (opt, type, flags) ∈
      [(OptionType.FollowLocation, QueryType.FollowLocation, QueryFlag.HasLocation.mask),
       (OptionType.SymbolInfo, QueryType.SymbolInfo, QueryFlag.HasLocation.mask),
       (OptionType.ClassHierarchy, QueryType.ClassHierarchy, QueryFlag.HasLocation.mask),
       (OptionType.ReferenceLocation, QueryType.ReferencesLocation, QueryFlag.HasLocation.mask),
       (OptionType.CodeCompleteAt, QueryType.CodeCompleteAt, 0),
       (OptionType.PrepareCodeCompleteAt, QueryType.PrepareCodeCompleteAt, 0)]) :
    (env.encodeLocation arg = "" →
      ∃ st1, dispatch env opt (some arg) next st = Step.ret ParseStatus.Parse_Error st1 ∧
        st1.rc.mCommands = st.rc.mCommands) ∧
    (env.encodeLocation arg ≠ "" →
      ∃ st1, dispatch env opt (some arg) next st = Step.next st1 0 ∧
        st1.rc.mCommands = st.rc.mCommands ++
          [RCCommand.QueryCommand type (env.encodeLocation arg) flags]) := by
  rw [dispatch_location env st next arg opt type flags hopt]
  constructor
  · intro h
    rw [if_pos ((String.isEmpty_iff _).2 h)]
    exact ⟨_, rfl, write_mCommands _ _⟩
  · intro h
    rw [if_neg (fun e => h ((String.isEmpty_iff _).1 e))]
    exact ⟨_, rfl, addQuery_mCommands _ _ _ _⟩

/-- C23, witness: `--follow-location a.cpp:1:1` queues one FollowLocation query, and
`rc --follow-location ""`, whose location cannot be encoded, fails with nothing
queued. -/
theorem C23_witness :
    (∃ st1, dispatch Env.plain OptionType.FollowLocation (some "a.cpp:1:1") []
        (ParseState.init {} Env.plain []) = Step.next st1 0 ∧
      st1.rc.mCommands = (ParseState.init {} Env.plain []).rc.mCommands ++
        [RCCommand.QueryCommand QueryType.FollowLocation (Env.plain.encodeLocation "a.cpp:1:1")
          QueryFlag.HasLocation.mask]) ∧
    (RClient.parse {} Env.plain ["rc", "--follow-location", ""] []).status
      = some ParseStatus.Parse_Error ∧
    (RClient.parse {} Env.plain ["rc", "--follow-location", ""] []).commands = [] :=
  ⟨(C23_location_options Env.plain (ParseState.init {} Env.plain []) [] "a.cpp:1:1"
      OptionType.FollowLocation QueryType.FollowLocation QueryFlag.HasLocation.mask
      (List.mem_cons_self _ _)).2 (by decide),
   by decide, by decide⟩

/-! ## Compound payloads -/

/-- C25: the compound payloads are field sequences in a fixed order.  For
`--dependencies` and `--dump-file-maps` with an argument that is a file, the query is
the serialization of the resolved path followed by the list of the words after the
option that do not start with a dash, so the two payloads are the same and only the
query type differs; for `--all-dependencies` it is the empty path followed by that
list; for `--tokens`, with a file and a lower bound below the upper one, it is the
resolved path followed by the lower and then the upper bound. -/
theorem C25_compound_payloads (env : Env) (st : ParseState) (next : List String)
    (arg : String) :
    (env.isFile arg = true →
      dispatch env OptionType.Dependencies (some arg) next st
        = Step.next (st.addQuery QueryType.Dependencies
            (env.serialize [SerialItem.path (env.resolved ResolveMode.RealPath arg),
              SerialItem.stringList (next.takeWhile notDash)]) 0)
            (next.takeWhile notDash).length ∧
      dispatch env OptionType.DumpFileMaps (some arg) next st
        = Step.next (st.addQuery QueryType.DumpFileMaps
            (env.serialize [SerialItem.path (env.resolved ResolveMode.RealPath arg),
              SerialItem.stringList (next.takeWhile notDash)]) 0)
            (next.takeWhile notDash).length) ∧
    (∀ optarg : Option String,
      dispatch env OptionType.AllDependencies optarg next st
        = Step.next (st.addQuery QueryType.Dependencies
            (env.serialize [SerialItem.path "",
              SerialItem.stringList (next.takeWhile notDash)]) 0)
            (next.takeWhile notDash).length) ∧
    (env.isFile (env.resolved ResolveMode.RealPath (scanTokens arg).1) = true →
      (scanTokens arg).2.1 < (scanTokens arg).2.2 →
      dispatch env OptionType.Tokens (some arg) next st
        = Step.next (st.addQuery QueryType.Tokens
            (env.serialize [SerialItem.path (env.resolved ResolveMode.RealPath (scanTokens arg).1),
              SerialItem.uint32 (scanTokens arg).2.1,
              SerialItem.uint32 (scanTokens arg).2.2]) 0) 0) ∧
    (∀ (type : QueryType) (query : String) (flags : Flags),
      (st.addQuery type query flags).rc.mCommands
        = st.rc.mCommands ++ [RCCommand.QueryCommand type query flags]) := by
  refine ⟨?_, ?_, ?_, ?_⟩
  · intro h
    constructor
    · simp only [dispatch, Option.getD_some, h, not_true_eq_false, if_false]
    · simp only [dispatch, Option.getD_some, h, not_true_eq_false, if_false]
  · intro optarg
    simp only [dispatch]
  · intro h1 h2
    simp only [dispatch, Option.getD_some, h1, not_true_eq_false, if_false]
    rw [if_neg (Nat.not_le.2 h2)]
  · intro type query flags
    exact addQuery_mCommands _ _ _ _

/-- C25, witness: `--dependencies /w/a.cpp x y --verbose` and `--tokens /w/a.cpp:3-9`. -/
theorem C25_witness :
    dispatch Env.plain OptionType.Dependencies (some "/w/a.cpp") ["x", "y", "--verbose"]
        (ParseState.init {} Env.plain [])
      = Step.next ((ParseState.init {} Env.plain []).addQuery QueryType.Dependencies
          (Env.plain.serialize [SerialItem.path (Env.plain.resolved ResolveMode.RealPath "/w/a.cpp"),
            SerialItem.stringList (["x", "y", "--verbose"].takeWhile notDash)]) 0)
          (["x", "y", "--verbose"].takeWhile notDash).length ∧
    ["x", "y", "--verbose"].takeWhile notDash = ["x", "y"] ∧
    scanTokens "/w/a.cpp:3-9" = ("/w/a.cpp", 3, 9) :=
  ⟨((C25_compound_payloads Env.plain (ParseState.init {} Env.plain []) ["x", "y", "--verbose"]
      "/w/a.cpp").1 (by decide)).1, by decide, by decide⟩

/-! ## The exit code of `--quit-rdm` -/

theorem toLongLong_toString (n : Nat) (h : n ≤ 9223372036854775807) :
    toLongLong (toString n).data = ((n : Int), true) := by
  have hs := scanNumber_toString n [] (by intro c hc; cases hc)
  rw [List.append_nil] at hs
  unfold toLongLong
  rw [hs, signedValue_mk n [] h]
  have : ¬ n > 9223372036854775807 := Nat.not_lt.2 h
  simp [Scanned.signedRangeError, this]

theorem toLongLong_junk (n : Nat) (junk : List Char) (hj : junk ≠ [])
    (hd : ∀ c, junk.head? = some c → c.isDigit = false) :
    (toLongLong ((toString n).data ++ junk)).2 = false := by
  unfold toLongLong
  rw [scanNumber_toString n junk hd]
  cases junk with
  | nil => exact absurd rfl hj
  | cons c cs => simp

theorem toLongLong_letter (c : Char) (cs : List Char) (h1 : c.isDigit = false)
    (h2 : isSpaceC c = false) (h3 : c ≠ '-') (h4 : c ≠ '+') :
    (toLongLong (c :: cs)).2 = false := by
  unfold toLongLong scanNumber
  have hdw : List.dropWhile isSpaceC (c :: cs) = c :: cs := by
    rw [List.dropWhile_cons_of_neg]
    simp [h2]
  simp [hdw, h1, h3, h4]

theorem notDash_cons (c : Char) (cs : List Char) (h : c ≠ '-') :
    notDash (String.mk (c :: cs)) = true := by
  simp [notDash, h]

theorem notDash_toString (n : Nat) (junk : List Char) :
    notDash (String.mk ((toString n).data ++ junk)) = true := by
  obtain ⟨hd, _, hne⟩ := toString_nat_spec n
  obtain ⟨c, cs, hcs⟩ := List.exists_cons_of_ne_nil hne
  have hc : c.isDigit = true := hd c (by rw [hcs]; exact List.mem_cons_self _ _)
  rw [hcs]
  exact notDash_cons c (cs ++ junk) (isDigit_not_space c hc).2.1

/-- The case `QuitRdm` of the option switch when the next word does not start with a
dash: the word is the argument. -/
theorem dispatch_quitRdm (env : Env) (st : ParseState) (rest : List String) (a : String)
    (ha : notDash a = true) :
    dispatch env OptionType.QuitRdm none (a :: rest) st =
      if ¬ (toLongLong a.data).2 then st.fail "Invalid argument to -q\n"
      else Step.next (st.addQuitCommand (toInt32 (toLongLong a.data).1)) 1 := by
  simp only [dispatch, takeArg, ha, if_true]

/-- C26, counterexample: `rc --quit-rdm 4294967296` is parsed successfully and the
queued Quit command asks for the exit code 0, not 4294967296. -/
theorem C26_counterexample :
    (RClient.parse {} Env.plain ["rc", "--quit-rdm", "4294967296"] []).status
      = some ParseStatus.Parse_Exec ∧
    (RClient.parse {} Env.plain ["rc", "--quit-rdm", "4294967296"] []).commands
      = [RCCommand.QuitCommand 0] := by
  decide

/-- C26 (amended): for `--quit-rdm`, whose argument is the next word of the command
line when that does not start with a dash: without an argument the queued Quit
command asks for the exit code 0; with an argument that is a decimal numeral `n` in
the range of `int` (`n < 2^31`) the exit code of the queued Quit command is `n`; with
an argument that is a numeral followed by other characters, or that starts with a
character that is no digit, sign or white space, the option switch returns
`Parse_Error` and no Quit command is queued.  In general the argument is accepted
exactly when `strtoll` reads it to its end without a range error, and the exit code is
then that value converted to `int`; so the empty word is accepted and gives the exit
code 0. -/
theorem C26_quit_rdm (env : Env) (st : ParseState) (rest : List String) :
    (∀ next : List String, (next = [] ∨ ∃ w ws, next = w :: ws ∧ notDash w = false) →
      ∃ st1, dispatch env OptionType.QuitRdm none next st = Step.next st1 0 ∧
        st1.rc.mCommands = st.rc.mCommands ++ [RCCommand.QuitCommand 0]) ∧
    (∀ n : Nat, n < 2147483648 →
      ∃ st1, dispatch env OptionType.QuitRdm none (toString n :: rest) st = Step.next st1 1 ∧
        st1.rc.mCommands = st.rc.mCommands ++ [RCCommand.QuitCommand (n : Int)]) ∧
    (∀ (n : Nat) (junk : List Char), junk ≠ [] →
      (∀ c, junk.head? = some c → c.isDigit = false) →
      ∃ st1, dispatch env OptionType.QuitRdm none
          (String.mk ((toString n).data ++ junk) :: rest) st
          = Step.ret ParseStatus.Parse_Error st1 ∧
        st1.rc.mCommands = st.rc.mCommands) ∧
    (∀ (c : Char) (cs : List Char), c.isDigit = false → isSpaceC c = false → c ≠ '-' →
      c ≠ '+' →
      ∃ st1, dispatch env OptionType.QuitRdm none (String.mk (c :: cs) :: rest) st
          = Step.ret ParseStatus.Parse_Error st1 ∧
        st1.rc.mCommands = st.rc.mCommands) ∧
    (∀ a : String, notDash a = true → (toLongLong a.data).2 = false →
      ∃ st1, dispatch env OptionType.QuitRdm none (a :: rest) st
          = Step.ret ParseStatus.Parse_Error st1 ∧
        st1.rc.mCommands = st.rc.mCommands) ∧
    (∀ a : String, notDash a = true → (toLongLong a.data).2 = true →
      ∃ st1, dispatch env OptionType.QuitRdm none (a :: rest) st = Step.next st1 1 ∧
        st1.rc.mCommands = st.rc.mCommands ++
          [RCCommand.QuitCommand (toInt32 (toLongLong a.data).1)]) ∧
    (∃ st1, dispatch env OptionType.QuitRdm none ("" :: rest) st = Step.next st1 1 ∧
      st1.rc.mCommands = st.rc.mCommands ++ [RCCommand.QuitCommand 0]) := by
  have hfalse : ∀ a : String, notDash a = true → (toLongLong a.data).2 = false →
      ∃ st1, dispatch env OptionType.QuitRdm none (a :: rest) st
          = Step.ret ParseStatus.Parse_Error st1 ∧
        st1.rc.mCommands = st.rc.mCommands := by
    intro a ha h
    refine ⟨st.write [Output.stderr "Invalid argument to -q\n"], ?_, write_mCommands _ _⟩
    rw [dispatch_quitRdm env st rest a ha, h]
    simp [ParseState.fail]
  have htrue : ∀ a : String, notDash a = true → (toLongLong a.data).2 = true →
      ∃ st1, dispatch env OptionType.QuitRdm none (a :: rest) st = Step.next st1 1 ∧
        st1.rc.mCommands = st.rc.mCommands ++
          [RCCommand.QuitCommand (toInt32 (toLongLong a.data).1)] := by
    intro a ha h
    refine ⟨st.addQuitCommand (toInt32 (toLongLong a.data).1), ?_,
      addQuitCommand_mCommands _ _⟩
    rw [dispatch_quitRdm env st rest a ha, h]
    simp
  refine ⟨?_, ?_, ?_, ?_, hfalse, htrue, ?_⟩
  · intro next h
    have ht : takeArg none next = (none, 0) := by
      rcases h with h | ⟨w, ws, h, hw⟩
      · rw [h]; rfl
      · rw [h]; simp [takeArg, hw]
    refine ⟨st.addQuitCommand 0, ?_, addQuitCommand_mCommands _ _⟩
    simp only [dispatch, ht]
  · intro n hn
    have hd : notDash (toString n) = true := by
      have := notDash_toString n []
      rwa [List.append_nil] at this
    obtain ⟨st1, h1, h2⟩ := htrue (toString n) hd (by rw [toLongLong_toString n (by omega)])
    rw [toLongLong_toString n (by omega), toInt32_natCast n hn] at h2
    exact ⟨st1, h1, h2⟩
  · intro n junk hj hd
    exact hfalse _ (notDash_toString n junk) (toLongLong_junk n junk hj hd)
  · intro c cs h1 h2 h3 h4
    exact hfalse _ (notDash_cons c cs h3) (toLongLong_letter c cs h1 h2 h3 h4)
  · obtain ⟨st1, h1, h2⟩ := htrue "" (by decide) (by decide)
    exact ⟨st1, h1, h2⟩

/-- C26, witness: `--quit-rdm 42` queues `Quit(42)`. -/
theorem C26_witness :
    ∃ st1, dispatch Env.plain OptionType.QuitRdm none [toString 42]
        (ParseState.init {} Env.plain []) = Step.next st1 1 ∧
      st1.rc.mCommands = (ParseState.init {} Env.plain []).rc.mCommands ++
        [RCCommand.QuitCommand ((42 : Nat) : Int)] :=
  (C26_quit_rdm Env.plain (ParseState.init {} Env.plain []) []).2.1 42 (by decide)

/-! ## A successful `parse` leaves a command -/

theorem markSilent_length (projectCommands : List Nat) (commands : List RCCommand) :
    (markSilent projectCommands commands).length = commands.length := by
  unfold markSilent
  induction projectCommands generalizing commands with
  | nil => rfl
  | cons i rest ih =>
    rw [List.foldl_cons, ih, List.length_modify]

theorem parse_exec_nonempty (rc : RClient) (env : Env) (argv : List String) (stdin : List Char)
    (st : ParseState)
    (h : rc.parse env argv stdin = ParseResult.returned ParseStatus.Parse_Exec st) :
    st.rc.mCommands ≠ [] := by
  unfold RClient.parse at h
  split_ifs at h
  · simp at h
  · have hs := optionLoop_sound env argv.tail 0 none (ParseState.init rc env stdin)
      (ParseState.init rc env stdin) (Extends.refl _)
    split at h
    · rename_i st1 leftover heq
      obtain ⟨h1, h2, _⟩ := finishParse_exec env argv st1 st leftover h
      intro hnil
      have hlen : st.rc.mCommands.length = st1.rc.mCommands.length := by
        rw [h2]
        split_ifs
        · exact markSilent_length _ _
        · rfl
      rw [hnil] at hlen
      exact h1 (List.length_eq_zero.1 hlen.symm)
    · simp at h
    · rename_i status st1 heq
      rw [heq] at hs
      simp only [ParseResult.returned.injEq] at h
      exact absurd h.1 hs.1
    · simp at h

theorem parse_of_done_empty (rc : RClient) (env : Env) (argv : List String) (stdin : List Char)
    (st : ParseState) (leftover : Option String) (hd : env.dumpUnused = false)
    (hl : optionLoop env argv.tail 0 none (ParseState.init rc env stdin)
      = LoopEnd.done st leftover)
    (he : st.rc.mCommands = []) :
    ∃ st1, rc.parse env argv stdin = ParseResult.returned ParseStatus.Parse_Error st1 ∧
      st1.rc.mCommands = [] := by
  unfold RClient.parse
  rw [if_neg (by simp [hd]), hl]
  simp only
  unfold finishParse
  cases leftover with
  | some w => exact ⟨_, rfl, by rw [write_mCommands, he]⟩
  | none =>
    simp only
    by_cases h1 : ¬ env.initLogging st.rc.mLogLevel st.logFile = true
    · rw [if_pos h1]
      exact ⟨_, rfl, by rw [write_mCommands, he]⟩
    · rw [if_neg h1, if_pos (by rw [he]; rfl)]
      exact ⟨_, rfl, by rw [write_mCommands, he]⟩

/-- C28: whenever `RClient::parse` returns `Parse_Exec`, the command queue is not
empty; an invocation whose option loop runs to its end without queueing a command
(one that only sets flags) returns `Parse_Error` instead. -/
theorem C28_exec_needs_a_command (rc : RClient) (env : Env) (argv : List String)
    (stdin : List Char) :
    (∀ st, rc.parse env argv stdin = ParseResult.returned ParseStatus.Parse_Exec st →
      st.rc.mCommands ≠ []) ∧
    (∀ st leftover, env.dumpUnused = false →
      optionLoop env argv.tail 0 none (ParseState.init rc env stdin)
        = LoopEnd.done st leftover →
      st.rc.mCommands = [] →
      ∃ st1, rc.parse env argv stdin = ParseResult.returned ParseStatus.Parse_Error st1 ∧
        st1.rc.mCommands = []) :=
  ⟨fun st h => parse_exec_nonempty rc env argv stdin st h,
   fun st leftover hd hl he => parse_of_done_empty rc env argv stdin st leftover hd hl he⟩

/-- C28, witness: `rc --verbose --no-color` only sets flags and returns `Parse_Error`;
`rc --is-indexing` returns `Parse_Exec` with a command in the queue. -/
theorem C28_witness :
    (∃ st1, RClient.parse {} Env.plain ["rc", "--verbose", "--no-color"] []
        = ParseResult.returned ParseStatus.Parse_Error st1 ∧ st1.rc.mCommands = []) ∧
    (RClient.parse {} Env.plain ["rc", "--is-indexing"] []).state.rc.mCommands ≠ [] :=
  ⟨(C28_exec_needs_a_command {} Env.plain ["rc", "--verbose", "--no-color"] []).2
      (optionLoop Env.plain ["--verbose", "--no-color"] 0 none
        (ParseState.init {} Env.plain [])).state none (by decide) (by decide) (by decide),
   (C28_exec_needs_a_command {} Env.plain ["rc", "--is-indexing"] []).1
      (RClient.parse {} Env.plain ["rc", "--is-indexing"] []).state (by decide)⟩

/-! # The two constructors of `CompileCommand`

Every command the option switch queues is built by one constructor only. -/

theorem Keeps.same (st : ParseState) : st.Keeps st := ⟨[], by simp, by simp⟩

theorem Keeps.of_queue_eq {st st1 : ParseState} (h : st1.rc.mCommands = st.rc.mCommands) :
    st.Keeps st1 := ⟨[], by simp [h], by simp⟩

theorem Keeps.chain {a b c : ParseState} (h1 : a.Keeps b) (h2 : b.Keeps c) : a.Keeps c := by
  obtain ⟨n1, e1, w1⟩ := h1
  obtain ⟨n2, e2, w2⟩ := h2
  refine ⟨n1 ++ n2, by rw [e2, e1, List.append_assoc], ?_⟩
  intro x hx
  rcases List.mem_append.1 hx with h | h
  · exact w1 x h
  · exact w2 x h

theorem Keeps.append_one {st st1 st2 : ParseState} (c : RCCommand) (h : st.Keeps st1)
    (h1 : st2.rc.mCommands = st1.rc.mCommands ++ [c]) (hc : c.exclusive = true) :
    st.Keeps st2 :=
  Keeps.chain h ⟨[c], h1, by simpa using hc⟩

theorem Keeps.addQuery {st st1 : ParseState} (t : QueryType) (q : String) (f : Flags)
    (h : st.Keeps st1) : st.Keeps (st1.addQuery t q f) :=
  Keeps.append_one (RCCommand.QueryCommand t q f) h (by simp) rfl

theorem Keeps.addLogCommand {st st1 : ParseState} (level : LogLevel) (h : st.Keeps st1) :
    st.Keeps (st1.addLog level) :=
  Keeps.append_one (RCCommand.RdmLogCommand level) h (by simp) rfl

theorem Keeps.addQuit {st st1 : ParseState} (code : Int) (h : st.Keeps st1) :
    st.Keeps (st1.addQuitCommand code) :=
  Keeps.append_one (RCCommand.QuitCommand code) h (by simp) rfl

theorem Keeps.addCompileArgs {st st1 : ParseState} (cwd args : String) (h : st.Keeps st1) :
    st.Keeps (st1.addCompile cwd args) :=
  Keeps.append_one (RCCommand.CompileCommand "" cwd args) h (by simp) rfl

theorem Keeps.addCompileDirectory {st st1 : ParseState} (dir : String) (h : st.Keeps st1) :
    st.Keeps (st1.addCompileDir dir) :=
  Keeps.append_one (RCCommand.CompileCommand dir "" "") h (by simp)
    (by unfold RCCommand.exclusive; rw [Bool.or_eq_true]; exact Or.inr (by decide))

theorem Keeps.appendProject {st st1 : ParseState} (h : st.Keeps st1) :
    st.Keeps st1.appendProjectCommand :=
  Keeps.chain h (Keeps.of_queue_eq (by simp))

theorem Step.keeps_next {st st1 : ParseState} {n : Nat} (h : st.Keeps st1) :
    Step.Keeps st (Step.next st1 n) := h

theorem Step.keeps_ret {st st1 : ParseState} (status : ParseStatus) (h : st.Keeps st1) :
    Step.Keeps st (Step.ret status st1) := h

theorem Step.keeps_fail {st st1 : ParseState} (message : String)
    (h : st1.rc.mCommands = st.rc.mCommands) : Step.Keeps st (st1.fail message) :=
  Keeps.of_queue_eq (by rw [write_mCommands, h])

theorem parseRangeFilter_keeps (st : ParseState) (optarg : String) :
    Step.Keeps st (parseRangeFilter st optarg) := by
  unfold parseRangeFilter
  lift_lets
  intro first st1 second st2
  have c1 : st1.rc.mCommands = st.rc.mCommands := by simp [st1]
  have c2 : st2.rc.mCommands = st.rc.mCommands := by simp [st2, c1]
  clear_value first st1 second st2
  split_ifs
  all_goals first
    | exact Step.keeps_fail _ c1
    | exact Step.keeps_fail _ c2
    | exact Step.keeps_next (Keeps.of_queue_eq c2)

theorem parseSocketAddress_keeps (env : Env) (st : ParseState) (optarg : String) :
    Step.Keeps st (parseSocketAddress env st optarg) := by
  unfold parseSocketAddress
  lift_lets
  intro st1
  have c1 : st1.rc.mCommands = st.rc.mCommands := by simp [st1]
  clear_value st1
  split
  · exact Step.keeps_fail _ c1
  · lift_lets
    intro st2
    have c2 : st2.rc.mCommands = st.rc.mCommands := by simp [st2, c1]
    clear_value st2
    split_ifs
    · exact Step.keeps_fail _ c2
    · exact Step.keeps_next (Keeps.of_queue_eq (by simp [c2]))

theorem parseUnsavedFile_keeps (env : Env) (st : ParseState) (optarg : String) :
    Step.Keeps st (parseUnsavedFile env st optarg) := by
  unfold parseUnsavedFile
  split
  · exact Step.keeps_fail _ rfl
  · lift_lets
    intro bytes path contents st1
    have c1 : st1.rc.mCommands = st.rc.mCommands := by simp [st1]
    clear_value bytes path contents st1
    split_ifs
    all_goals first
      | exact Step.keeps_fail _ rfl
      | exact Step.keeps_fail _ c1
      | exact Step.keeps_next (Keeps.of_queue_eq (by simp [c1]))
      | exact Keeps.same st

theorem parseSetBuffers_keeps (env : Env) (st : ParseState) (optarg : Option String)
    (next : List String) : Step.Keeps st (parseSetBuffers env st optarg next) := by
  unfold parseSetBuffers
  lift_lets
  intro taken
  clear_value taken
  split
  · exact Step.keeps_next (Keeps.addQuery _ _ _ (Keeps.same st))
  · split_ifs
    · exact Step.keeps_next (Keeps.addQuery _ _ _ (Keeps.of_queue_eq (by simp)))
    · exact Step.keeps_next (Keeps.addQuery _ _ _ (Keeps.of_queue_eq (by simp)))

theorem compileLine_keeps (env : Env) (st : ParseState) (acc : ParseState × String)
    (buf : String) (h : st.Keeps acc.1) : st.Keeps (compileLine env acc buf).1 := by
  unfold compileLine
  lift_lets
  intro pending
  clear_value pending
  split_ifs
  all_goals first
    | exact Keeps.addCompileArgs _ _ h
    | exact h

theorem foldl_compileLine_keeps (env : Env) (st : ParseState) (lines : List String)
    (acc : ParseState × String) (h : st.Keeps acc.1) :
    st.Keeps (lines.foldl (compileLine env) acc).1 := by
  induction lines generalizing acc with
  | nil => exact h
  | cons l ls ih => exact ih _ (compileLine_keeps env st acc l h)

theorem parseCompile_keeps (env : Env) (st : ParseState) (optarg : Option String)
    (next : List String) : Step.Keeps st (parseCompile env st optarg next) := by
  unfold parseCompile
  lift_lets
  intro args
  clear_value args
  split_ifs
  · intro r
    have hr : st.Keeps r.1 := foldl_compileLine_keeps env st _ _ (Keeps.of_queue_eq (by simp))
    clear_value r
    split_ifs
    all_goals first
      | exact Step.keeps_next (Keeps.addCompileArgs _ _ hr)
      | exact Step.keeps_next hr
  · exact Step.keeps_next (Keeps.addCompileArgs _ _ (Keeps.same st))

theorem parseLoadCompilationDatabase_keeps (env : Env) (st : ParseState)
    (optarg : Option String) (next : List String) :
    Step.Keeps st (parseLoadCompilationDatabase env st optarg next) := by
  unfold parseLoadCompilationDatabase
  lift_lets
  intro taken dir0 dir1
  clear_value taken dir0 dir1
  split_ifs
  all_goals first
    | exact Step.keeps_fail _ rfl
    | skip
  split
  · exact Step.keeps_fail _ rfl
  · lift_lets
    intro dir
    clear_value dir
    split_ifs
    all_goals first
      | exact Step.keeps_fail _ rfl
      | exact Step.keeps_next (Keeps.addCompileDirectory _ (Keeps.same st))

theorem parseSharedQuery_keeps (env : Env) (st : ParseState) (opt : OptionType)
    (optarg : Option String) (next : List String) :
    Step.Keeps st (parseSharedQuery env st opt optarg next) := by
  unfold parseSharedQuery
  lift_lets
  intro type resolve taken st1
  have h1 : ∃ q, st1 = st.addQuery type q 0 := by
    simp only [st1]
    split
    · split_ifs
      · exact ⟨_, rfl⟩
      · exact ⟨_, rfl⟩
    · exact ⟨_, rfl⟩
  clear_value type resolve taken st1
  obtain ⟨q, rfl⟩ := h1
  apply Step.keeps_next
  split_ifs with ht
  · exact Keeps.appendProject (Keeps.addQuery _ _ _ (Keeps.same st))
  · exact Keeps.addQuery _ _ _ (Keeps.same st)

theorem parseFileQuery_keeps (env : Env) (st : ParseState) (opt : OptionType)
    (optarg : String) : Step.Keeps st (parseFileQuery env st opt optarg) := by
  unfold parseFileQuery
  lift_lets
  intro p1 p2 p3
  clear_value p1 p2 p3
  split_ifs
  all_goals first
    | exact Step.keeps_fail _ rfl
    | exact Step.keeps_next (Keeps.addQuery _ _ _ (Keeps.same st))

/-- Every round of the option switch appends only commands built by one constructor. -/
theorem dispatch_keeps (env : Env) (opt : OptionType) (optarg : Option String)
    (next : List String) (st : ParseState) :
    Step.Keeps st (dispatch env opt optarg next st) := by
  cases opt
  all_goals simp only [dispatch]
  all_goals first
    | with_reducible exact parseRangeFilter_keeps _ _
    | with_reducible exact parseSocketAddress_keeps _ _ _
    | with_reducible exact parseUnsavedFile_keeps _ _ _
    | with_reducible exact parseSetBuffers_keeps _ _ _ _
    | with_reducible exact parseCompile_keeps _ _ _ _
    | with_reducible exact parseLoadCompilationDatabase_keeps _ _ _ _
    | with_reducible exact parseSharedQuery_keeps _ _ _ _ _
    | with_reducible exact parseFileQuery_keeps _ _ _ _
    | skip
  all_goals repeat' first
    | (with_reducible refine Step.keeps_ret _ (Keeps.of_queue_eq ?_)) <;> (simp; done)
    | (with_reducible refine Step.keeps_fail _ ?_) <;> (simp; done)
    | (with_reducible refine Step.keeps_next (Keeps.of_queue_eq ?_)) <;> (simp; done)
    | with_reducible exact Step.keeps_next (Keeps.addQuery _ _ _ (Keeps.same st))
    | with_reducible exact Step.keeps_next (Keeps.addLogCommand _ (Keeps.same st))
    | with_reducible exact Step.keeps_next (Keeps.addQuit _ (Keeps.same st))
    | split

theorem colourTest_keeps (st : ParseState) (env : Env) : st.Keeps (st.colourTest env) :=
  Keeps.of_queue_eq (colourTest_mCommands st env)

theorem Step.Keeps.of_keeps {st0 st : ParseState} {s : Step} (h : st0.Keeps st)
    (hs : Step.Keeps st s) : Step.Keeps st0 s := by
  cases s with
  | next st1 n => exact Keeps.chain h hs
  | ret status st1 => exact Keeps.chain h hs
  | abort st1 => exact Keeps.chain h hs

theorem handleOption_keeps (env : Env) (d : Delivered) (next : List String)
    (st0 st : ParseState) (h : st0.Keeps st) :
    Step.Keeps st0 (handleOption env d next st) := by
  unfold handleOption
  split
  · exact h
  · exact Step.Keeps.of_keeps (Keeps.chain h (colourTest_keeps st env))
      (dispatch_keeps _ _ _ _ _)

theorem parseCluster_keeps (env : Env) (word : String) (rest : List String) (chars : List Char)
    (skip : Nat) (st0 st : ParseState) (h : st0.Keeps st) :
    ClusterKeeps st0 (parseCluster env word rest chars skip st) := by
  induction chars generalizing skip st with
  | nil => exact h
  | cons c cs ih =>
    unfold parseCluster
    split
    · exact h
    · rename_i d hd
      split
      · have hk := handleOption_keeps env d ((word :: rest).drop skip) st0 st h
        split
        · rename_i status st1 heq
          rw [heq] at hk
          exact hk
        · rename_i st1 heq
          rw [heq] at hk
          exact hk
        · rename_i st1 consumed heq
          rw [heq] at hk
          exact ih _ _ hk
      · have hk := handleOption_keeps env d
          (if d.usedNext then (rest.drop skip).tail else rest.drop skip) st0 st h
        split
        · rename_i status st1 heq
          rw [heq] at hk
          exact hk
        · rename_i st1 heq
          rw [heq] at hk
          exact hk
        · rename_i st1 consumed heq
          rw [heq] at hk
          exact hk

theorem optionLoop_keeps (env : Env) (words : List String) (skip : Nat)
    (leftover : Option String) (st0 st : ParseState) (h : st0.Keeps st) :
    LoopEnd.Keeps st0 (optionLoop env words skip leftover st) := by
  induction words generalizing skip leftover st with
  | nil => exact h
  | cons w rest ih =>
    cases skip with
    | succ k => exact ih _ _ _ h
    | zero =>
      unfold optionLoop
      split
      · split
        · exact h
        · exact ih _ _ _ h
      · exact h
      · split
        · exact h
        · rename_i d hd
          have hk := handleOption_keeps env d (if d.usedNext then rest.tail else rest) st0 st h
          split
          · rename_i status st1 heq
            rw [heq] at hk
            exact hk
          · rename_i st1 heq
            rw [heq] at hk
            exact hk
          · rename_i st1 consumed heq
            rw [heq] at hk
            exact ih _ _ _ hk
      · rename_i chars hc
        have hk := parseCluster_keeps env w rest chars 0 st0 st h
        split
        · rename_i e heq
          rw [heq] at hk
          exact hk
        · rename_i st1 skip1 heq
          rw [heq] at hk
          exact ih _ _ _ hk

/-! ## The two constructors of `CompileCommand`: the result of `parse` -/

theorem modify_all {α : Type} (P : α → Prop) (f : α → α) (hf : ∀ a, P a → P (f a)) :
    ∀ (l : List α) (i : Nat), (∀ a ∈ l, P a) → ∀ a ∈ l.modify f i, P a := by
  intro l
  induction l with
  | nil =>
    intro i h a ha
    cases i <;> simp [List.modify] at ha
  | cons x xs ih =>
    intro i h a ha
    cases i with
    | zero =>
      rw [List.modify_zero_cons] at ha
      rcases List.mem_cons.1 ha with e | e
      · rw [e]; exact hf x (h x (List.mem_cons_self _ _))
      · exact h a (List.mem_cons_of_mem _ e)
    | succ k =>
      rw [List.modify_succ_cons] at ha
      rcases List.mem_cons.1 ha with e | e
      · rw [e]; exact h x (List.mem_cons_self _ _)
      · exact ih k (fun b hb => h b (List.mem_cons_of_mem _ hb)) a e

theorem setSilent_exclusive (c : RCCommand) (h : c.exclusive = true) :
    (setSilent c).exclusive = true := by
  cases c with
  | QueryCommand t q f =>
    simp only [setSilent]
    split_ifs <;> rfl
  | QuitCommand code => exact h
  | RdmLogCommand level => exact h
  | CompileCommand dir cwd args => exact h

theorem markSilent_exclusive (projectCommands : List Nat) (commands : List RCCommand)
    (h : ∀ c ∈ commands, c.exclusive = true) :
    ∀ c ∈ markSilent projectCommands commands, c.exclusive = true := by
  unfold markSilent
  induction projectCommands generalizing commands with
  | nil => exact h
  | cons i rest ih =>
    rw [List.foldl_cons]
    exact ih _ (modify_all (fun c => c.exclusive = true) setSilent setSilent_exclusive
      commands i h)

theorem Keeps.all {st st1 : ParseState} (h : st.Keeps st1)
    (hs : ∀ c ∈ st.rc.mCommands, c.exclusive = true) :
    ∀ c ∈ st1.rc.mCommands, c.exclusive = true := by
  obtain ⟨new, e, hn⟩ := h
  intro c hc
  rw [e] at hc
  rcases List.mem_append.1 hc with h1 | h1
  · exact hs c h1
  · exact hn c h1

theorem finishParse_exclusive (env : Env) (argv : List String) (st : ParseState)
    (leftover : Option String) (h : ∀ c ∈ st.rc.mCommands, c.exclusive = true) :
    ∀ c ∈ (finishParse env argv st leftover).commands, c.exclusive = true := by
  unfold finishParse
  cases leftover with
  | some w =>
    simp only [ParseResult.commands, ParseResult.state, write_mCommands]
    exact h
  | none =>
    simp only
    by_cases h1 : ¬ env.initLogging st.rc.mLogLevel st.logFile = true
    · rw [if_pos h1]
      simp only [ParseResult.commands, ParseResult.state, write_mCommands]
      exact h
    · rw [if_neg h1]
      by_cases h2 : st.rc.mCommands.isEmpty = true
      · rw [if_pos h2]
        simp only [ParseResult.commands, ParseResult.state, write_mCommands]
        exact h
      · rw [if_neg h2]
        simp only [ParseResult.commands, ParseResult.state, write_mCommands, finish_mCommands]
        split_ifs
        · exact markSilent_exclusive _ _ h
        · exact h

/-- Every command of the queue `parse` leaves is built by one constructor only, when
that holds of the queue it starts with. -/
theorem parse_exclusive (rc : RClient) (env : Env) (argv : List String) (stdin : List Char)
    (hrc : ∀ c ∈ rc.mCommands, c.exclusive = true) :
    ∀ c ∈ (rc.parse env argv stdin).commands, c.exclusive = true := by
  have hi : ∀ c ∈ (ParseState.init rc env stdin).rc.mCommands, c.exclusive = true := by
    rw [init_mCommands]; exact hrc
  unfold RClient.parse
  split_ifs
  · simp only [ParseResult.commands, ParseResult.state, write_mCommands]
    exact hi
  · have hk := optionLoop_keeps env argv.tail 0 none (ParseState.init rc env stdin)
      (ParseState.init rc env stdin) (Keeps.same _)
    split
    · rename_i st leftover heq
      rw [heq] at hk
      exact finishParse_exclusive env argv st leftover (Keeps.all hk hi)
    · rename_i st heq
      rw [heq] at hk
      simp only [ParseResult.commands, ParseResult.state, write_mCommands]
      exact Keeps.all hk hi
    · rename_i status st heq
      rw [heq] at hk
      exact Keeps.all hk hi
    · rename_i st heq
      rw [heq] at hk
      exact Keeps.all hk hi

/-- C24: a Compile command is built by one of two constructors: `addCompile(cwd, args)`
appends a command whose compilation-database directory is empty, and
`addCompile(dir)` appends a command whose working directory and argument string are
both empty; hence no Compile command of the queue `RClient::parse` leaves carries both
a non-empty compilation-database directory and a non-empty working directory or
argument string (when none of the queue it starts with does). -/
theorem C24_compile_constructors (rc : RClient) :
    (∀ cwd args : String,
      (rc.addCompile cwd args).mCommands
        = rc.mCommands ++ [RCCommand.CompileCommand "" cwd args]) ∧
    (∀ dir : String,
      (rc.addCompileDir dir).mCommands = rc.mCommands ++ [RCCommand.CompileCommand dir "" ""]) ∧
    (∀ (env : Env) (argv : List String) (stdin : List Char),
      (∀ c ∈ rc.mCommands, c.exclusive = true) →
      ∀ dir cwd args : String,
        RCCommand.CompileCommand dir cwd args ∈ (rc.parse env argv stdin).commands →
        ¬ (dir ≠ "" ∧ (cwd ≠ "" ∨ args ≠ ""))) := by
  refine ⟨fun _ _ => rfl, fun _ => rfl, ?_⟩
  intro env argv stdin hrc dir cwd args hmem
  have h := parse_exclusive rc env argv stdin hrc _ hmem
  simp only [RCCommand.exclusive, Bool.or_eq_true, Bool.and_eq_true, String.isEmpty_iff] at h
  rintro ⟨hd, hc⟩
  rcases h with h | ⟨h1, h2⟩
  · exact hd h
  · rcases hc with hc | hc
    · exact hc h1
    · exact hc h2

/-- C24, witness: `rc --compile gcc -c a.c` queues one Compile command, with the
working directory and the arguments and without a compilation-database directory. -/
theorem C24_witness :
    (RClient.parse {} Env.plain ["rc", "--compile", "gcc", "-c", "a.c"] []).commands
      = [RCCommand.CompileCommand "" "/w/" "gcc -c a.c"] ∧
    ∀ dir cwd args : String,
      RCCommand.CompileCommand dir cwd args ∈
        (RClient.parse {} Env.plain ["rc", "--compile", "gcc", "-c", "a.c"] []).commands →
      ¬ (dir ≠ "" ∧ (cwd ≠ "" ∨ args ≠ "")) :=
  ⟨by decide,
   (C24_compile_constructors {}).2.2 Env.plain ["rc", "--compile", "gcc", "-c", "a.c"] []
    (by intro c hc; cases hc)⟩

/-! ## Compile commands from standard input -/

theorem isSuffixOf_two (a b y x : Char) (M : List Char) :
    [a, b].isSuffixOf (M ++ [y, x]) = (b == x && a == y) := by
  simp [List.isSuffixOf, List.isPrefixOf]

theorem isSuffixOf_two_short (a b x : Char) :
    [a, b].isSuffixOf [x] = false ∧ [a, b].isSuffixOf ([] : List Char) = false := by
  simp [List.isSuffixOf, List.isPrefixOf]

/-- A list is empty, has one element, or ends with two elements. -/
theorem list_two_last (l : List Char) :
    l = [] ∨ (∃ x, l = [x]) ∨ ∃ m y x, l = m ++ [y, x] := by
  rcases List.eq_nil_or_concat l with h | ⟨l1, x, h⟩
  · exact Or.inl h
  · rcases List.eq_nil_or_concat l1 with h1 | ⟨m, y, h1⟩
    · right; left
      exact ⟨x, by rw [h, h1]; rfl⟩
    · right; right
      exact ⟨m, y, x, by rw [h, h1]; simp⟩

/-- The text joined so far is empty or ends with a space, so whether the joined text
ends with a backslash and a newline is decided by the line that was added. -/
theorem continued_append (P l : List Char) (hP : P = [] ∨ ∃ P1, P = P1 ++ [' ']) :
    ['\\', '\n'].isSuffixOf (P ++ l) = continued l := by
  unfold continued
  rcases list_two_last l with h | ⟨x, h⟩ | ⟨m, y, x, h⟩
  · subst h
    rw [List.append_nil, (isSuffixOf_two_short '\\' '\n' ' ').2]
    rcases hP with h | ⟨P1, h⟩
    · rw [h, (isSuffixOf_two_short '\\' '\n' ' ').2]
    · rw [h]
      rcases List.eq_nil_or_concat P1 with h1 | ⟨P2, z, h1⟩
      · rw [h1]; rfl
      · rw [h1, List.concat_eq_append, List.append_assoc]
        show ['\\', '\n'].isSuffixOf (P2 ++ [z, ' ']) = false
        rw [isSuffixOf_two]
        rfl
  · subst h
    rw [(isSuffixOf_two_short '\\' '\n' x).1]
    rcases hP with h | ⟨P1, h⟩
    · rw [h]
      exact (isSuffixOf_two_short '\\' '\n' x).1
    · rw [h, List.append_assoc]
      show ['\\', '\n'].isSuffixOf (P1 ++ [' ', x]) = false
      rw [isSuffixOf_two]
      simp
  · subst h
    rw [← List.append_assoc, isSuffixOf_two, isSuffixOf_two]

theorem continued_shape (l : List Char) (h : continued l = true) :
    ∃ m, l = m ++ ['\\', '\n'] := by
  unfold continued at h
  rcases list_two_last l with e | ⟨x, e⟩ | ⟨m, y, x, e⟩
  · rw [e, (isSuffixOf_two_short '\\' '\n' ' ').2] at h
    exact absurd h (by decide)
  · rw [e, (isSuffixOf_two_short '\\' '\n' x).1] at h
    exact absurd h (by decide)
  · rw [e, isSuffixOf_two] at h
    simp only [Bool.and_eq_true, beq_iff_eq] at h
    exact ⟨m, by rw [e, ← h.1, ← h.2]⟩

theorem dropLast_two (M : List Char) (y x : Char) : (M ++ [y, x]).dropLast.dropLast = M := by
  have e : M ++ [y, x] = (M ++ [y]) ++ [x] := by simp
  rw [e, List.dropLast_concat, List.dropLast_concat]

/-- The first line of a non-empty rest of the input holds what was read of it so far
and one character more. -/
theorem physicalLines_first (s acc : List Char) (hs : s ≠ []) :
    ∃ l ∈ physicalLines s acc, acc.length + 1 ≤ l.length := by
  induction s generalizing acc with
  | nil => exact absurd rfl hs
  | cons c cs ih =>
    unfold physicalLines
    split_ifs with hc
    · exact ⟨acc ++ [c], List.mem_cons_self _ _, by simp⟩
    · cases cs with
      | nil =>
        refine ⟨acc ++ [c], ?_, by simp⟩
        simp [physicalLines]
      | cons d ds =>
        obtain ⟨l, hl, hlen⟩ := ih (acc ++ [c]) (by simp)
        exact ⟨l, hl, by simp at hlen; omega⟩

/-- When no line is longer than what `fgets` reads at once, the chunks `fgets`
returns are the lines. -/
theorem fgetsChunks_lines (cap : Nat) (s acc : List Char)
    (h : ∀ l ∈ physicalLines s acc, l.length ≤ cap) :
    fgetsChunks cap s acc = physicalLines s acc := by
  induction s generalizing acc with
  | nil => rfl
  | cons c cs ih =>
    unfold fgetsChunks
    by_cases hc : c = '\n'
    · have e : physicalLines (c :: cs) acc = (acc ++ [c]) :: physicalLines cs [] := by
        rw [physicalLines, if_pos hc]
      rw [e] at h ⊢
      rw [if_pos (Or.inl hc), ih [] (fun l hl => h l (List.mem_cons_of_mem _ hl))]
    · have e : physicalLines (c :: cs) acc = physicalLines cs (acc ++ [c]) := by
        rw [physicalLines, if_neg hc]
      rw [e] at h ⊢
      by_cases hlen : (acc ++ [c]).length = cap
      · rw [if_pos (Or.inr hlen)]
        cases cs with
        | nil => simp [fgetsChunks, physicalLines]
        | cons d ds =>
          obtain ⟨l, hl, hl1⟩ := physicalLines_first (d :: ds) (acc ++ [c]) (by simp)
          have := h l hl
          omega
      · rw [if_neg (by rintro (h1 | h1); exact hc h1; exact hlen h1)]
        exact ih _ h

theorem isEmpty_mk (l : List Char) : (String.mk l).isEmpty = l.isEmpty := by
  cases l with
  | nil => rfl
  | cons c cs =>
    rw [List.isEmpty_cons, Bool.eq_false_iff]
    intro h
    have e := (String.isEmpty_iff _).1 h
    exact absurd (congrArg String.data e) (by simp)

/-- The compile case when the joined arguments are empty or `-`: standard input is
read. -/
theorem parseCompile_reads (env : Env) (st : ParseState) (optarg : Option String)
    (next : List String)
    (h : next.foldl (fun (a : String) w => (if ¬ a.isEmpty then a ++ " " else a) ++ w)
          (optarg.getD "") = "-" ∨
        (next.foldl (fun (a : String) w => (if ¬ a.isEmpty then a ++ " " else a) ++ w)
          (optarg.getD "")).isEmpty = true) :
    parseCompile env st optarg next =
      Step.next
        (if ¬ (((fgetsChunks 16383 st.stdin []).map String.mk).foldl (compileLine env)
              (st.setStdin [], "")).2.isEmpty then
          (((fgetsChunks 16383 st.stdin []).map String.mk).foldl (compileLine env)
              (st.setStdin [], "")).1.addCompile env.pwd
            (((fgetsChunks 16383 st.stdin []).map String.mk).foldl (compileLine env)
              (st.setStdin [], "")).2
         else (((fgetsChunks 16383 st.stdin []).map String.mk).foldl (compileLine env)
              (st.setStdin [], "")).1) next.length := by
  unfold parseCompile
  simp only []
  rw [if_pos h]

/-- The loop that reads compile commands from standard input queues one Compile
command for each logical line. -/
theorem foldl_compileLine_logical (env : Env) (lines : List (List Char))
    (hnul : ∀ l ∈ lines, Char.ofNat 0 ∉ l) :
    ∀ (st : ParseState) (P : List Char), (P = [] ∨ ∃ P1, P = P1 ++ [' ']) →
      (if ¬ ((lines.map String.mk).foldl (compileLine env) (st, String.mk P)).2.isEmpty then
          ((lines.map String.mk).foldl (compileLine env) (st, String.mk P)).1.addCompile env.pwd
            ((lines.map String.mk).foldl (compileLine env) (st, String.mk P)).2
        else ((lines.map String.mk).foldl (compileLine env) (st, String.mk P)).1).rc.mCommands
        = st.rc.mCommands ++
          (logicalLines lines P).map (fun l => RCCommand.CompileCommand "" env.pwd (String.mk l)) := by
  induction lines with
  | nil =>
    intro st P _
    simp only [List.map_nil, List.foldl_nil, logicalLines, isEmpty_mk]
    cases P with
    | nil => simp
    | cons c cs => simp
  | cons l ls ih =>
    have ih := ih (fun l1 h1 => hnul l1 (List.mem_cons_of_mem _ h1))
    intro st P hP
    have hpend : String.mk P ++ String.mk (cString (String.mk l).data) = String.mk (P ++ l) := by
      show String.mk P ++ String.mk (cString l) = String.mk (P ++ l)
      rw [cString_of_no_nul l (hnul l (List.mem_cons_self _ _))]
      rfl
    have hcond : endsWith (String.mk (P ++ l)) "\\\n" = continued l :=
      continued_append P l hP
    simp only [List.map_cons, List.foldl_cons]
    by_cases hc : continued l = true
    · obtain ⟨m, hm⟩ := continued_shape l hc
      have hstep : compileLine env (st, String.mk P) (String.mk l)
          = (st, String.mk (P ++ l.dropLast.dropLast ++ [' ', ' '])) := by
        unfold compileLine
        simp only [hpend, hcond, hc, not_true_eq_false, if_false]
        rw [hm, ← List.append_assoc, dropLast_two, dropLast_two]
      rw [hstep, logicalLines, if_pos hc]
      exact ih st _ (Or.inr ⟨P ++ l.dropLast.dropLast ++ [' '], by simp⟩)
    · have hstep : compileLine env (st, String.mk P) (String.mk l)
          = (st.addCompile env.pwd (String.mk (P ++ l)), String.mk []) := by
        unfold compileLine
        simp only [hpend, hcond, hc, not_false_eq_true, if_true]
        rfl
      rw [hstep, logicalLines, if_neg hc, ih _ [] (Or.inl rfl), addCompile_mCommands]
      simp

/-- The characters of the lines of a text are characters of the text. -/
theorem physicalLines_mem (s : List Char) :
    ∀ (acc l : List Char), l ∈ physicalLines s acc → ∀ c ∈ l, c ∈ acc ∨ c ∈ s := by
  induction s with
  | nil =>
    intro acc l hl c hc
    unfold physicalLines at hl
    split_ifs at hl
    · cases hl
    · rw [List.mem_singleton] at hl
      rw [hl] at hc
      exact Or.inl hc
  | cons d ds ih =>
    intro acc l hl c hc
    unfold physicalLines at hl
    split_ifs at hl
    · rcases List.mem_cons.1 hl with e | e
      · rw [e] at hc
        rcases List.mem_append.1 hc with h | h
        · exact Or.inl h
        · rw [List.mem_singleton] at h
          exact Or.inr (h ▸ List.mem_cons_self _ _)
      · rcases ih [] l e c hc with h | h
        · cases h
        · exact Or.inr (List.mem_cons_of_mem _ h)
    · rcases ih (acc ++ [d]) l hl c hc with h | h
      · rcases List.mem_append.1 h with h1 | h1
        · exact Or.inl h1
        · rw [List.mem_singleton] at h1
          exact Or.inr (h1 ▸ List.mem_cons_self _ _)
      · exact Or.inr (List.mem_cons_of_mem _ h)

/-- C30, counterexample: for `rc --compile` with the two lines `ab`, NUL, `cd`,
backslash, newline and `ef`, newline on standard input, both shorter than the read
buffer, there is one logical line, but two Compile commands are queued: the first
line is cut at the NUL byte, which also loses the continuation. -/
theorem C30_counterexample :
    (RClient.parse {} Env.plain ["rc", "--compile"] "ab\x00cd\\\nef\n".data).commands
      = [RCCommand.CompileCommand "" "/w/" "ab", RCCommand.CompileCommand "" "/w/" "ef\n"] ∧
    (logicalLines (physicalLines "ab\x00cd\\\nef\n".data []) []).map String.mk
      = ["ab\x00cd  ef\n"] ∧
    ∀ l ∈ physicalLines "ab\x00cd\\\nef\n".data [], l.length < 16384 := by
  decide

/-- C30 (amended): when `--compile` is given without arguments or with `-`, and
standard input holds no NUL byte and no line (with the newline that ends it) as long
as the read buffer of 16384 bytes, the Compile commands queued are one for each
logical line, in the order of the input: a logical line is a maximal run of lines
joined across trailing backslash-newline continuations, each backslash-newline
replaced by two spaces, and a final unterminated continuation gives one last command
with the pending text. -/
theorem C30_compile_from_stdin (env : Env) (st : ParseState) (optarg : Option String)
    (next : List String)
    (hargs : (optarg, next) ∈
      [((none : Option String), ([] : List String)), (some "-", []), (none, ["-"])])
    (hnul : Char.ofNat 0 ∉ st.stdin)
    (hlines : ∀ l ∈ physicalLines st.stdin [], l.length < 16384) :
    ∃ st1, dispatch env OptionType.Compile optarg next st = Step.next st1 next.length ∧
      st1.rc.mCommands = st.rc.mCommands ++
        (logicalLines (physicalLines st.stdin []) []).map
          (fun l => RCCommand.CompileCommand "" env.pwd (String.mk l)) := by
  have hchunks : fgetsChunks 16383 st.stdin [] = physicalLines st.stdin [] :=
    fgetsChunks_lines 16383 st.stdin [] (fun l hl => Nat.lt_succ_iff.1 (hlines l hl))
  have hno : ∀ l ∈ physicalLines st.stdin [], Char.ofNat 0 ∉ l := by
    intro l hl h0
    rcases physicalLines_mem st.stdin [] l hl _ h0 with h | h
    · cases h
    · exact hnul h
  have hfold := foldl_compileLine_logical env (physicalLines st.stdin []) hno
    (st.setStdin []) [] (Or.inl rfl)
  rw [setStdin_mCommands] at hfold
  have hd : dispatch env OptionType.Compile optarg next st = parseCompile env st optarg next := by
    simp only [dispatch]
  rw [hd]
  simp only [List.mem_cons, Prod.mk.injEq, List.mem_singleton, List.not_mem_nil,
    or_false] at hargs
  rcases hargs with ⟨h1, h2⟩ | ⟨h1, h2⟩ | ⟨h1, h2⟩
  all_goals
    subst h1 h2
    rw [parseCompile_reads env st _ _ (by decide), hchunks]
    exact ⟨_, rfl, hfold⟩

/-- C30, witness: `rc --compile` with three lines on standard input, of which the
first and the last end with a backslash and a newline. -/
theorem C30_witness :
    (∃ st1, dispatch Env.plain OptionType.Compile none []
        (ParseState.init {} Env.plain "gcc a.c \\\n -o a\ngcc b.c \\\n".data)
        = Step.next st1 ([] : List String).length ∧
      st1.rc.mCommands = (ParseState.init {} Env.plain
          "gcc a.c \\\n -o a\ngcc b.c \\\n".data).rc.mCommands ++
        (logicalLines (physicalLines (ParseState.init {} Env.plain
            "gcc a.c \\\n -o a\ngcc b.c \\\n".data).stdin []) []).map
          (fun l => RCCommand.CompileCommand "" Env.plain.pwd (String.mk l))) ∧
    (logicalLines (physicalLines "gcc a.c \\\n -o a\ngcc b.c \\\n".data []) []).map String.mk
      = ["gcc a.c    -o a\n", "gcc b.c   "] :=
  ⟨C30_compile_from_stdin Env.plain
    (ParseState.init {} Env.plain "gcc a.c \\\n -o a\ngcc b.c \\\n".data) none []
    (List.mem_cons_self _ _) (by decide) (by decide), by decide⟩

/-! ## The location codec -/

theorem numeral_toString (n : Nat) : Location.numeral (toString n).data = some n := by
  obtain ⟨hd, hv, hne⟩ := toString_nat_spec n
  unfold Location.numeral
  rw [if_pos ⟨hne, List.all_eq_true.2 hd⟩, hv]

/-- The text `path:line:col` with a non-empty path and 1-based decimal line and column
is read as that location. -/
theorem parseText_canonical (P : List Char) (line column : Nat) (hP : P ≠ [])
    (hl : 0 < line) (hc : 0 < column) :
    Location.parseText (String.mk (P ++ ':' :: ((toString line).data ++
        ':' :: (toString column).data)))
      = some { path := String.mk P, line := line, column := column } := by
  have e1 : P ++ ':' :: ((toString line).data ++ ':' :: (toString column).data)
      = (P ++ ':' :: (toString line).data) ++ ':' :: (toString column).data := by simp
  have hj : lastIndexOf ':' (P ++ ':' :: ((toString line).data ++ ':' :: (toString column).data))
      = some (P ++ ':' :: (toString line).data).length := by
    rw [e1]
    exact lastIndexOf_append ':' _ _ (colon_not_mem_toString column)
  have hi : lastIndexOf ':' (P ++ ':' :: (toString line).data) = some P.length :=
    lastIndexOf_append ':' _ _ (colon_not_mem_toString line)
  have hP0 : P.length ≠ 0 := fun h => hP (List.length_eq_zero.1 h)
  unfold Location.parseText
  simp only [hj]
  have t1 : List.take (P ++ ':' :: (toString line).data).length
      (P ++ ':' :: ((toString line).data ++ ':' :: (toString column).data))
      = P ++ ':' :: (toString line).data := by
    rw [e1, List.take_left']
    rfl
  have t2 : List.drop ((P ++ ':' :: (toString line).data).length + 1)
      (P ++ ':' :: ((toString line).data ++ ':' :: (toString column).data))
      = (toString column).data := by
    rw [e1, ← List.drop_drop, List.drop_left']
    · rfl
    · rfl
  simp only [t1, t2, hi]
  have t3 : List.drop (P.length + 1) (P ++ ':' :: (toString line).data)
      = (toString line).data := by
    rw [← List.drop_drop, List.drop_left']
    · rfl
    · rfl
  have t4 : List.take P.length
      (P ++ ':' :: ((toString line).data ++ ':' :: (toString column).data)) = P := by
    rw [List.take_left']
    rfl
  have hif : ¬ (P.length = 0 ∨ line = 0 ∨ column = 0) := by
    rintro (h | h | h)
    · exact hP0 h
    · omega
    · omega
  simp only [t3, t4, numeral_toString, hif, if_false]

theorem location_text (path : String) (line column : Nat) :
    path ++ ":" ++ toString line ++ ":" ++ toString column
      = String.mk (path.data ++ ':' :: ((toString line).data ++
          ':' :: (toString column).data)) := by
  apply String.ext
  simp [String.data_append]

theorem data_ne_nil (s : String) (h : s ≠ "") : s.data ≠ [] := by
  intro e
  apply h
  apply String.ext
  rw [e]

/-- The token of a well-formed text. -/
theorem encode_canonical (normalize : String → String) (path : String) (line column : Nat)
    (hp : path ≠ "") (hl : 0 < line) (hc : 0 < column) :
    Location.encode normalize (path ++ ":" ++ toString line ++ ":" ++ toString column)
      = normalize path ++ ":" ++ toString line ++ ":" ++ toString column := by
  unfold Location.encode
  rw [location_text, parseText_canonical path.data line column (data_ne_nil path hp) hl hc]

/-- C21: for a valid location text `path:line:col` (a non-empty path that
normalization does not make empty, 1-based decimal line and column), decoding the
token `Location::encode` produces yields the normalized path with the line and the
column; and the token is canonical: texts that are read as the same normalized
location get the same token, in particular the same text encoded twice. -/
theorem C21_location_round_trip (normalize : String → String) (path : String)
    (line column : Nat) (hp : path ≠ "") (hn : normalize path ≠ "")
    (hl : 0 < line) (hc : 0 < column) :
    Location.decode
        (Location.encode normalize (path ++ ":" ++ toString line ++ ":" ++ toString column))
      = some { path := normalize path, line := line, column := column } ∧
    (∀ (text1 text2 : String) (loc1 loc2 : Location),
      Location.parseText text1 = some loc1 → Location.parseText text2 = some loc2 →
      normalize loc1.path = normalize loc2.path → loc1.line = loc2.line →
      loc1.column = loc2.column →
      Location.encode normalize text1 = Location.encode normalize text2) := by
  constructor
  · rw [encode_canonical normalize path line column hp hl hc]
    unfold Location.decode
    rw [location_text,
      parseText_canonical (normalize path).data line column (data_ne_nil _ hn) hl hc]
  · intro text1 text2 loc1 loc2 h1 h2 e1 e2 e3
    unfold Location.encode
    rw [h1, h2]
    simp only [e1, e2, e3]

/-- C21, witness: the text `src/a.cpp:10:4` with a normalization that makes the path
absolute; the text `src/a.cpp:010:04` gets the same token. -/
theorem C21_witness :
    Location.decode (Location.encode (fun p => "/w/" ++ p)
        ("src/a.cpp" ++ ":" ++ toString 10 ++ ":" ++ toString 4))
      = some { path := "/w/" ++ "src/a.cpp", line := 10, column := 4 } ∧
    Location.encode (fun p => "/w/" ++ p) "src/a.cpp:010:04"
      = Location.encode (fun p => "/w/" ++ p) "src/a.cpp:10:4" ∧
    Location.encode (fun p => "/w/" ++ p) "src/a.cpp:10" = "" ∧
    Location.decode "" = none :=
  ⟨(C21_location_round_trip (fun p => "/w/" ++ p) "src/a.cpp" 10 4 (by decide) (by decide)
      (by decide) (by decide)).1,
   by decide, by decide, by decide⟩

end RTags
